import Mathlib

/-!
foobar: the bar-process lifecycle manager and the WM link.

A shallow embedding of `dzen.go` and `wm.go` (with the pieces of `util.go`,
`config.go` and `info-collection.go` they read).

* Global variables of the Go program are the fields of `State`.
* The operating system is part of the state: `procs` is the table of renderer
  processes ever created by `execDzen` (the index is the process id, and the
  input stream of process `k` is stream `k`), `trace` is the list of observable
  events, most recent first.
* What the program cannot decide is read from `Env`: the outcome of every
  `exec.Command(...).StdinPipe()/Start()` and, for every `go` statement, whether
  the goroutine runs right away or only at the next point where the loop that
  issued it has reassigned (or left) the variable it points to.
* A Go run-time panic is `Except.error`; the recursion
  `statusBar -> resizeDzenMainBar -> drawDzenMainBar -> drawDzenMainBarByMonitor
  -> statusBar` is cut by a fuel argument and `Fault.outOfFuel` is never a
  result the theorems accept.
-/

namespace Foobar

/-! ## Data model -/

/-- `screen` of util.go. -/
structure screen where
  width : Int
  height : Int
deriving DecidableEq, Repr

/-- `colorInfo` of dzen.go. -/
structure colorInfo where
  SidebarsBg : String
  SidebarsFg : String
  Urgent : String
  Key : String
  Value : String
  Bg : String
deriving DecidableEq, Repr

/-- `popupConfig` of dzen.go. -/
structure popupConfig where
  Info : String
  Clock : String
  Weather : String
  User : String
deriving DecidableEq, Repr

/-- `barConfig` of dzen.go. -/
structure barConfig where
  Height : Int
  LeftBarWidth : Int
  Contiguous : String
  Position : String
deriving DecidableEq, Repr

/-- The fields of `wmConfig` (config.go) read by the bar manager. -/
structure wmConfig where
  Font : String
  Colors : colorInfo
  Bar : barConfig
  Popups : popupConfig
deriving DecidableEq, Repr

/-- `info` of dzen.go; `format` (a pointer to one of the two theme format
strings) is only read by `updateFormatting` and is left out. `length` is
`len(value) + 2`, a length, hence a natural number. -/
structure info where
  icon : String
  key : String
  value : String
  formatted : String
  length : Nat
deriving DecidableEq, Repr

/-- `dzenInfo` of dzen.go. `cmd` is the `*exec.Cmd` (the id of the process
object, `none` for nil), `stdin` the `io.WriteCloser` (the id of the stream,
`none` for a nil interface). -/
structure dzenInfo where
  name : String
  cmd : Option Nat
  args : List String
  stdin : Option Nat
  hidden : Bool
deriving DecidableEq, Repr

/-- The zero value `dzenInfo{}`. -/
def dzenInfo.zero : dzenInfo :=
  { name := "", cmd := none, args := [], stdin := none, hidden := false }

/-- The two bar roles. -/
inductive Role where
  | main
  | left
deriving DecidableEq, Repr

/-- What `execDzen` can meet: the pipe and the process are created, or
`StdinPipe` fails (no stream is returned), or `Start` fails (the stream exists
but the library has closed it again). -/
inductive SpawnResult where
  | started
  | pipeError
  | startError
deriving DecidableEq, Repr

/-- One renderer process object. `role` and `monitor` record which draw
function created it; the program itself keeps no such record. -/
structure Proc where
  role : Role
  monitor : Int
  args : List String
  running : Bool
  stdinOpen : Bool
deriving DecidableEq, Repr

/-- Observable events. -/
inductive Event where
  | spawn (pid : Nat) (role : Role) (monitor : Int) (res : SpawnResult)
  | write (stream : Nat) (line : String) (accepted : Bool)
  | install (role : Role) (monitor : Int) (cmd : Option Nat)
  | closeReq (cmd : Option Nat)
  | closed (stream : Nat)
deriving DecidableEq, Repr

/-- Run-time failures of the Go program (and the fuel of the embedding). -/
inductive Fault where
  | indexOutOfRange
  | nilDereference
  | outOfFuel
deriving DecidableEq, Repr

/-- The error value of the draw functions. -/
inductive DrawError where
  | monitorIndexIncorrect
deriving DecidableEq, Repr

/-- The global variables of the program, the process table and the trace. -/
structure State where
  monitors : List screen
  config : wmConfig
  contiguousBar : Bool
  isTopBar : Bool
  leftBarWidth : Int
  barHeight : Int
  mainbarWidth : Int
  dzenMainbar : List dzenInfo
  dzenLeftbar : List dzenInfo
  data : List (String × info)
  username : String
  procs : List Proc
  trace : List Event
  goCount : Nat
deriving DecidableEq, Repr

/-- The environment: the result of the `k`-th process creation, and whether the
`k`-th goroutine runs at its `go` statement. -/
structure Env where
  spawn : Nat → SpawnResult
  eager : Nat → Bool

/-- `keys` of info-collection.go. -/
def keys : List String :=
  ["clock", "rx", "tx", "volume", "battery", "brightness", "cpu", "ram"]

/-! ## Small helpers: Go `len`, `%d`, indexing -/

/-- Go `len` of a string: its number of bytes. -/
def len (s : String) : Nat := s.utf8ByteSize

/-- The verb `%d`. -/
def fmtInt (n : Int) : String := toString n

/-- Results of fallible operations can be compared. -/
instance decEqExcept {ε α : Type} [DecidableEq ε] [DecidableEq α] :
    DecidableEq (Except ε α)
  | .ok a, .ok b =>
    if h : a = b then isTrue (by rw [h]) else isFalse (fun h' => h (by cases h'; rfl))
  | .error a, .error b =>
    if h : a = b then isTrue (by rw [h]) else isFalse (fun h' => h (by cases h'; rfl))
  | .ok _, .error _ => isFalse (fun h => by cases h)
  | .error _, .ok _ => isFalse (fun h => by cases h)

/-- Slice read `xs[i]`; out of range is a run-time panic. -/
def getAt {α : Type} (xs : List α) (i : Int) : Except Fault α :=
  if i < 0 then .error .indexOutOfRange
  else match xs[i.toNat]? with
    | some x => .ok x
    | none => .error .indexOutOfRange

/-- Slice write `xs[i] = v`; out of range is a run-time panic. -/
def setAt {α : Type} (xs : List α) (i : Int) (v : α) : Except Fault (List α) :=
  if i < 0 then .error .indexOutOfRange
  else if i.toNat < xs.length then .ok (xs.set i.toNat v)
  else .error .indexOutOfRange

/-- Apply `f` to the `n`-th element. -/
def modifyAt {α : Type} (f : α → α) : Nat → List α → List α
  | _, [] => []
  | 0, x :: xs => f x :: xs
  | n + 1, x :: xs => x :: modifyAt f n xs

/-! ## `int(float32(w) * barWidthMagic)` -/

/-- Number of low bits to drop so that `m` fits 24 bits. -/
def dropBits : Nat → Nat → Nat
  | 0, _ => 0
  | fuel + 1, m => if m < 2 ^ 24 then 0 else 1 + dropBits fuel (m / 2)

/-- Round a natural number to 24 significant bits, ties to even: the value of
the significand of the nearest `float32`. -/
def roundToEven24 (m : Nat) : Nat :=
  if m < 2 ^ 24 then m
  else
    let sh := dropBits m m
    let q := m / 2 ^ sh
    let r := m % 2 ^ sh
    let half := 2 ^ (sh - 1)
    if r < half then q * 2 ^ sh
    else if r = half then (if q % 2 = 0 then q else q + 1) * 2 ^ sh
    else (q + 1) * 2 ^ sh

/-- `int(float32(w) * barWidthMagic)` with `barWidthMagic = 7.5`: `w` is rounded
to `float32`, the product `15 * x / 2` is rounded to `float32` (rounding a
significand does not depend on the power of two), and the conversion to `int`
truncates. -/
def scaleByMagic (w : Nat) : Int :=
  ((roundToEven24 (15 * roundToEven24 w) / 2 : Nat) : Int)

/-! ## Bar content (dzen.go) -/

/-- Loop of `barWidthFromKey`: `(w, started)` after the given keys. -/
def barWidthLoop (data : List (String × info)) (key : String) :
    List String → Nat × Bool → Nat × Bool
  | [], acc => acc
  | k :: ks, (w, started) =>
    let started := if k = key then true else started
    let w := if started then w + (match data.lookup k with
                                  | some i => i.length
                                  | none => 0) else w
    barWidthLoop data key ks (w, started)

/-- `barWidthFromKey`. -/
def barWidthFromKey (s : State) (key : String) : Int :=
  let w := (barWidthLoop s.data key keys (0, false)).1
  let w := w + (len s.username + 5)
  scaleByMagic w

/-- `leftBarContent`. -/
def leftBarContent (s : State) (screen : Int) : Except Fault String :=
  let c := s.config.Colors
  if len s.config.Popups.Info > 0 then do
    let m ← getAt s.monitors screen
    pure ("^ca(1," ++ s.config.Popups.Info ++ " " ++ fmtInt (screen + 1) ++ " "
      ++ fmtInt m.width ++ " " ++ fmtInt m.height ++ ")^fg(" ++ c.SidebarsFg
      ++ ")^bg(" ++ c.SidebarsBg ++ ")  info^fg(" ++ c.SidebarsBg ++ ")^bg("
      ++ c.Bg ++ ")  ^ca()\n")
  else
    pure ("^fg(" ++ c.SidebarsFg ++ ")^bg(" ++ c.SidebarsBg ++ ")  info^fg("
      ++ c.SidebarsBg ++ ")^bg(" ++ c.Bg ++ ")  \n")

/-- Loop of `statusBarLen`: the unstyled bar. -/
def plainBar (data : List (String × info)) : List String → String → String
  | [], bar => bar
  | k :: ks, bar =>
    match data.lookup k with
    | some collected => plainBar data ks (bar ++ " " ++ collected.icon ++ " " ++ collected.value)
    | none => plainBar data ks bar

/-- `statusBarLen`. -/
def statusBarLen (s : State) : Nat := len (plainBar s.data keys "")

/-- One popup-wrapped entry of `statusBar`. -/
def popupEntry (s : State) (screen : Int) (popup key formatted : String) (bar : String) :
    Except Fault String := do
  let barWidth := barWidthFromKey s key
  let m ← getAt s.monitors screen
  pure (bar ++ " ^ca(1," ++ popup ++ " " ++ fmtInt (screen + 1) ++ " " ++ fmtInt m.width
    ++ " " ++ fmtInt m.height ++ " " ++ fmtInt barWidth ++ ")" ++ formatted ++ "^ca()")

/-- Loop of `statusBar` over the keys. -/
def styledBar (s : State) (screen : Int) : List String → String → Except Fault String
  | [], bar => pure bar
  | key :: ks, bar =>
    match s.data.lookup key with
    | some collected =>
      if key = "clock" ∧ len s.config.Popups.Clock > 0 then do
        let bar ← popupEntry s screen s.config.Popups.Clock key collected.formatted bar
        styledBar s screen ks bar
      else if key = "weather" ∧ len s.config.Popups.Weather > 0 then do
        let bar ← popupEntry s screen s.config.Popups.Weather key collected.formatted bar
        styledBar s screen ks bar
      else styledBar s screen ks (bar ++ " " ++ collected.formatted)
    | none => styledBar s screen ks bar

/-- The text computed by `statusBar` before it calls `resizeDzenMainBar`. -/
def statusBarText (s : State) (screen : Int) : Except Fault String := do
  let bar ← styledBar s screen keys ""
  let c := s.config.Colors
  if len s.config.Popups.User > 0 then do
    let m ← getAt s.monitors screen
    pure (bar ++ " ^ca(1,dzen-popup-user " ++ fmtInt (screen + 1) ++ " " ++ fmtInt m.width
      ++ " " ++ fmtInt m.height ++ ")^fg(" ++ c.SidebarsBg ++ ")^fg(" ++ c.SidebarsFg
      ++ ")^bg(" ++ c.SidebarsBg ++ ") " ++ s.username ++ " ^ca()")
  else
    pure (bar ++ " ^fg(" ++ c.SidebarsBg ++ ")^fg(" ++ c.SidebarsFg ++ ")^bg("
      ++ c.SidebarsBg ++ ") " ++ s.username ++ " ")

/-- `statusBar`, with the function it calls last, `resizeDzenMainBar`, as a
parameter (the knot is tied in `resizeDzenMainBar`). -/
def statusBarWith (resize : State → Except Fault State) (screen : Int) (s : State) :
    Except Fault (String × State) := do
  let bar ← statusBarText s screen
  let s ← resize s
  pure (bar, s)

/-! ## Processes and streams -/

/-- `execDzen`: returns `(cmd, stdin, err != nil)`. `exec.Command` always
returns a process object; when `StdinPipe` fails the stream is nil and `Start`
is not reached; when `Start` fails the stream exists but the library has closed
it again; otherwise the process runs with its stream open. -/
def execDzen (env : Env) (role : Role) (monitor : Int) (args : List String) (s : State) :
    (Option Nat × Option Nat × Bool) × State :=
  let pid := s.procs.length
  let res := env.spawn pid
  let up := decide (res = .started)
  let stdin := if res = .pipeError then none else some pid
  ((some pid, stdin, !up),
    { s with procs := s.procs ++ [{ role := role, monitor := monitor, args := args,
                                     running := up, stdinOpen := up }],
             trace := Event.spawn pid role monitor res :: s.trace })

/-- Whether stream `k` is open. -/
def streamOpen (s : State) (k : Nat) : Bool :=
  match s.procs[k]? with
  | some p => p.stdinOpen
  | none => false

/-- `io.WriteString(w, line)` with the result ignored: a nil interface is a
nil dereference, a closed stream refuses the line. -/
def writeString (w : Option Nat) (line : String) (s : State) : Except Fault State :=
  match w with
  | none => .error .nilDereference
  | some k => .ok { s with trace := Event.write k line (streamOpen s k) :: s.trace }

/-- `closeDzenBar(&dzen)`: returns the updated `dzen` and the state. The
renderer exits when its input stream is closed, so `Wait` returns. -/
def closeDzenBar (dzen : dzenInfo) (s : State) : dzenInfo × State :=
  let s := { s with trace := Event.closeReq dzen.cmd :: s.trace }
  match dzen.stdin, dzen.cmd with
  | some w, some c =>
    let s := { s with procs := modifyAt (fun p => { p with stdinOpen := false }) w s.procs,
                      trace := Event.closed w :: s.trace }
    let dzen := { dzen with hidden := true }
    let s := { s with procs := modifyAt (fun p => { p with running := false }) c s.procs }
    (dzen, s)
  | _, _ => (dzen, s)

/-! ## Drawing (dzen.go) -/

/-- `drawDzenMainBarByMonitor`, with `resizeDzenMainBar` as a parameter. The
error of `execDzen` is discarded, as in the source. In
`io.WriteString(dzenStdin, fmt.Sprintf("%s\n", statusBar(monitor)))` the call
of `statusBar` comes first. -/
def drawDzenMainBarByMonitorWith (resize : State → Except Fault State) (env : Env)
    (monitor : Int) (s : State) : Except Fault (Except DrawError dzenInfo × State) :=
  if monitor < 0 ∨ monitor ≥ (s.monitors.length : Int) then
    pure (.error .monitorIndexIncorrect, s)
  else do
    let m ← getAt s.monitors monitor
    let width := if s.contiguousBar then m.width - s.leftBarWidth else s.mainbarWidth
    let x := if s.contiguousBar then s.leftBarWidth else m.width - s.mainbarWidth - 1
    let y := if s.isTopBar then 0 else m.height - s.barHeight
    let dzenArgs := ["-xs", fmtInt (monitor + 1), "-ta", "r", "-fn", s.config.Font,
      "-x", fmtInt x, "-y", fmtInt y, "-w", fmtInt width, "-h", fmtInt s.barHeight,
      "-bg", s.config.Colors.Bg, "-fg", s.config.Colors.Key, "-e", "button2=;"]
    let ((cmd, dzenStdin, _), s) := execDzen env .main monitor dzenArgs s
    let (bar, s) ← statusBarWith resize monitor s
    let s ← writeString dzenStdin (bar ++ "\n") s
    let dzenBar : dzenInfo :=
      { name := "main bar, monitor " ++ fmtInt monitor, cmd := cmd, args := dzenArgs,
        stdin := dzenStdin, hidden := false }
    let bars ← setAt s.dzenMainbar monitor dzenBar
    pure (.ok dzenBar,
      { s with dzenMainbar := bars, trace := Event.install .main monitor cmd :: s.trace })

/-- `drawDzenLeftBarByMonitor`. -/
def drawDzenLeftBarByMonitor (env : Env) (monitor : Int) (s : State) :
    Except Fault (Except DrawError dzenInfo × State) :=
  if monitor < 0 ∨ monitor ≥ (s.monitors.length : Int) then
    pure (.error .monitorIndexIncorrect, s)
  else do
    let m ← getAt s.monitors monitor
    let y := if s.isTopBar then 0 else m.height - s.barHeight
    let dzenArgs := ["-xs", fmtInt (monitor + 1), "-ta", "l", "-fn", s.config.Font,
      "-w", fmtInt s.leftBarWidth, "-h", fmtInt s.barHeight, "-x", "0", "-y", fmtInt y,
      "-bg", s.config.Colors.Bg, "-fg", s.config.Colors.Key, "-e", "button2=;"]
    let ((cmd, dzenStdin, _), s) := execDzen env .left monitor dzenArgs s
    let content ← leftBarContent s monitor
    let s ← writeString dzenStdin content s
    let dzenBar : dzenInfo :=
      { name := "left bar, monitor " ++ fmtInt monitor, cmd := cmd, args := dzenArgs,
        stdin := dzenStdin, hidden := false }
    let bars ← setAt s.dzenLeftbar monitor dzenBar
    pure (.ok dzenBar,
      { s with dzenLeftbar := bars, trace := Event.install .left monitor cmd :: s.trace })

/-- `go closeDzenBar(&oldBar)`: the goroutine holds the address of the variable
`oldBar` of the enclosing function. It either runs at once (`env.eager`), or
it is left pending and runs when the loop has next assigned `oldBar`, or after
the loop. Returns the variable, whether a goroutine is pending, and the state. -/
def goCloseDzenBar (env : Env) (oldBar : dzenInfo) (s : State) : dzenInfo × Bool × State :=
  let k := s.goCount
  let s := { s with goCount := k + 1 }
  if env.eager k then
    let (oldBar, s) := closeDzenBar oldBar s
    (oldBar, false, s)
  else (oldBar, true, s)

/-- A pending goroutine, if there is one, runs `closeDzenBar` on what the
variable `oldBar` holds now. -/
def runPending (pending : Bool) (oldBar : dzenInfo) (s : State) : dzenInfo × State :=
  if pending then closeDzenBar oldBar s else (oldBar, s)

/-- The loop of `drawDzenMainBar` over the monitor indices still to do;
`oldBar` is the variable declared before the loop. -/
def drawDzenMainBarLoop (resize : State → Except Fault State) (env : Env) :
    List Nat → dzenInfo → Bool → State → Except Fault State
  | [], oldBar, pending, s => pure (runPending pending oldBar s).2
  | i :: rest, _, pending, s => do
    let oldBar ← getAt s.dzenMainbar i
    let (oldBar, s) := runPending pending oldBar s
    let (r, s) ← drawDzenMainBarByMonitorWith resize env i s
    match r with
    | .ok _ =>
      let (oldBar, pending, s) := goCloseDzenBar env oldBar s
      drawDzenMainBarLoop resize env rest oldBar pending s
    | .error _ => drawDzenMainBarLoop resize env rest oldBar false s

/-- `drawDzenMainBar`, with `resizeDzenMainBar` as a parameter. -/
def drawDzenMainBarWith (resize : State → Except Fault State) (env : Env) (s : State) :
    Except Fault State :=
  drawDzenMainBarLoop resize env (List.range s.monitors.length) dzenInfo.zero false s

/-- The loop of `drawDzenLeftBar`. -/
def drawDzenLeftBarLoop (env : Env) : List Nat → dzenInfo → Bool → State → Except Fault State
  | [], oldBar, pending, s => pure (runPending pending oldBar s).2
  | i :: rest, _, pending, s => do
    let oldBar ← getAt s.dzenLeftbar i
    let (oldBar, s) := runPending pending oldBar s
    let (r, s) ← drawDzenLeftBarByMonitor env i s
    match r with
    | .ok _ =>
      let (oldBar, pending, s) := goCloseDzenBar env oldBar s
      drawDzenLeftBarLoop env rest oldBar pending s
    | .error _ => drawDzenLeftBarLoop env rest oldBar false s

/-- `drawDzenLeftBar`. -/
def drawDzenLeftBar (env : Env) (s : State) : Except Fault State :=
  drawDzenLeftBarLoop env (List.range s.monitors.length) dzenInfo.zero false s

/-- `resizeDzenMainBar`. Each call uses one unit of fuel. -/
def resizeDzenMainBar (env : Env) : Nat → State → Except Fault State
  | 0 => fun _ => .error .outOfFuel
  | fuel + 1 => fun s =>
    if s.contiguousBar then pure s
    else
      let newStatusbarLen := scaleByMagic (statusBarLen s)
      if newStatusbarLen ≠ s.mainbarWidth then
        drawDzenMainBarWith (resizeDzenMainBar env fuel) env
          { s with mainbarWidth := newStatusbarLen }
      else pure s

/-- `statusBar`. -/
def statusBar (env : Env) (fuel : Nat) (screen : Int) (s : State) :
    Except Fault (String × State) :=
  statusBarWith (resizeDzenMainBar env fuel) screen s

/-- `drawDzenMainBarByMonitor`. -/
def drawDzenMainBarByMonitor (env : Env) (fuel : Nat) (monitor : Int) (s : State) :
    Except Fault (Except DrawError dzenInfo × State) :=
  drawDzenMainBarByMonitorWith (resizeDzenMainBar env fuel) env monitor s

/-- `drawDzenMainBar`. -/
def drawDzenMainBar (env : Env) (fuel : Nat) (s : State) : Except Fault State :=
  drawDzenMainBarWith (resizeDzenMainBar env fuel) env s

/-- `drawDzenBars` (the spec's `redrawAll`). -/
def drawDzenBars (env : Env) (fuel : Nat) (s : State) : Except Fault State := do
  let s ← drawDzenLeftBar env s
  let s ← drawDzenMainBar env fuel s
  resizeDzenMainBar env fuel s

/-- `drawDzenByMonitor`: both results are dropped. -/
def drawDzenByMonitor (env : Env) (fuel : Nat) (monitor : Int) (s : State) :
    Except Fault State := do
  let (_, s) ← drawDzenLeftBarByMonitor env monitor s
  let (_, s) ← drawDzenMainBarByMonitor env fuel monitor s
  pure s

/-- `closeDzenBar(&dzenLeftbar[monitor])`. -/
def closeLeftSlot (monitor : Int) (s : State) : Except Fault State := do
  let dzen ← getAt s.dzenLeftbar monitor
  let (dzen, s) := closeDzenBar dzen s
  let bars ← setAt s.dzenLeftbar monitor dzen
  pure { s with dzenLeftbar := bars }

/-- `closeDzenBar(&dzenMainbar[monitor])`. -/
def closeMainSlot (monitor : Int) (s : State) : Except Fault State := do
  let dzen ← getAt s.dzenMainbar monitor
  let (dzen, s) := closeDzenBar dzen s
  let bars ← setAt s.dzenMainbar monitor dzen
  pure { s with dzenMainbar := bars }

/-- `closeDzenByMonitor`. -/
def closeDzenByMonitor (monitor : Int) (s : State) : Except Fault State := do
  let s ← closeLeftSlot monitor s
  closeMainSlot monitor s

/-- `toggleBars`. -/
def toggleBars (env : Env) (fuel : Nat) (monitor : Int) (s : State) : Except Fault State := do
  let left ← getAt s.dzenLeftbar monitor
  let hidden := left.hidden
  if !hidden then closeDzenByMonitor monitor s
  else drawDzenByMonitor env fuel monitor s

/-- The metric collectors (`collectStats`, `collectVolume`, `collectBrightness`)
read the system; what they leave in `data` is a parameter. -/
def collectStats (collected : List (String × info)) (s : State) : State :=
  { s with data := collected }

/-- The loop shared by `updateStatusBar` and `reloadStatusBar`:
`io.WriteString(dzenMainbar[i].stdin, fmt.Sprintf("%s\n", statusBar(i)))`, the
call of `statusBar` first, then the read of the slot. -/
def pushContentLoop (env : Env) (fuel : Nat) : List Nat → State → Except Fault State
  | [], s => pure s
  | i :: rest, s => do
    let (bar, s) ← statusBar env fuel i s
    let dzen ← getAt s.dzenMainbar i
    let s ← writeString dzen.stdin (bar ++ "\n") s
    pushContentLoop env fuel rest s

/-- `updateStatusBar` (the spec's `updateContent`). -/
def updateStatusBar (env : Env) (fuel : Nat) (collected : List (String × info)) (s : State) :
    Except Fault State :=
  let s := collectStats collected s
  pushContentLoop env fuel (List.range s.dzenMainbar.length) s

/-- `reloadStatusBar` (the refresh path). -/
def reloadStatusBar (env : Env) (fuel : Nat) (collected : List (String × info)) (s : State) :
    Except Fault State :=
  let s := collectStats collected s
  pushContentLoop env fuel (List.range s.monitors.length) s

/-- `updateDzenConfig`. -/
def updateDzenConfig (s : State) : State :=
  let b := s.config.Bar
  { s with
    contiguousBar := !(decide (len b.Contiguous > 0) && decide (b.Contiguous ≠ "yes"))
    barHeight := if b.Height > 0 then b.Height else 15
    leftBarWidth := if b.LeftBarWidth > 0 then b.LeftBarWidth else 0
    isTopBar := !decide (b.Position = "bottom") }

/-- The state after `getScreensInfo`, `initDzenBars` and `loadConfig` in `main`:
the variable initialisers of dzen.go, empty `data`, one zero handle per monitor
and role, the configuration applied. -/
def initState (monitors : List screen) (config : wmConfig) (username : String) : State :=
  updateDzenConfig
    { monitors := monitors, config := config, contiguousBar := true, isTopBar := true,
      leftBarWidth := 0, barHeight := 15, mainbarWidth := 500,
      dzenMainbar := List.replicate monitors.length dzenInfo.zero,
      dzenLeftbar := List.replicate monitors.length dzenInfo.zero,
      data := [], username := username, procs := [], trace := [], goCount := 0 }

/-! ## WM link (wm.go) -/

/-- The bytes of an ASCII literal. Go strings and byte slices are lists of
bytes here. -/
def ascii (s : String) : List Nat := s.toList.map Char.toNat

/-- `bytes.Trim(recv, "\x00")`. -/
def trimNul (recv : List Nat) : List Nat :=
  ((recv.dropWhile (fun b => b = 0)).reverse.dropWhile (fun b => b = 0)).reverse

/-- `strings.Split(s, sep)` for a one-byte separator: always at least one
token. -/
def splitOn (sep : Nat) : List Nat → List (List Nat)
  | [] => [[]]
  | c :: cs =>
    if c = sep then [] :: splitOn sep cs
    else match splitOn sep cs with
      | t :: ts => (c :: t) :: ts
      | [] => [[c]]

/-- Upper-case one ASCII byte. -/
def toUpperByte (c : Nat) : Nat := if 97 ≤ c ∧ c ≤ 122 then c - 32 else c

/-- `strings.ToUpper` on ASCII letters; other bytes are kept. (On text outside
ASCII Go maps runes through the Unicode tables; no rune outside ASCII maps to a
letter of the command names compared against, so the comparisons made by this
program come out the same.) -/
def toUpper (s : List Nat) : List Nat := s.map toUpperByte

/-- Digits of `strconv.ParseUint(s, 10, 64)` without the range check: `none` on
a byte that is not a decimal digit. -/
def parseDigits : List Nat → Nat → Option Nat
  | [], acc => some acc
  | c :: cs, acc => if 48 ≤ c ∧ c ≤ 57 then parseDigits cs (acc * 10 + (c - 48)) else none

/-- `strconv.Atoi` on a 64-bit platform: `none` when it returns an error (empty
text, a sign alone, a byte that is no digit, a value outside `int`). -/
def atoi (s : List Nat) : Option Int :=
  match s with
  | [] => none
  | c :: cs =>
    let neg := decide (c = 45)
    let digits := if c = 45 ∨ c = 43 then cs else s
    match digits with
    | [] => none
    | _ =>
      match parseDigits digits 0 with
      | none => none
      | some n =>
        if neg then (if n ≤ 2 ^ 63 then some (-(n : Int)) else none)
        else (if n < 2 ^ 63 then some (n : Int) else none)

/-- `parseReceivedData`. The `fmt.Println(err)` branch changes nothing. -/
def parseReceivedData (env : Env) (fuel : Nat) (recv : List Nat) (s : State) :
    Except Fault State := do
  let received := trimNul recv
  let tokens := splitOn 32 received
  let command ← getAt tokens 0
  if toUpper command = ascii "TOGGLE-BAR" then do
    let index ← getAt tokens 1
    match atoi index with
    | some monitor => toggleBars env fuel monitor s
    | none => pure s
  else pure s

/-! ## Predicates used by the statements -/

/-- The bar tables have one entry per monitor, as `initDzenBars` makes them. -/
def WF (s : State) : Prop :=
  s.dzenMainbar.length = s.monitors.length ∧ s.dzenLeftbar.length = s.monitors.length

/-- The target width of `resizeDzenMainBar`. -/
def targetWidth (s : State) : Int := scaleByMagic (statusBarLen s)

/-- `resizeDzenMainBar` has nothing to do: the bar is contiguous or the width
is already the target. -/
def Settled (s : State) : Prop :=
  s.contiguousBar = true ∨ targetWidth s = s.mainbarWidth

/-- `StdinPipe` never fails. -/
def NoPipeError (env : Env) : Prop := ∀ k, env.spawn k ≠ .pipeError

/-- The guard of `closeDzenBar`: the handle has a stream and a process. -/
def isDrawn (d : dzenInfo) : Bool := d.stdin.isSome && d.cmd.isSome

/-- A handle as a draw function builds it around process `pid`. -/
def Fresh (h : dzenInfo) (pid : Nat) : Prop :=
  h.cmd = some pid ∧ h.stdin = some pid ∧ h.hidden = false

/-- Number of running renderer processes launched for `(role, monitor)`. -/
def liveCount (s : State) (r : Role) (m : Int) : Nat :=
  s.procs.countP (fun p => decide (p.role = r) && decide (p.monitor = m) && p.running)

/-- What `closeDzenBar` leaves in the variable it is given. -/
def closeVar (d : dzenInfo) : dzenInfo := if isDrawn d then { d with hidden := true } else d

/-- What `closeDzenBar` does to the process table. -/
def closeProcs (d : dzenInfo) (procs : List Proc) : List Proc :=
  match d.stdin, d.cmd with
  | some w, some c =>
    modifyAt (fun p => { p with running := false }) c
      (modifyAt (fun p => { p with stdinOpen := false }) w procs)
  | _, _ => procs

/-- What `closeDzenBar` adds to the trace. -/
def closeTrace (d : dzenInfo) (trace : List Event) : List Event :=
  match d.stdin, d.cmd with
  | some w, some _ => Event.closed w :: Event.closeReq d.cmd :: trace
  | _, _ => Event.closeReq d.cmd :: trace

/-- The record of which draw function created each process. -/
def tagsOf (procs : List Proc) : List (Role × Int) := procs.map (fun p => (p.role, p.monitor))

/-- The program variables that no bar operation assigns. -/
structure SameVars (s s' : State) : Prop where
  monitors : s'.monitors = s.monitors
  config : s'.config = s.config
  contiguousBar : s'.contiguousBar = s.contiguousBar
  isTopBar : s'.isTopBar = s.isTopBar
  leftBarWidth : s'.leftBarWidth = s.leftBarWidth
  barHeight : s'.barHeight = s.barHeight
  data : s'.data = s.data
  username : s'.username = s.username

/-- What the main-bar machinery never touches: the fixed variables, the left
bars and the number of main-bar slots. -/
structure MainFrame (s s' : State) : Prop where
  vars : SameVars s s'
  left : s'.dzenLeftbar = s.dzenLeftbar
  mainLen : s'.dzenMainbar.length = s.dzenMainbar.length

/-- Every main-bar slot has been relaunched once, in order, since `s`: slot `t`
holds a handle around the `t`-th process created after `s`, and these are the
only processes created. -/
def Relaunched (s s' : State) : Prop :=
  (∀ t, t < s.monitors.length →
      ∃ h, s'.dzenMainbar[t]? = some h ∧ Fresh h (s.procs.length + t)) ∧
  tagsOf s'.procs = tagsOf s.procs ++
      (List.range s.monitors.length).map (fun (t : Nat) => (Role.main, (t : Int)))

/-- Invariant of the loop of `drawDzenMainBar` before it handles monitor `j`. -/
structure LoopInv (s0 : State) (j : Nat) (s : State) : Prop where
  frame : MainFrame s0 s
  width : s.mainbarWidth = s0.mainbarWidth
  done : ∀ t, t < j → ∃ h, s.dzenMainbar[t]? = some h ∧ Fresh h (s0.procs.length + t)
  todo : ∀ t, j ≤ t → s.dzenMainbar[t]? = s0.dzenMainbar[t]?
  tags : tagsOf s.procs = tagsOf s0.procs ++ (List.range j).map (fun (t : Nat) => (Role.main, (t : Int)))
/-- The two bars of monitor `m` are in the same condition: the same hidden
flag, and both have a stream and a process or neither has. -/
def InSync (s : State) (m : Nat) : Prop :=
  ∃ l r, s.dzenLeftbar[m]? = some l ∧ s.dzenMainbar[m]? = some r ∧
    l.hidden = r.hidden ∧ isDrawn l = isDrawn r

/-- The hidden flag of the left bar of monitor `m`. -/
def leftHidden (s : State) (m : Nat) : Option Bool := s.dzenLeftbar[m]?.map (fun d => d.hidden)

/-- The hidden flag of the main bar of monitor `m`. -/
def mainHidden (s : State) (m : Nat) : Option Bool := s.dzenMainbar[m]?.map (fun d => d.hidden)
/-! ## Concrete configurations used at the counterexamples and witnesses -/

/-- A colour theme. -/
def demoColors : colorInfo :=
  { SidebarsBg := "#222", SidebarsFg := "#eee", Urgent := "#f00", Key := "#888",
    Value := "#fff", Bg := "#000" }

/-- A configuration with the default, contiguous main bar and no popups. -/
def contiguousConfig : wmConfig :=
  { Font := "fixed", Colors := demoColors,
    Bar := { Height := 0, LeftBarWidth := 0, Contiguous := "", Position := "" },
    Popups := { Info := "", Clock := "", Weather := "", User := "" } }

/-- The same configuration with a floating main bar (`"Contiguous": "no"`). -/
def floatingConfig : wmConfig :=
  { contiguousConfig with
    Bar := { Height := 0, LeftBarWidth := 0, Contiguous := "no", Position := "" } }

/-- One monitor. -/
def oneMonitor : List screen := [{ width := 1920, height := 1080 }]

/-- Two monitors. -/
def twoMonitors : List screen :=
  [{ width := 1920, height := 1080 }, { width := 1920, height := 1080 }]

/-- Every process starts, every goroutine runs at its `go` statement. -/
def eagerEnv : Env := { spawn := fun _ => .started, eager := fun _ => true }

/-- Every process starts, every goroutine runs only after the variable it points
to has been reassigned (or the loop has ended). -/
def deferredEnv : Env := { spawn := fun _ => .started, eager := fun _ => false }

/-- A snapshot with a clock, as `formatData` stores it. -/
def clockData : List (String × info) :=
  [("clock", { icon := "c", key := "clock", value := "12:00:00",
               formatted := "^fg(#888)c ^fg(#fff)12:00:00", length := 10 })]

/-- Start-up of a floating bar on one monitor, then the window manager hides
monitor 0, then one tick with a clock in the snapshot. -/
def desyncRun : Except Fault State := do
  let s ← drawDzenBars eagerEnv 3 (initState oneMonitor floatingConfig "user")
  let s ← toggleBars eagerEnv 3 0 s
  updateStatusBar eagerEnv 3 clockData s

/-- The state after start-up (`drawDzenBars` in `main`) with one monitor and a
contiguous bar. -/
def startedState : State :=
  match drawDzenBars eagerEnv 3 (initState oneMonitor contiguousConfig "user") with
  | .ok s => s
  | .error _ => initState oneMonitor contiguousConfig "user"
/-- Event `e` is a content write to the input stream of handle `d`. -/
def WritesTo (e : Event) (d : dzenInfo) : Prop :=
  ∃ k line accepted, d.stdin = some k ∧ e = Event.write k line accepted

/-- Every main-bar slot of every monitor holds a handle with a stream. -/
def AllStdin (s : State) : Prop :=
  ∀ t, t < s.monitors.length → ∃ d k, s.dzenMainbar[t]? = some d ∧ d.stdin = some k

/-- Invariant of the loop of `updateStatusBar` before monitor `j`; `s0` is the
state when the loop starts. -/
structure PushInv (s0 : State) (j : Nat) (s : State) : Prop where
  frame : MainFrame s0 s
  stdin : AllStdin s
  quiet : Settled s0 → s.dzenMainbar = s0.dzenMainbar ∧ s.procs = s0.procs ∧
    s.mainbarWidth = s0.mainbarWidth ∧
    ∃ ws, s.trace = ws ++ s0.trace ∧ List.Forall₂ WritesTo ws.reverse (s0.dzenMainbar.take j)
/-- A metric value of 1118483 bytes. -/
def longValue : String := String.mk (List.replicate 1118483 'x')

/-- A snapshot whose only metric is a clock with that value and no icon. -/
def longData : List (String × info) :=
  [("clock", { icon := "", key := "clock", value := longValue,
               formatted := "^fg(#888) ^fg(#fff)" ++ longValue, length := 1118485 })]

/-- A content write that its stream refused (the stream was closed). -/
def isRefused : Event → Bool
  | .write _ _ false => true
  | _ => false

/-- The trace of `s'` extends the trace of `s` by events none of which is a
refused write. -/
def NoRefusedSince (s s' : State) : Prop :=
  ∃ new, s'.trace = new ++ s.trace ∧ new.all (fun e => !isRefused e) = true

/-- Every main-bar slot holds a handle whose input stream is open. -/
def MainOpen (s : State) : Prop :=
  ∀ t, t < s.monitors.length →
    ∃ d k, s.dzenMainbar[t]? = some d ∧ d.stdin = some k ∧ streamOpen s k = true

/-- Every process creation succeeds. -/
def AllStarted (env : Env) : Prop := ∀ k, env.spawn k = .started

/-- Invariant of the loop of `drawDzenMainBar` about streams: the processes
created since `s0` have their stream open, the variable `oldBar` holds a handle
older than `s0`, no write was refused. -/
structure OpenInv (s0 : State) (j : Nat) (s : State) (oldBar : dzenInfo) : Prop where
  base : LoopInv s0 j s
  newOpen : ∀ k, s0.procs.length ≤ k → k < s.procs.length → streamOpen s k = true
  var : ∀ w, oldBar.stdin = some w → w < s0.procs.length
  noRefused : NoRefusedSince s0 s

/-- What a main-bar draw of monitor `m` that triggers no resize does to the
state: it appends process `pr`, installs handle `h`, and logs the spawn, the
first content write and the installation. -/
structure DrawnMain (s s2 : State) (m : Nat) (h : dzenInfo) (pr : Proc) (line : String)
    (res : SpawnResult) : Prop where
  vars : SameVars s s2
  width : s2.mainbarWidth = s.mainbarWidth
  left : s2.dzenLeftbar = s.dzenLeftbar
  main : s2.dzenMainbar = s.dzenMainbar.set m h
  procs : s2.procs = s.procs ++ [pr]
  trace : s2.trace = Event.install .main m h.cmd :: Event.write s.procs.length line pr.stdinOpen
    :: Event.spawn s.procs.length .main m res :: s.trace
  goCount : s2.goCount = s.goCount

/-- The target stream and the acceptance of a content write. -/
def writeInfo : Event → Option (Nat × Bool)
  | .write k _ accepted => some (k, accepted)
  | _ => none
/-- The events added between `s` and `s'`, oldest first. -/
def eventsSince (s s' : State) : List Event :=
  (s'.trace.take (s'.trace.length - s.trace.length)).reverse

/-- The installations and close requests of a trace. -/
def lifecycle (t : List Event) : List Event :=
  t.filter (fun e => match e with
    | .install _ _ _ => true
    | .closeReq _ => true
    | _ => false)

/-- Every goroutine runs at its `go` statement; process creation number `bad`
fails in `Start`, every other one succeeds. -/
def startFailsAt (bad : Nat) : Env :=
  { spawn := fun k => if k = bad then .startError else .started, eager := fun _ => true }

/-- Every goroutine runs at its `go` statement; process creation number `bad`
fails in `StdinPipe`, every other one succeeds. -/
def pipeFailsAt (bad : Nat) : Env :=
  { spawn := fun k => if k = bad then .pipeError else .started, eager := fun _ => true }

/-- Whether a draw returned a nil error. -/
def drewWithoutError (r : Except DrawError dzenInfo) : Bool :=
  match r with
  | .ok _ => true
  | .error _ => false

/-! ## WM link, outbound (wm.go) -/

/-- The global `socket` of wm.go, as far as `sendCmdToWm` is concerned: whether
it is nil, and the byte slices handed to `socket.Write`, oldest first. -/
structure WmSocket where
  isNil : Bool
  written : List (List Nat)
deriving DecidableEq, Repr

/-- `sendCmdToWm`. Whether `socket.Write` returns an error only selects the
message printed afterwards. -/
def sendCmdToWm (cmd : List Nat) (socket : WmSocket) : WmSocket :=
  if socket.isNil then socket
  else
    let upper := toUpper cmd
    if upper = ascii "THEME-RELOAD" then
      let dataToSend := upper
      { socket with written := socket.written ++ [dataToSend] }
    else socket

/-- The first token `tokens[0]` of an inbound message. -/
def firstToken (recv : List Nat) : List Nat := (splitOn 32 (trimNul recv)).headD []

/-! ## The ticker (foobar.go) -/

/-- `time.Second` in nanoseconds. -/
def second : Int := 1000000000

/-- `Time.Truncate(d)` on an instant given in nanoseconds: the instant rounded
down to a multiple of `d`; for `d <= 0` the instant itself. -/
def truncate (t d : Int) : Int := if d ≤ 0 then t else t - t % d

/-- The argument of `time.Sleep` in the loop of `main`:
`now.Truncate(time.Second).Add(time.Second).Sub(now)`. -/
def sleepDuration (now : Int) : Int := (truncate now second + second) - now

/-! ## Width of the floating bar, as the specification words it -/

/-- The stored length of metric `k`, zero when the snapshot has no such metric
(`data[k].length` on a missing key). -/
def storedLength (data : List (String × info)) (k : String) : Nat :=
  match data.lookup k with
  | some i => i.length
  | none => 0

/-- The sum of the stored lengths of every metric from `key` onward in the key
order `ks`; metrics before `key` are not counted. -/
def widthFrom (data : List (String × info)) (key : String) (ks : List String) : Nat :=
  ((ks.dropWhile (fun k => decide (k ≠ key))).map (storedLength data)).sum

/-- The snapshot of the example: stored lengths clock 5, rx 6, tx 6, volume 3,
battery 4 (values of 3, 4, 4, 1 and 2 bytes), nothing else. -/
def exampleData : List (String × info) :=
  [("clock", { icon := "c", key := "clock", value := "9am", formatted := "c 9am", length := 5 }),
   ("rx", { icon := "r", key := "rx", value := "1.2K", formatted := "r 1.2K", length := 6 }),
   ("tx", { icon := "t", key := "tx", value := "3.4K", formatted := "t 3.4K", length := 6 }),
   ("volume", { icon := "v", key := "volume", value := "5", formatted := "v 5", length := 3 }),
   ("battery", { icon := "b", key := "battery", value := "42", formatted := "b 42", length := 4 })]

/-- The example snapshot collected after start-up, user name `user`. -/
def exampleState : State := collectStats exampleData startedState

/-- The long snapshot collected after start-up, user name `bob`. -/
def longUserState : State :=
  collectStats longData (initState oneMonitor floatingConfig "bob")

/-! ## Termination of the redraw recursion -/

/-- From `s` to `s'` the fixed variables and `mainbarWidth` are kept and the
processes created are exactly `new`, in order. -/
structure Kept (s s' : State) (new : List (Role × Int)) : Prop where
  vars : SameVars s s'
  width : s'.mainbarWidth = s.mainbarWidth
  tags : tagsOf s'.procs = tagsOf s.procs ++ new

/-- The main-bar processes of monitors `is`, one each. -/
def mainTags (is : List Nat) : List (Role × Int) := is.map (fun (t : Nat) => (Role.main, (t : Int)))

/-- The run ended, in a result or in a Go panic, without using up the fuel of
the embedding. -/
def Finishes {α : Type} (r : Except Fault α) : Prop := r ≠ .error .outOfFuel

/-! ## Comparison of command names, as the specification words it -/

/-- Byte `x` is byte `y`, or `y` is an upper-case ASCII letter and `x` is its
lower-case form. Written without `toUpper`. -/
def sameLetter (x y : Nat) : Bool :=
  decide (x = y) || (decide (65 ≤ y ∧ y ≤ 90) && decide (x = y + 32))

/-- The command `cmd` is the name `name` up to the case of its ASCII letters:
the same length, and byte by byte the same letter. Written without `toUpper`,
to be compared with the test `strings.ToUpper(cmd) == name` of the source. -/
def namesCommand : List Nat → List Nat → Bool
  | [], [] => true
  | x :: cmd, y :: name => sameLetter x y && namesCommand cmd name
  | _, _ => false

/-! ## Targets of content writes -/

/-- Event `e` is a content write to the input stream of handle `d`, accepted
exactly when that stream is open in `s`. -/
def WritesAs (s : State) (e : Event) (d : dzenInfo) : Prop :=
  ∃ k line, d.stdin = some k ∧ e = Event.write k line (streamOpen s k)

/-- From `s` to `s'` no main-bar handle was replaced, no process was created or
closed, and the events added are content writes only: one per main-bar slot, in
monitor order, each to the stream its slot holds and accepted exactly when that
stream is open. -/
def WroteEach (s s' : State) : Prop :=
  s'.dzenMainbar = s.dzenMainbar ∧ s'.procs = s.procs ∧
  ∃ ws, s'.trace = ws ++ s.trace ∧ List.Forall₂ (WritesAs s) ws.reverse s.dzenMainbar

/-- The stream and the process of handle `d`, where it has them, are among the
first `n` processes. -/
def knownHandle (n : Nat) (d : dzenInfo) : Bool :=
  (match d.stdin with
   | some w => decide (w < n)
   | none => true) &&
  (match d.cmd with
   | some c => decide (c < n)
   | none => true)

/-- Every main-bar handle refers to processes that exist: the program only
stores handles that `execDzen` returned. -/
def KnownHandles (s : State) : Prop :=
  ∀ d ∈ s.dzenMainbar, knownHandle s.procs.length d = true

/-- Invariant of the loop of `updateStatusBar` before monitor `j` when no
redraw is triggered; `s0` is the state when the loop starts. -/
structure PushExactInv (s0 : State) (j : Nat) (s : State) : Prop where
  frame : MainFrame s0 s
  width : s.mainbarWidth = s0.mainbarWidth
  main : s.dzenMainbar = s0.dzenMainbar
  procs : s.procs = s0.procs
  writes : ∃ ws, s.trace = ws ++ s0.trace ∧
    List.Forall₂ (WritesAs s0) ws.reverse (s0.dzenMainbar.take j)

/-- Invariant of the loop of `updateStatusBar` before monitor `j` when every
process starts: either every slot holds an open stream, or the loop has not
started and its first `statusBar` call will redraw every main bar. -/
structure PushKnownInv (s0 : State) (j : Nat) (s : State) : Prop where
  frame : MainFrame s0 s
  noRefused : NoRefusedSince s0 s
  ready : MainOpen s ∨ (j = 0 ∧ ¬ Settled s ∧ KnownHandles s)

/-- The state after start-up with one monitor and a contiguous bar, then the
window manager hides monitor 0 (`TOGGLE-BAR 0`). -/
def hiddenState : State :=
  match toggleBars eagerEnv 3 0 startedState with
  | .ok s => s
  | .error _ => startedState

/-- The state after start-up with one monitor and a floating bar, then the
window manager hides monitor 0. -/
def hiddenFloatingState : State :=
  match (do let s ← drawDzenBars eagerEnv 3 (initState oneMonitor floatingConfig "user")
            toggleBars eagerEnv 3 0 s) with
  | .ok s => s
  | .error _ => initState oneMonitor floatingConfig "user"

/-! ## What a relaunch of the main bars leaves behind -/

/-- Whether process `k` is running. -/
def procRunning (s : State) (k : Nat) : Bool :=
  match s.procs[k]? with
  | some p => p.running
  | none => false

/-- The bar behind handle `d` has been closed: if `d` has a stream and a
process (the guard of `closeDzenBar`), the stream is closed and the process no
longer runs. -/
def Retired (s : State) (d : dzenInfo) : Prop :=
  ∀ w c, d.stdin = some w → d.cmd = some c → streamOpen s w = false ∧ procRunning s c = false

/-- Every goroutine runs at its `go` statement. -/
def AllEager (env : Env) : Prop := ∀ k, env.eager k = true

/-- `StdinPipe` fails for none of the `n` process creations that follow `s`. -/
def PipesOk (env : Env) (s : State) (n : Nat) : Prop :=
  ∀ t, t < n → env.spawn (s.procs.length + t) ≠ .pipeError

/-- The part of the invariant of the loop of `drawDzenMainBar` that needs the
handles installed at `s0` to refer to processes that exist: the renderers
started since `s0` run with their stream open, the variable `oldBar` holds ids
older than `s0`, and, when every goroutine runs at its `go` statement, the bars
that the slots before `j` held at `s0` have been closed. -/
structure RelaunchExtra (env : Env) (s0 : State) (j : Nat) (s : State) (oldBar : dzenInfo) :
    Prop where
  live : ∀ t, t < j → env.spawn (s0.procs.length + t) = .started →
    procRunning s (s0.procs.length + t) = true ∧ streamOpen s (s0.procs.length + t) = true
  var : knownHandle s0.procs.length oldBar = true
  retired : AllEager env → ∀ (t : Nat) (d : dzenInfo), t < j → s0.dzenMainbar[t]? = some d →
    Retired s d

/-- Invariant of the loop of `drawDzenMainBar` before monitor `j`, for the
relaunch made by `resizeDzenMainBar`. -/
structure RelaunchInv (env : Env) (s0 : State) (j : Nat) (s : State) (oldBar : dzenInfo) :
    Prop where
  base : LoopInv s0 j s
  extra : KnownHandles s0 → RelaunchExtra env s0 j s oldBar

/-- What `resizeDzenMainBar` has done when it returns `s'` from a state `s`
whose width was not the target: the target is stored, every monitor has a new
main-bar process, created in monitor order and installed in its slot, and the
left bars are untouched; when the handles installed at `s` refer to processes
that exist, each new process whose `Start` succeeded runs with its stream open,
and, when moreover every goroutine runs at its `go` statement, the main bar
that each slot held at `s` has been closed. -/
structure Resized (env : Env) (s s' : State) : Prop where
  width : s'.mainbarWidth = targetWidth s
  relaunched : Relaunched s s'
  left : s'.dzenLeftbar = s.dzenLeftbar
  live : KnownHandles s → ∀ t, t < s.monitors.length →
    env.spawn (s.procs.length + t) = .started →
    procRunning s' (s.procs.length + t) = true ∧ streamOpen s' (s.procs.length + t) = true
  retired : KnownHandles s → AllEager env →
    ∀ (t : Nat) (d : dzenInfo), s.dzenMainbar[t]? = some d → Retired s' d

/-- A metric icon of 1118475 bytes (icons are read from the configuration). -/
def longIcon : String := String.mk (List.replicate 1118475 'x')

/-- A snapshot whose only metric is a clock with that icon, as `formatData`
stores it. -/
def longIconData : List (String × info) :=
  [("clock", { icon := longIcon, key := "clock", value := "12:00:00",
               formatted := "^fg(#888)" ++ longIcon ++ " ^fg(#fff)12:00:00", length := 10 })]

/-- One monitor, floating bar, the state after `initDzenBars` and `loadConfig`
(`mainbarWidth` is 500), with the long-icon snapshot collected: the unstyled
status is 1118485 bytes long. -/
def longIconState : State :=
  collectStats longIconData (initState oneMonitor floatingConfig "user")

/-- The state after start-up with one monitor and a floating bar, with a clock
collected by the first tick: the width stored at start-up (0, for the empty
snapshot) is no longer the target. -/
def tickedFloatingState : State :=
  match drawDzenBars eagerEnv 3 (initState oneMonitor floatingConfig "user") with
  | .ok s => collectStats clockData s
  | .error _ => initState oneMonitor floatingConfig "user"

/-! ## Lemmas -/

theorem getAt_nat {α : Type} (xs : List α) (i : Nat) (h : i < xs.length) :
    getAt xs (i : Int) = .ok xs[i] := by
  simp [getAt, h]

theorem setAt_nat {α : Type} (xs : List α) (i : Nat) (v : α) (h : i < xs.length) :
    setAt xs (i : Int) v = .ok (xs.set i v) := by
  simp [setAt, h]

theorem resize_settled (env : Env) (f : Nat) (s : State) (h : Settled s) :
    resizeDzenMainBar env (f + 1) s = .ok s := by
  unfold resizeDzenMainBar
  rcases h with h | h
  · simp [h, pure, Except.pure]
  · by_cases hc : s.contiguousBar = true
    · simp [hc, pure, Except.pure]
    · simp [hc, targetWidth] at h ⊢
      simp [h, pure, Except.pure]

theorem popupEntry_ok (s : State) (screen : Nat) (h : screen < s.monitors.length)
    (popup key formatted bar : String) :
    ∃ t, popupEntry s screen popup key formatted bar = .ok t := by
  simp [popupEntry, getAt_nat _ _ h, bind, Except.bind, pure, Except.pure]

theorem styledBar_ok (s : State) (screen : Nat) (h : screen < s.monitors.length) :
    ∀ (ks : List String) (bar : String), ∃ t, styledBar s screen ks bar = .ok t := by
  intro ks
  induction ks with
  | nil => intro bar; exact ⟨bar, rfl⟩
  | cons k ks ih =>
    intro bar
    unfold styledBar
    split
    · rename_i collected _
      split
      · obtain ⟨t, ht⟩ := popupEntry_ok s screen h s.config.Popups.Clock k collected.formatted bar
        simp [ht, bind, Except.bind]
        exact ih t
      · split
        · obtain ⟨t, ht⟩ := popupEntry_ok s screen h s.config.Popups.Weather k collected.formatted bar
          simp [ht, bind, Except.bind]
          exact ih t
        · exact ih _
    · exact ih bar

theorem statusBarText_ok (s : State) (screen : Nat) (h : screen < s.monitors.length) :
    ∃ t, statusBarText s screen = .ok t := by
  obtain ⟨t, ht⟩ := styledBar_ok s screen h keys ""
  unfold statusBarText
  simp only [ht, bind, Except.bind]
  split
  · simp [getAt_nat _ _ h, pure, Except.pure]
  · simp [pure, Except.pure]

theorem leftBarContent_ok (s : State) (screen : Nat) (h : screen < s.monitors.length) :
    ∃ t, leftBarContent s screen = .ok t := by
  unfold leftBarContent
  split
  · simp [getAt_nat _ _ h, bind, Except.bind, pure, Except.pure]
  · simp [pure, Except.pure]

theorem streamOpen_append_new (s : State) (p : Proc) (tr : List Event) :
    streamOpen { s with procs := s.procs ++ [p], trace := tr } s.procs.length = p.stdinOpen := by
  simp [streamOpen]

theorem drawLeft_spec (env : Env) (m : Nat) (s : State) (hm : m < s.monitors.length)
    (hwf : WF s) (hp : env.spawn s.procs.length ≠ .pipeError) :
    ∃ h p line, drawDzenLeftBarByMonitor env m s =
        .ok (.ok h, { s with
          procs := s.procs ++ [p]
          trace := Event.install .left m h.cmd :: Event.write s.procs.length line p.stdinOpen
            :: Event.spawn s.procs.length .left m (env.spawn s.procs.length) :: s.trace
          dzenLeftbar := s.dzenLeftbar.set m h })
      ∧ Fresh h s.procs.length ∧ p.role = .left ∧ p.monitor = m
      ∧ p.running = decide (env.spawn s.procs.length = .started)
      ∧ p.stdinOpen = decide (env.spawn s.procs.length = .started) := by
  have hm' : ¬ ((m : Int) < 0 ∨ (m : Int) ≥ (s.monitors.length : Int)) := by
    simp; omega
  obtain ⟨line, hline⟩ := leftBarContent_ok
    (execDzen env .left m ["-xs", fmtInt ((m : Int) + 1), "-ta", "l", "-fn", s.config.Font,
      "-w", fmtInt s.leftBarWidth, "-h", fmtInt s.barHeight, "-x", "0", "-y",
      fmtInt (if s.isTopBar then 0 else (s.monitors[m]).height - s.barHeight),
      "-bg", s.config.Colors.Bg, "-fg", s.config.Colors.Key, "-e", "button2=;"] s).2 m
    (by simpa [execDzen] using hm)
  unfold drawDzenLeftBarByMonitor
  rw [if_neg hm']
  simp only [getAt_nat _ _ hm, bind, Except.bind, hline]
  simp only [execDzen, hp, if_false, writeString, streamOpen_append_new]
  rw [setAt_nat _ _ _ (by simpa using hwf.2 ▸ hm)]
  refine ⟨_, _, line, rfl, ⟨rfl, rfl, rfl⟩, rfl, rfl, rfl, rfl⟩

theorem drawMain_settled (env : Env) (f : Nat) (m : Nat) (s : State)
    (hm : m < s.monitors.length) (hwf : WF s) (hs : Settled s)
    (hp : env.spawn s.procs.length ≠ .pipeError) :
    ∃ h p line, drawDzenMainBarByMonitorWith (resizeDzenMainBar env (f + 1)) env m s =
        .ok (.ok h, { s with
          procs := s.procs ++ [p]
          trace := Event.install .main m h.cmd :: Event.write s.procs.length line p.stdinOpen
            :: Event.spawn s.procs.length .main m (env.spawn s.procs.length) :: s.trace
          dzenMainbar := s.dzenMainbar.set m h })
      ∧ Fresh h s.procs.length ∧ p.role = .main ∧ p.monitor = m
      ∧ p.running = decide (env.spawn s.procs.length = .started)
      ∧ p.stdinOpen = decide (env.spawn s.procs.length = .started) := by
  have hm' : ¬ ((m : Int) < 0 ∨ (m : Int) ≥ (s.monitors.length : Int)) := by
    simp; omega
  unfold drawDzenMainBarByMonitorWith
  rw [if_neg hm']
  simp only [getAt_nat _ _ hm, bind, Except.bind]
  generalize hargs : (["-xs", fmtInt ((m : Int) + 1), "-ta", "r", "-fn", s.config.Font, "-x",
      fmtInt (if s.contiguousBar = true then s.leftBarWidth
        else s.monitors[m].width - s.mainbarWidth - 1), "-y",
      fmtInt (if s.isTopBar = true then 0 else s.monitors[m].height - s.barHeight), "-w",
      fmtInt (if s.contiguousBar = true then s.monitors[m].width - s.leftBarWidth
        else s.mainbarWidth), "-h", fmtInt s.barHeight,
      "-bg", s.config.Colors.Bg, "-fg", s.config.Colors.Key, "-e", "button2=;"] : List String) = args
  obtain ⟨line, hline⟩ := statusBarText_ok (execDzen env .main m args s).2 m
    (by simpa [execDzen] using hm)
  have hs1 : Settled (execDzen env .main m args s).2 := by
    simpa [execDzen, Settled, targetWidth, statusBarLen] using hs
  simp only [statusBarWith, bind, Except.bind, hline, resize_settled env f _ hs1, pure, Except.pure]
  simp only [execDzen, hp, if_false, writeString, streamOpen_append_new]
  rw [setAt_nat _ _ _ (by simpa using hwf.1 ▸ hm)]
  refine ⟨_, _, line ++ "\n", rfl, ⟨rfl, rfl, rfl⟩, rfl, rfl, rfl, rfl⟩

theorem closeDzenBar_eq (d : dzenInfo) (s : State) :
    closeDzenBar d s =
      (closeVar d, { s with procs := closeProcs d s.procs, trace := closeTrace d s.trace }) := by
  unfold closeDzenBar closeVar closeProcs closeTrace isDrawn
  cases hw : d.stdin <;> cases hc : d.cmd <;> simp

theorem runPending_eq (p : Bool) (d : dzenInfo) (s : State) :
    runPending p d s =
      if p then (closeVar d, { s with procs := closeProcs d s.procs, trace := closeTrace d s.trace })
      else (d, s) := by
  unfold runPending
  rw [closeDzenBar_eq]

theorem goCloseDzenBar_eq (env : Env) (d : dzenInfo) (s : State) :
    goCloseDzenBar env d s =
      if env.eager s.goCount then
        (closeVar d, false, { s with goCount := s.goCount + 1, procs := closeProcs d s.procs,
                                      trace := closeTrace d s.trace })
      else (d, true, { s with goCount := s.goCount + 1 }) := by
  unfold goCloseDzenBar
  simp only [closeDzenBar_eq]

/-- Invariant rule for the loop of `drawDzenMainBar`. -/
theorem mainLoop_rule (resize : State → Except Fault State) (env : Env)
    (Inv : Nat → State → dzenInfo → Bool → Prop) :
    ∀ (k i : Nat) (s : State) (ob : dzenInfo) (p : Bool),
      (∀ j s ob p, i ≤ j → j < i + k → Inv j s ob p →
        ∃ old h s2, getAt s.dzenMainbar (j : Int) = .ok old ∧
          drawDzenMainBarByMonitorWith resize env j (runPending p old s).2 = .ok (.ok h, s2) ∧
          Inv (j + 1) (goCloseDzenBar env (runPending p old s).1 s2).2.2
            (goCloseDzenBar env (runPending p old s).1 s2).1
            (goCloseDzenBar env (runPending p old s).1 s2).2.1) →
      Inv i s ob p →
      ∃ s1 ob1 p1, drawDzenMainBarLoop resize env (List.range' i k) ob p s
          = .ok (runPending p1 ob1 s1).2 ∧ Inv (i + k) s1 ob1 p1 := by
  intro k
  induction k with
  | zero =>
    intro i s ob p _ hinv
    exact ⟨s, ob, p, rfl, hinv⟩
  | succ k ih =>
    intro i s ob p hstep hinv
    obtain ⟨old, h, s2, hget, hdraw, hnext⟩ := hstep i s ob p (le_refl _) (by omega) hinv
    have := ih (i + 1) _ _ _ (fun j s ob p h1 h2 => hstep j s ob p (by omega) (by omega)) hnext
    obtain ⟨s1, ob1, p1, hloop, hfin⟩ := this
    refine ⟨s1, ob1, p1, ?_, by simpa [Nat.add_assoc, Nat.add_comm 1 k] using hfin⟩
    rw [List.range'_succ]
    simp only [drawDzenMainBarLoop, hget, bind, Except.bind, hdraw]
    exact hloop

theorem SameVars.reflVars (s : State) : SameVars s s :=
  ⟨rfl, rfl, rfl, rfl, rfl, rfl, rfl, rfl⟩

theorem SameVars.transVars {a b c : State} (h1 : SameVars a b) (h2 : SameVars b c) : SameVars a c :=
  ⟨h2.monitors.trans h1.monitors, h2.config.trans h1.config,
   h2.contiguousBar.trans h1.contiguousBar, h2.isTopBar.trans h1.isTopBar,
   h2.leftBarWidth.trans h1.leftBarWidth, h2.barHeight.trans h1.barHeight,
   h2.data.trans h1.data, h2.username.trans h1.username⟩

theorem MainFrame.reflFrame (s : State) : MainFrame s s := ⟨SameVars.reflVars s, rfl, rfl⟩

theorem MainFrame.transFrame {a b c : State} (h1 : MainFrame a b) (h2 : MainFrame b c) :
    MainFrame a c :=
  ⟨h1.vars.transVars h2.vars, h2.left.trans h1.left, h2.mainLen.trans h1.mainLen⟩

theorem settled_of_same {s s' : State} (hv : SameVars s s')
    (hw : s'.mainbarWidth = s.mainbarWidth) (h : Settled s) : Settled s' := by
  unfold Settled targetWidth statusBarLen at *
  rw [hv.contiguousBar, hv.data, hw]
  exact h

theorem wf_of_frame {s s' : State} (hf : MainFrame s s') (h : WF s) : WF s' := by
  unfold WF at *
  rw [hf.mainLen, hf.left, hf.vars.monitors]
  exact h

theorem modifyAt_length {α : Type} (f : α → α) : ∀ (n : Nat) (xs : List α),
    (modifyAt f n xs).length = xs.length
  | 0, [] => rfl
  | _ + 1, [] => rfl
  | 0, _ :: _ => rfl
  | n + 1, _ :: xs => by simp [modifyAt, modifyAt_length f n xs]

theorem modifyAt_map {α β : Type} (f : α → α) (g : α → β) (hg : ∀ x, g (f x) = g x) :
    ∀ (n : Nat) (xs : List α), (modifyAt f n xs).map g = xs.map g
  | 0, [] => rfl
  | _ + 1, [] => rfl
  | 0, x :: xs => by simp [modifyAt, hg]
  | n + 1, x :: xs => by simp [modifyAt, modifyAt_map f g hg n xs]

theorem closeProcs_length (d : dzenInfo) (procs : List Proc) :
    (closeProcs d procs).length = procs.length := by
  unfold closeProcs
  split <;> simp [modifyAt_length]

theorem modifyAt_tags (f : Proc → Proc)
    (hf : ∀ p, ((f p).role, (f p).monitor) = (p.role, p.monitor)) (n : Nat) (xs : List Proc) :
    tagsOf (modifyAt f n xs) = tagsOf xs :=
  modifyAt_map f (fun p : Proc => (p.role, p.monitor)) hf n xs

theorem closeProcs_tags (d : dzenInfo) (procs : List Proc) :
    tagsOf (closeProcs d procs) = tagsOf procs := by
  unfold closeProcs
  split
  · refine (modifyAt_tags _ ?_ _ _).trans (modifyAt_tags _ ?_ _ _) <;> intro _ <;> rfl
  · rfl

theorem tagsOf_length (procs : List Proc) : (tagsOf procs).length = procs.length := by
  simp [tagsOf]

theorem LoopInv.procsLen {s0 s : State} {j : Nat} (h : LoopInv s0 j s) :
    s.procs.length = s0.procs.length + j := by
  have := congrArg List.length h.tags
  rw [tagsOf_length, List.length_append, tagsOf_length, List.length_map, List.length_range] at this
  exact this

theorem LoopInv.transport {s0 s s' : State} {j : Nat} (h : LoopInv s0 j s)
    (hv : SameVars s s') (hl : s'.dzenLeftbar = s.dzenLeftbar)
    (hm : s'.dzenMainbar = s.dzenMainbar) (hw : s'.mainbarWidth = s.mainbarWidth)
    (ht : tagsOf s'.procs = tagsOf s.procs) : LoopInv s0 j s' where
  frame := h.frame.transFrame ⟨hv, hl, by rw [hm]⟩
  width := hw.trans h.width
  done := by rw [hm]; exact h.done
  todo := by rw [hm]; exact h.todo
  tags := ht.trans h.tags

theorem LoopInv.afterPending {s0 s : State} {j : Nat} (h : LoopInv s0 j s) (p : Bool)
    (d : dzenInfo) : LoopInv s0 j (runPending p d s).2 := by
  rw [runPending_eq]
  cases p
  · exact h
  · exact h.transport ⟨rfl, rfl, rfl, rfl, rfl, rfl, rfl, rfl⟩ rfl rfl rfl (closeProcs_tags _ _)

theorem LoopInv.afterGo {s0 s : State} {j : Nat} (h : LoopInv s0 j s) (env : Env)
    (d : dzenInfo) : LoopInv s0 j (goCloseDzenBar env d s).2.2 := by
  rw [goCloseDzenBar_eq]
  split
  · exact h.transport ⟨rfl, rfl, rfl, rfl, rfl, rfl, rfl, rfl⟩ rfl rfl rfl (closeProcs_tags _ _)
  · exact h.transport ⟨rfl, rfl, rfl, rfl, rfl, rfl, rfl, rfl⟩ rfl rfl rfl rfl

theorem LoopInv.settled {s0 s : State} {j : Nat} (h : LoopInv s0 j s) (hs : Settled s0) :
    Settled s :=
  settled_of_same h.frame.vars h.width hs

theorem LoopInv.wf {s0 s : State} {j : Nat} (h : LoopInv s0 j s) (hs : WF s0) : WF s :=
  wf_of_frame h.frame hs

/-- The invariant after the draw of monitor `j` has installed its handle. -/
theorem LoopInv.afterDraw {s0 s : State} {j : Nat} (h1 : LoopInv s0 j s) (hwf0 : WF s0)
    (hj : j < s0.monitors.length) (h : dzenInfo) (pr : Proc) (tr : List Event)
    (hfresh : Fresh h s.procs.length) (hrole : pr.role = .main) (hmon : pr.monitor = j) :
    LoopInv s0 (j + 1)
      { s with procs := s.procs ++ [pr], trace := tr, dzenMainbar := s.dzenMainbar.set j h } := by
  have hL := h1.procsLen
  exact {
    frame := h1.frame.transFrame ⟨⟨rfl, rfl, rfl, rfl, rfl, rfl, rfl, rfl⟩, rfl, by simp⟩
    width := h1.width
    done := by
      intro t ht
      by_cases htj : t = j
      · subst htj
        refine ⟨h, ?_, ?_⟩
        · have : t < s.dzenMainbar.length := by
            rw [h1.frame.mainLen, hwf0.1]; exact hj
          simp [List.getElem?_set, this]
        · rw [← hL]; exact hfresh
      · obtain ⟨h', hh', hf'⟩ := h1.done t (by omega)
        refine ⟨h', ?_, hf'⟩
        simp only [List.getElem?_set]
        rw [if_neg (fun h => htj h.symm)]
        exact hh'
    todo := by
      intro t ht
      simp only [List.getElem?_set]
      rw [if_neg (by omega)]
      exact h1.todo t (by omega)
    tags := by
      simp only [tagsOf, List.map_append, List.map_cons, List.map_nil, List.range_succ]
      have := h1.tags
      simp only [tagsOf] at this
      rw [this, hrole, hmon, List.append_assoc] }

/-- One turn of the loop of `drawDzenMainBar` on a settled state. -/
theorem loop_step (env : Env) (f : Nat) (s0 : State) (hs0 : Settled s0) (hwf0 : WF s0)
    (hpipe : NoPipeError env) (j : Nat) (s : State) (p : Bool)
    (hj : j < s0.monitors.length) (hinv : LoopInv s0 j s) :
    ∃ old h s2, getAt s.dzenMainbar (j : Int) = .ok old ∧
      drawDzenMainBarByMonitorWith (resizeDzenMainBar env (f + 1)) env j (runPending p old s).2
        = .ok (.ok h, s2) ∧
      LoopInv s0 (j + 1) (goCloseDzenBar env (runPending p old s).1 s2).2.2 := by
  have hlen : j < s.dzenMainbar.length := by
    rw [hinv.frame.mainLen, hwf0.1]; exact hj
  refine ⟨s.dzenMainbar[j], ?_⟩
  have h1 := hinv.afterPending p s.dzenMainbar[j]
  have hj1 : j < (runPending p s.dzenMainbar[j] s).2.monitors.length := by
    rw [h1.frame.vars.monitors]; exact hj
  obtain ⟨h, pr, line, hdraw, hfresh, hrole, hmon, -, -⟩ :=
    drawMain_settled env f j _ hj1 (h1.wf hwf0) (h1.settled hs0) (hpipe _)
  refine ⟨h, _, getAt_nat _ _ hlen, hdraw, ?_⟩
  apply LoopInv.afterGo
  exact h1.afterDraw hwf0 hj h pr _ hfresh hrole hmon

/-- `drawDzenMainBar` on a settled state relaunches every main bar. -/
theorem drawMainBar_settled (env : Env) (f : Nat) (s : State) (hs : Settled s) (hwf : WF s)
    (hpipe : NoPipeError env) :
    ∃ s', drawDzenMainBarWith (resizeDzenMainBar env (f + 1)) env s = .ok s' ∧
      MainFrame s s' ∧ s'.mainbarWidth = s.mainbarWidth ∧ Relaunched s s' := by
  have hinit : LoopInv s 0 s :=
    { frame := MainFrame.reflFrame s, width := rfl, done := fun t ht => absurd ht (Nat.not_lt_zero t),
      todo := fun _ _ => rfl, tags := by simp }
  obtain ⟨s1, ob1, p1, hloop, hfin⟩ :=
    mainLoop_rule (resizeDzenMainBar env (f + 1)) env (fun j st _ _ => LoopInv s j st)
      s.monitors.length 0 s dzenInfo.zero false
      (fun j st _ p _ hj hinv => by
        obtain ⟨old, h, s2, h1, h2, h3⟩ :=
          loop_step env f s hs hwf hpipe j st p (by omega) hinv
        exact ⟨old, h, s2, h1, h2, h3⟩)
      hinit
  have hend := hfin.afterPending p1 ob1
  simp only [Nat.zero_add] at hend
  refine ⟨_, ?_, hend.frame, hend.width, hend.done, hend.tags⟩
  unfold drawDzenMainBarWith
  rw [List.range_eq_range']
  exact hloop

/-- `resizeDzenMainBar` with enough fuel always returns; it leaves a settled
state alone and otherwise stores the target and relaunches every main bar. -/
theorem resize_spec (env : Env) (f : Nat) (s : State) (hwf : WF s) (hpipe : NoPipeError env) :
    ∃ s', resizeDzenMainBar env (f + 2) s = .ok s' ∧ MainFrame s s' ∧ Settled s' ∧
      (Settled s → s' = s) ∧
      (¬ Settled s → s'.mainbarWidth = targetWidth s ∧ Relaunched s s') := by
  by_cases hs : Settled s
  · exact ⟨s, resize_settled env (f + 1) s hs, MainFrame.reflFrame s, hs, fun _ => rfl,
      fun h => absurd hs h⟩
  · have hc : s.contiguousBar = false := by
      cases h : s.contiguousBar
      · rfl
      · exact absurd (Or.inl h) hs
    have hne : scaleByMagic (statusBarLen s) ≠ s.mainbarWidth := fun h => hs (Or.inr h)
    have hs1 : Settled { s with mainbarWidth := scaleByMagic (statusBarLen s) } := Or.inr rfl
    obtain ⟨s', hdraw, hframe, hwidth, hrel⟩ :=
      drawMainBar_settled env f { s with mainbarWidth := scaleByMagic (statusBarLen s) } hs1 hwf hpipe
    have hv0 : SameVars s { s with mainbarWidth := scaleByMagic (statusBarLen s) } :=
      ⟨rfl, rfl, rfl, rfl, rfl, rfl, rfl, rfl⟩
    refine ⟨s', ?_, ⟨hv0.transVars hframe.vars, hframe.left, hframe.mainLen⟩, ?_, fun h => absurd h hs, fun _ => ⟨hwidth, hrel⟩⟩
    · show resizeDzenMainBar env (f + 1 + 1) s = .ok s'
      unfold resizeDzenMainBar
      rw [if_neg (by rw [hc]; decide)]
      show (if scaleByMagic (statusBarLen s) ≠ s.mainbarWidth then _ else _) = _
      rw [if_pos hne]
      exact hdraw
    · exact settled_of_same hframe.vars hwidth hs1

/-- `drawDzenMainBarByMonitor` with enough fuel, on any well-formed state: it
returns a handle around the process it created and installs it. -/
theorem drawMain_spec (env : Env) (f : Nat) (m : Nat) (s : State)
    (hm : m < s.monitors.length) (hwf : WF s) (hpipe : NoPipeError env) :
    ∃ h s', drawDzenMainBarByMonitor env (f + 2) m s = .ok (.ok h, s') ∧
      MainFrame s s' ∧ Settled s' ∧ s'.dzenMainbar[m]? = some h ∧ Fresh h s.procs.length := by
  have hm' : ¬ ((m : Int) < 0 ∨ (m : Int) ≥ (s.monitors.length : Int)) := by
    simp; omega
  unfold drawDzenMainBarByMonitor drawDzenMainBarByMonitorWith
  rw [if_neg hm']
  simp only [getAt_nat _ _ hm, bind, Except.bind]
  generalize (["-xs", fmtInt ((m : Int) + 1), "-ta", "r", "-fn", s.config.Font, "-x",
      fmtInt (if s.contiguousBar = true then s.leftBarWidth
        else s.monitors[m].width - s.mainbarWidth - 1), "-y",
      fmtInt (if s.isTopBar = true then 0 else s.monitors[m].height - s.barHeight), "-w",
      fmtInt (if s.contiguousBar = true then s.monitors[m].width - s.leftBarWidth
        else s.mainbarWidth), "-h", fmtInt s.barHeight,
      "-bg", s.config.Colors.Bg, "-fg", s.config.Colors.Key, "-e", "button2=;"] : List String) = args
  have hf1 : MainFrame s (execDzen env .main m args s).2 :=
    ⟨⟨rfl, rfl, rfl, rfl, rfl, rfl, rfl, rfl⟩, rfl, rfl⟩
  obtain ⟨line, hline⟩ := statusBarText_ok (execDzen env .main m args s).2 m
    (by rw [hf1.vars.monitors]; exact hm)
  obtain ⟨s2, hres, hf2, hset2, -, -⟩ := resize_spec env f _ (wf_of_frame hf1 hwf) hpipe
  have hf := hf1.transFrame hf2
  have hlen : m < s2.dzenMainbar.length := by rw [hf.mainLen, hwf.1]; exact hm
  simp only [statusBarWith, bind, Except.bind, hline, hres, pure, Except.pure]
  have hstd : (execDzen env .main m args s).1.2.1 = some s.procs.length := by
    simp [execDzen, hpipe s.procs.length]
  rw [hstd]
  simp only [writeString]
  rw [setAt_nat _ _ _ hlen]
  refine ⟨_, _, rfl, ?_, ?_, ?_, ?_⟩
  · exact hf.transFrame ⟨⟨rfl, rfl, rfl, rfl, rfl, rfl, rfl, rfl⟩, rfl, by simp⟩
  · exact settled_of_same ⟨rfl, rfl, rfl, rfl, rfl, rfl, rfl, rfl⟩ rfl hset2
  · simp [hlen]
  · exact ⟨rfl, rfl, rfl⟩

theorem drawMain_no_error (resize : State → Except Fault State) (env : Env) (monitor : Int)
    (s : State) (hm : ¬ (monitor < 0 ∨ monitor ≥ (s.monitors.length : Int)))
    (e : DrawError) (s' : State) :
    drawDzenMainBarByMonitorWith resize env monitor s ≠ .ok (.error e, s') := by
  intro h
  unfold drawDzenMainBarByMonitorWith at h
  rw [if_neg hm] at h
  simp only [bind, Except.bind, pure, Except.pure] at h
  repeat' split at h
  all_goals cases h

theorem drawLeft_no_error (env : Env) (monitor : Int)
    (s : State) (hm : ¬ (monitor < 0 ∨ monitor ≥ (s.monitors.length : Int)))
    (e : DrawError) (s' : State) :
    drawDzenLeftBarByMonitor env monitor s ≠ .ok (.error e, s') := by
  intro h
  unfold drawDzenLeftBarByMonitor at h
  rw [if_neg hm] at h
  simp only [bind, Except.bind, pure, Except.pure] at h
  repeat' split at h
  all_goals cases h

theorem closeLeftSlot_eq (m : Nat) (s : State) (h : m < s.dzenLeftbar.length) :
    closeLeftSlot m s = .ok { s with
      procs := closeProcs s.dzenLeftbar[m] s.procs
      trace := closeTrace s.dzenLeftbar[m] s.trace
      dzenLeftbar := s.dzenLeftbar.set m (closeVar s.dzenLeftbar[m]) } := by
  unfold closeLeftSlot
  simp only [getAt_nat _ _ h, bind, Except.bind, closeDzenBar_eq, setAt_nat _ _ _ h]
  rfl

theorem closeMainSlot_eq (m : Nat) (s : State) (h : m < s.dzenMainbar.length) :
    closeMainSlot m s = .ok { s with
      procs := closeProcs s.dzenMainbar[m] s.procs
      trace := closeTrace s.dzenMainbar[m] s.trace
      dzenMainbar := s.dzenMainbar.set m (closeVar s.dzenMainbar[m]) } := by
  unfold closeMainSlot
  simp only [getAt_nat _ _ h, bind, Except.bind, closeDzenBar_eq, setAt_nat _ _ _ h]
  rfl

theorem fresh_isDrawn {h : dzenInfo} {pid : Nat} (hf : Fresh h pid) : isDrawn h = true := by
  simp [isDrawn, hf.1, hf.2.1]

theorem closeVar_drawn {d : dzenInfo} (h : isDrawn d = true) : (closeVar d).hidden = true := by
  simp [closeVar, h]

theorem closeVar_undrawn {d : dzenInfo} (h : isDrawn d = false) : closeVar d = d := by
  simp [closeVar, h]

/-- `toggleBars` on a visible monitor closes both slots. -/
theorem toggle_hide (env : Env) (fuel : Nat) (m : Nat) (s : State) (hm : m < s.monitors.length)
    (hwf : WF s) (l r : dzenInfo) (hl : s.dzenLeftbar[m]? = some l)
    (hr : s.dzenMainbar[m]? = some r) (hvis : l.hidden = false) :
    ∃ s1, toggleBars env fuel m s = .ok s1 ∧ WF s1 ∧ s1.monitors = s.monitors ∧
      s1.dzenLeftbar[m]? = some (closeVar l) ∧ s1.dzenMainbar[m]? = some (closeVar r) := by
  have h1 : m < s.dzenLeftbar.length := by rw [hwf.2]; exact hm
  have h2 : m < s.dzenMainbar.length := by rw [hwf.1]; exact hm
  have el : s.dzenLeftbar[m] = l := by
    rw [List.getElem?_eq_getElem h1] at hl; exact Option.some.inj hl
  have er : s.dzenMainbar[m] = r := by
    rw [List.getElem?_eq_getElem h2] at hr; exact Option.some.inj hr
  unfold toggleBars
  simp only [getAt_nat _ _ h1, bind, Except.bind, el, hvis, Bool.not_false, if_true]
  unfold closeDzenByMonitor
  simp only [closeLeftSlot_eq m s h1, bind, Except.bind]
  rw [closeMainSlot_eq m _ (by simpa using h2)]
  refine ⟨_, rfl, ?_, rfl, ?_, ?_⟩
  · constructor
    · simpa using hwf.1
    · simpa using hwf.2
  · simp [h1, el]
  · simp [h2, er]

/-- `drawDzenLeftBarByMonitor` seen from outside. -/
theorem drawLeft_frame (env : Env) (m : Nat) (s : State) (hm : m < s.monitors.length)
    (hwf : WF s) (hp : env.spawn s.procs.length ≠ .pipeError) :
    ∃ h s1, drawDzenLeftBarByMonitor env m s = .ok (.ok h, s1) ∧ Fresh h s.procs.length ∧
      WF s1 ∧ SameVars s s1 ∧ s1.mainbarWidth = s.mainbarWidth ∧
      s1.dzenMainbar = s.dzenMainbar ∧ s1.dzenLeftbar = s.dzenLeftbar.set m h := by
  obtain ⟨h, p, line, hd, hf, -⟩ := drawLeft_spec env m s hm hwf hp
  refine ⟨h, _, hd, hf, ⟨hwf.1, ?_⟩, ⟨rfl, rfl, rfl, rfl, rfl, rfl, rfl, rfl⟩, rfl, rfl, rfl⟩
  simpa using hwf.2

/-- `toggleBars` on a hidden monitor draws both bars. -/
theorem toggle_show (env : Env) (f : Nat) (m : Nat) (s : State) (hm : m < s.monitors.length)
    (hwf : WF s) (hpipe : NoPipeError env) (l : dzenInfo) (hl : s.dzenLeftbar[m]? = some l)
    (hhid : l.hidden = true) :
    ∃ s1 l' r' a b, toggleBars env (f + 2) m s = .ok s1 ∧ WF s1 ∧ s1.monitors = s.monitors ∧
      s1.dzenLeftbar[m]? = some l' ∧ s1.dzenMainbar[m]? = some r' ∧ Fresh l' a ∧ Fresh r' b := by
  have h1 : m < s.dzenLeftbar.length := by rw [hwf.2]; exact hm
  have el : s.dzenLeftbar[m] = l := by
    rw [List.getElem?_eq_getElem h1] at hl; exact Option.some.inj hl
  obtain ⟨l', s1, hdl, hfl, hwf1, hv1, -, -, hleft1⟩ := drawLeft_frame env m s hm hwf (hpipe _)
  obtain ⟨r', s2, hdr, hfr, -, hslot, hfresh⟩ :=
    drawMain_spec env f m s1 (by rw [hv1.monitors]; exact hm) hwf1 hpipe
  unfold toggleBars
  simp only [getAt_nat _ _ h1, bind, Except.bind, el, hhid, Bool.not_true]
  unfold drawDzenByMonitor
  simp only [hdl, bind, Except.bind, hdr, pure, Except.pure]
  refine ⟨s2, l', r', _, _, by simp, wf_of_frame hfr hwf1, hfr.vars.monitors.trans hv1.monitors,
    ?_, hslot, hfl, hfresh⟩
  rw [hfr.left, hleft1]
  simp [h1]

theorem modifyAt_append_last {α : Type} (f : α → α) (x : α) :
    ∀ xs : List α, modifyAt f xs.length (xs ++ [x]) = xs ++ [f x]
  | [] => rfl
  | y :: ys => by simp [modifyAt, modifyAt_append_last f x ys]

theorem closeProcs_fresh_last (h : dzenInfo) (procs : List Proc) (p : Proc)
    (hf : Fresh h procs.length) :
    closeProcs h (procs ++ [p]) = procs ++ [{ p with stdinOpen := false, running := false }] := by
  unfold closeProcs
  rw [hf.1, hf.2.1]
  simp only
  rw [modifyAt_append_last, modifyAt_append_last]

theorem liveCount_append_dead (s : State) (procs : List Proc) (p : Proc) (r : Role) (m : Int)
    (tr : List Event) (ml ll : List dzenInfo) (hp : p.running = false) :
    liveCount { s with procs := procs ++ [p], trace := tr, dzenMainbar := ml, dzenLeftbar := ll } r m
      = procs.countP (fun p => decide (p.role = r) && decide (p.monitor = m) && p.running) := by
  simp [liveCount, List.countP_append, hp]

/-- Invariant rule for the loop of `updateStatusBar` and `reloadStatusBar`. -/
theorem pushLoop_rule (env : Env) (fuel : Nat) (Inv : Nat → State → Prop) :
    ∀ (k i : Nat) (s : State),
      (∀ j s, i ≤ j → j < i + k → Inv j s →
        ∃ bar s2 d s3, statusBar env fuel j s = .ok (bar, s2) ∧
          getAt s2.dzenMainbar (j : Int) = .ok d ∧
          writeString d.stdin (bar ++ "\n") s2 = .ok s3 ∧ Inv (j + 1) s3) →
      Inv i s →
      ∃ s', pushContentLoop env fuel (List.range' i k) s = .ok s' ∧ Inv (i + k) s' := by
  intro k
  induction k with
  | zero =>
    intro i s _ hinv
    exact ⟨s, rfl, hinv⟩
  | succ k ih =>
    intro i s hstep hinv
    obtain ⟨bar, s2, d, s3, hbar, hget, hwrite, hnext⟩ := hstep i s (le_refl _) (by omega) hinv
    obtain ⟨s', hloop, hfin⟩ :=
      ih (i + 1) s3 (fun j s h1 h2 => hstep j s (by omega) (by omega)) hnext
    refine ⟨s', ?_, by simpa [Nat.add_assoc, Nat.add_comm 1 k] using hfin⟩
    rw [List.range'_succ]
    simp only [pushContentLoop, hbar, bind, Except.bind, hget, hwrite]
    exact hloop

theorem allStdin_of_relaunched {s s' : State} (hm : s'.monitors = s.monitors)
    (h : Relaunched s s') : AllStdin s' := by
  intro t ht
  obtain ⟨d, hd, hf⟩ := h.1 t (by rw [← hm]; exact ht)
  exact ⟨d, _, hd, hf.2.1⟩

/-- `statusBar` with enough fuel on a well-formed state. -/
theorem statusBar_spec (env : Env) (f : Nat) (j : Nat) (s : State) (hj : j < s.monitors.length)
    (hwf : WF s) (hpipe : NoPipeError env) :
    ∃ bar s2, statusBar env (f + 2) j s = .ok (bar, s2) ∧ MainFrame s s2 ∧ Settled s2 ∧
      (Settled s → s2 = s) ∧
      (¬ Settled s → s2.mainbarWidth = targetWidth s ∧ Relaunched s s2) := by
  obtain ⟨bar, hbar⟩ := statusBarText_ok s j hj
  obtain ⟨s2, hres, hrest⟩ := resize_spec env f s hwf hpipe
  refine ⟨bar, s2, ?_, hrest⟩
  simp [statusBar, statusBarWith, hbar, hres, bind, Except.bind, pure, Except.pure]

/-- One turn of the loop of `updateStatusBar`. -/
theorem push_step (env : Env) (f : Nat) (s0 : State) (hwf0 : WF s0) (hpipe : NoPipeError env)
    (j : Nat) (s : State) (hj : j < s0.monitors.length) (hinv : PushInv s0 j s) :
    ∃ bar s2 d s3, statusBar env (f + 2) j s = .ok (bar, s2) ∧
      getAt s2.dzenMainbar (j : Int) = .ok d ∧
      writeString d.stdin (bar ++ "\n") s2 = .ok s3 ∧ PushInv s0 (j + 1) s3 := by
  have hwf : WF s := wf_of_frame hinv.frame hwf0
  have hjs : j < s.monitors.length := by rw [hinv.frame.vars.monitors]; exact hj
  obtain ⟨bar, s2, hbar, hf2, -, hsame, hnew⟩ := statusBar_spec env f j s hjs hwf hpipe
  have hstd2 : AllStdin s2 := by
    by_cases hs : Settled s
    · rw [hsame hs]; exact hinv.stdin
    · exact allStdin_of_relaunched hf2.vars.monitors (hnew hs).2
  obtain ⟨d, k, hd, hk⟩ := hstd2 j (by rw [hf2.vars.monitors]; exact hjs)
  have hlen : j < s2.dzenMainbar.length := by
    rw [hf2.mainLen, hwf.1]; exact hjs
  have hget : getAt s2.dzenMainbar (j : Int) = .ok d := by
    rw [getAt_nat _ _ hlen]
    rw [List.getElem?_eq_getElem hlen] at hd
    rw [Option.some.inj hd]
  refine ⟨bar, s2, d, _, hbar, hget, by rw [hk]; rfl, ?_⟩
  refine ⟨(hinv.frame.transFrame hf2).transFrame ⟨⟨rfl, rfl, rfl, rfl, rfl, rfl, rfl, rfl⟩, rfl, rfl⟩,
    hstd2, ?_⟩
  intro hs0
  obtain ⟨hmain, hprocs, hwidth, ws, htrace, hall⟩ := hinv.quiet hs0
  have hs : Settled s := settled_of_same hinv.frame.vars hwidth hs0
  have e2 : s2 = s := hsame hs
  subst e2
  refine ⟨hmain, hprocs, hwidth, Event.write k (bar ++ "\n") (streamOpen s2 k) :: ws, ?_, ?_⟩
  · simp [htrace]
  · have hj0 : j < s0.dzenMainbar.length := by rw [hwf0.1]; exact hj
    rw [List.reverse_cons, ← List.take_concat_get' _ _ hj0]
    refine List.rel_append hall (List.Forall₂.cons ?_ List.Forall₂.nil)
    have : s0.dzenMainbar[j] = d := by
      have h1 : s2.dzenMainbar[j]? = some d := hd
      rw [hmain, List.getElem?_eq_getElem hj0] at h1
      exact Option.some.inj h1
    rw [this]
    exact ⟨k, _, _, hk, rfl⟩

theorem roundToEven24_small (m : Nat) (h : m < 2 ^ 24) : roundToEven24 m = m := by
  unfold roundToEven24
  rw [if_pos h]

/-- Below 2^24 / 15 the scaling is exact: 7.5 times the length, truncated. -/
theorem scaleByMagic_small (w : Nat) (h : 15 * w < 2 ^ 24) :
    scaleByMagic w = ((15 * w / 2 : Nat) : Int) := by
  unfold scaleByMagic
  rw [roundToEven24_small w (by omega), roundToEven24_small _ h]

theorem len_append (a b : String) : len (a ++ b) = len a + len b := by
  cases a; cases b
  show String.utf8Len (_ ++ _) = String.utf8Len _ + String.utf8Len _
  exact String.utf8Len_append _ _

theorem utf8Len_replicate_x (n : Nat) : String.utf8Len (List.replicate n 'x') = n := by
  induction n with
  | zero => rfl
  | succ n ih =>
    rw [List.replicate_succ, String.utf8Len_cons, ih]
    rfl

theorem len_longValue : len longValue = 1118483 := by
  unfold len longValue
  rw [String.utf8ByteSize_mk, utf8Len_replicate_x]

theorem getElem?_modifyAt {α : Type} (f : α → α) :
    ∀ (n : Nat) (xs : List α) (k : Nat),
      (modifyAt f n xs)[k]? = if k = n then (xs[k]?).map f else xs[k]?
  | 0, [], k => by simp [modifyAt]
  | _ + 1, [], k => by simp [modifyAt]
  | 0, x :: xs, 0 => by simp [modifyAt]
  | 0, x :: xs, k + 1 => by simp [modifyAt]
  | n + 1, x :: xs, 0 => by simp [modifyAt]
  | n + 1, x :: xs, k + 1 => by simp [modifyAt, getElem?_modifyAt f n xs k]

/-- Closing a handle leaves every other stream as it was. -/
theorem streamOpen_close (d : dzenInfo) (s : State) (tr : List Event) (g : Nat) (k : Nat)
    (hk : d.stdin ≠ some k) :
    streamOpen { s with procs := closeProcs d s.procs, trace := tr, goCount := g } k
      = streamOpen s k := by
  unfold streamOpen closeProcs
  cases hw : d.stdin with
  | none => rfl
  | some w =>
    cases hc : d.cmd with
    | none => rfl
    | some c =>
      have hkw : k ≠ w := fun h => hk (by rw [hw, h])
      simp only [getElem?_modifyAt, if_neg hkw]
      by_cases hkc : k = c
      · rw [if_pos hkc]
        cases s.procs[k]? <;> rfl
      · rw [if_neg hkc]

theorem NoRefusedSince.same (s : State) : NoRefusedSince s s := ⟨[], rfl, rfl⟩

theorem NoRefusedSince.extend {s0 s s' : State} (h : NoRefusedSince s0 s) (extra : List Event)
    (ht : s'.trace = extra ++ s.trace) (hok : extra.all (fun e => !isRefused e) = true) :
    NoRefusedSince s0 s' := by
  obtain ⟨new, h1, h2⟩ := h
  refine ⟨extra ++ new, by rw [ht, h1, List.append_assoc], ?_⟩
  rw [List.all_append, hok, h2]
  rfl

theorem NoRefusedSince.chain {a b c : State} (h1 : NoRefusedSince a b) (h2 : NoRefusedSince b c) :
    NoRefusedSince a c := by
  obtain ⟨new, e, hok⟩ := h2
  exact h1.extend new e hok

theorem closeTrace_extends (d : dzenInfo) (tr : List Event) :
    ∃ extra, closeTrace d tr = extra ++ tr ∧ extra.all (fun e => !isRefused e) = true := by
  unfold closeTrace
  split
  · exact ⟨[_, _], rfl, rfl⟩
  · exact ⟨[_], rfl, rfl⟩

theorem closeVar_stdin (d : dzenInfo) : (closeVar d).stdin = d.stdin := by
  unfold closeVar
  split <;> rfl

theorem streamOpen_lt {s : State} {k : Nat} (h : streamOpen s k = true) : k < s.procs.length := by
  unfold streamOpen at h
  by_contra hk
  rw [List.getElem?_eq_none (by omega)] at h
  cases h

/-- A pending goroutine that closes a handle older than `lim` keeps the newer
streams open and refuses no write. -/
theorem pending_open (lim : Nat) (p : Bool) (d : dzenInfo) (s : State)
    (hd : ∀ w, d.stdin = some w → w < lim)
    (hopen : ∀ k, lim ≤ k → k < s.procs.length → streamOpen s k = true) :
    (∀ k, lim ≤ k → k < (runPending p d s).2.procs.length →
        streamOpen (runPending p d s).2 k = true) ∧
    NoRefusedSince s (runPending p d s).2 ∧ (runPending p d s).1.stdin = d.stdin := by
  rw [runPending_eq]
  cases p
  · exact ⟨hopen, NoRefusedSince.same s, rfl⟩
  · refine ⟨?_, ?_, closeVar_stdin d⟩
    · intro k hk hlt
      have hne : d.stdin ≠ some k := fun h => by have := hd k h; omega
      have := streamOpen_close d s (closeTrace d s.trace) s.goCount k hne
      simp only [if_true] at hlt ⊢
      rw [closeProcs_length] at hlt
      exact this.trans (hopen k hk hlt)
    · obtain ⟨extra, he, hok⟩ := closeTrace_extends d s.trace
      exact (NoRefusedSince.same s).extend extra he hok

/-- The same for the goroutine started by `go closeDzenBar(&oldBar)`. -/
theorem go_open (lim : Nat) (env : Env) (d : dzenInfo) (s : State)
    (hd : ∀ w, d.stdin = some w → w < lim)
    (hopen : ∀ k, lim ≤ k → k < s.procs.length → streamOpen s k = true) :
    (∀ k, lim ≤ k → k < (goCloseDzenBar env d s).2.2.procs.length →
        streamOpen (goCloseDzenBar env d s).2.2 k = true) ∧
    NoRefusedSince s (goCloseDzenBar env d s).2.2 ∧ (goCloseDzenBar env d s).1.stdin = d.stdin := by
  rw [goCloseDzenBar_eq]
  split
  · refine ⟨?_, ?_, closeVar_stdin d⟩
    · intro k hk hlt
      have hne : d.stdin ≠ some k := fun h => by have := hd k h; omega
      have := streamOpen_close d s (closeTrace d s.trace) (s.goCount + 1) k hne
      simp only at hlt ⊢
      rw [closeProcs_length] at hlt
      exact this.trans (hopen k hk hlt)
    · obtain ⟨extra, he, hok⟩ := closeTrace_extends d s.trace
      exact (NoRefusedSince.same s).extend extra he hok
  · exact ⟨hopen, (NoRefusedSince.same s).extend [] rfl rfl, rfl⟩

/-- `drawMain_settled` with the resulting state described by its fields. -/
theorem drawMain_settled_fields (env : Env) (f : Nat) (m : Nat) (s : State)
    (hm : m < s.monitors.length) (hwf : WF s) (hs : Settled s)
    (hp : env.spawn s.procs.length ≠ .pipeError) :
    ∃ h pr line s2,
      drawDzenMainBarByMonitorWith (resizeDzenMainBar env (f + 1)) env m s = .ok (.ok h, s2) ∧
      Fresh h s.procs.length ∧ pr.role = .main ∧ pr.monitor = (m : Int) ∧
      pr.stdinOpen = decide (env.spawn s.procs.length = .started) ∧
      DrawnMain s s2 m h pr line (env.spawn s.procs.length) := by
  obtain ⟨h, pr, line, hd, hf, hrole, hmon, -, hso⟩ := drawMain_settled env f m s hm hwf hs hp
  exact ⟨h, pr, line, _, hd, hf, hrole, hmon, hso,
    ⟨⟨rfl, rfl, rfl, rfl, rfl, rfl, rfl, rfl⟩, rfl, rfl, rfl, rfl, rfl, rfl⟩⟩

theorem LoopInv.afterDrawn {s0 s s2 : State} {j : Nat} (h1 : LoopInv s0 j s) (hwf0 : WF s0)
    (hj : j < s0.monitors.length) (h : dzenInfo) (pr : Proc) (line : String) (res : SpawnResult)
    (hd : DrawnMain s s2 j h pr line res)
    (hfresh : Fresh h s.procs.length) (hrole : pr.role = .main) (hmon : pr.monitor = j) :
    LoopInv s0 (j + 1) s2 :=
  (h1.afterDraw hwf0 hj h pr s2.trace hfresh hrole hmon).transport
    ⟨hd.vars.monitors, hd.vars.config, hd.vars.contiguousBar, hd.vars.isTopBar,
      hd.vars.leftBarWidth, hd.vars.barHeight, hd.vars.data, hd.vars.username⟩
    hd.left hd.main hd.width (by rw [hd.procs])

/-- One turn of the loop of `drawDzenMainBar` when every process starts: the
stream invariant is kept. -/
theorem open_step (env : Env) (f : Nat) (s0 : State) (hs0 : Settled s0) (hwf0 : WF s0)
    (hall : AllStarted env)
    (hold : ∀ (t : Nat) (d : dzenInfo) (w : Nat),
      s0.dzenMainbar[t]? = some d → d.stdin = some w → w < s0.procs.length)
    (j : Nat) (s : State) (ob : dzenInfo) (p : Bool)
    (hj : j < s0.monitors.length) (hinv : OpenInv s0 j s ob) :
    ∃ old h s2, getAt s.dzenMainbar (j : Int) = .ok old ∧
      drawDzenMainBarByMonitorWith (resizeDzenMainBar env (f + 1)) env j (runPending p old s).2
        = .ok (.ok h, s2) ∧
      OpenInv s0 (j + 1) (goCloseDzenBar env (runPending p old s).1 s2).2.2
        (goCloseDzenBar env (runPending p old s).1 s2).1 := by
  have hpipe : NoPipeError env := fun k h => by rw [hall k] at h; cases h
  have hlen : j < s.dzenMainbar.length := by
    rw [hinv.base.frame.mainLen, hwf0.1]; exact hj
  have hold_j : ∀ w, (s.dzenMainbar[j]).stdin = some w → w < s0.procs.length := by
    intro w hw
    have h1 : s.dzenMainbar[j]? = s0.dzenMainbar[j]? := hinv.base.todo j (le_refl _)
    rw [List.getElem?_eq_getElem hlen] at h1
    exact hold j _ w h1.symm hw
  refine ⟨s.dzenMainbar[j], ?_⟩
  have h1 := hinv.base.afterPending p s.dzenMainbar[j]
  obtain ⟨hopen1, hnr1, hvar1⟩ :=
    pending_open s0.procs.length p s.dzenMainbar[j] s hold_j hinv.newOpen
  generalize runPending p s.dzenMainbar[j] s = rp at h1 hopen1 hnr1 hvar1 ⊢
  obtain ⟨ob1, s1⟩ := rp
  simp only at h1 hopen1 hnr1 hvar1 ⊢
  have hj1 : j < s1.monitors.length := by rw [h1.frame.vars.monitors]; exact hj
  obtain ⟨h, pr, line, s2, hdraw, hfresh, hrole, hmon, hso, hd⟩ :=
    drawMain_settled_fields env f j s1 hj1 (h1.wf hwf0) (h1.settled hs0) (hpipe _)
  refine ⟨h, s2, getAt_nat _ _ hlen, hdraw, ?_⟩
  have hpo : pr.stdinOpen = true := by rw [hso, hall]; rfl
  have hL1 : s0.procs.length ≤ s1.procs.length := by rw [h1.procsLen]; omega
  have hopen2 : ∀ k, s0.procs.length ≤ k → k < s2.procs.length → streamOpen s2 k = true := by
    intro k hk hlt
    rw [hd.procs, List.length_append, List.length_singleton] at hlt
    unfold streamOpen
    rw [hd.procs]
    by_cases hkl : k < s1.procs.length
    · have := hopen1 k hk hkl
      unfold streamOpen at this
      rw [List.getElem?_append_left hkl]
      exact this
    · have hke : k = s1.procs.length := by omega
      subst hke
      simp [hpo]
  have hvar2 : ∀ w, ob1.stdin = some w → w < s0.procs.length := by
    intro w hw
    rw [hvar1] at hw
    exact hold_j w hw
  obtain ⟨hopen3, hnr3, hvar3⟩ := go_open s0.procs.length env ob1 s2 hvar2 hopen2
  exact {
    base := LoopInv.afterGo (h1.afterDrawn hwf0 hj h pr line _ hd hfresh hrole hmon) env _
    newOpen := hopen3
    var := fun w hw => hvar2 w (hvar3 ▸ hw)
    noRefused :=
      ((hinv.noRefused.chain hnr1).extend [_, _, _] hd.trace (by simp [isRefused, hpo])).chain hnr3 }

theorem oldIds_of_mainOpen {s : State} (hwf : WF s) (h : MainOpen s) :
    ∀ (t : Nat) (d : dzenInfo) (w : Nat),
      s.dzenMainbar[t]? = some d → d.stdin = some w → w < s.procs.length := by
  intro t d w hd hw
  have ht : t < s.monitors.length := by
    rw [← hwf.1]
    by_contra hn
    rw [List.getElem?_eq_none (by omega)] at hd
    cases hd
  obtain ⟨d', k, hd', hk, hopen⟩ := h t ht
  rw [hd] at hd'
  cases hd'
  rw [hw] at hk
  cases hk
  exact streamOpen_lt hopen

/-- `drawDzenMainBar` on a settled state, when every process starts and the
installed handles are older than the call: afterwards every main-bar stream is
open and no write was refused. -/
theorem drawMainBar_open (env : Env) (f : Nat) (s : State) (hs : Settled s) (hwf : WF s)
    (hall : AllStarted env)
    (hold : ∀ (t : Nat) (d : dzenInfo) (w : Nat),
      s.dzenMainbar[t]? = some d → d.stdin = some w → w < s.procs.length) :
    ∃ s', drawDzenMainBarWith (resizeDzenMainBar env (f + 1)) env s = .ok s' ∧
      MainFrame s s' ∧ s'.mainbarWidth = s.mainbarWidth ∧ MainOpen s' ∧ NoRefusedSince s s' := by
  have hinit : OpenInv s 0 s dzenInfo.zero :=
    { base := { frame := MainFrame.reflFrame s, width := rfl,
                done := fun t ht => absurd ht (Nat.not_lt_zero t),
                todo := fun _ _ => rfl, tags := by simp }
      newOpen := fun k h1 h2 => absurd h2 (by omega)
      var := fun w hw => by cases hw
      noRefused := NoRefusedSince.same s }
  obtain ⟨s1, ob1, p1, hloop, hfin⟩ :=
    mainLoop_rule (resizeDzenMainBar env (f + 1)) env (fun j st ob _ => OpenInv s j st ob)
      s.monitors.length 0 s dzenInfo.zero false
      (fun j st ob p _ hj hinv => open_step env f s hs hwf hall hold j st ob p (by omega) hinv)
      hinit
  simp only [Nat.zero_add] at hfin
  have hbase := hfin.base.afterPending p1 ob1
  obtain ⟨hopen, hnr, -⟩ := pending_open s.procs.length p1 ob1 s1 hfin.var hfin.newOpen
  refine ⟨_, ?_, hbase.frame, hbase.width, ?_, hfin.noRefused.chain hnr⟩
  · unfold drawDzenMainBarWith
    rw [List.range_eq_range']
    exact hloop
  · intro t ht
    rw [hbase.frame.vars.monitors] at ht
    obtain ⟨h, hh, hf⟩ := hbase.done t ht
    refine ⟨h, _, hh, hf.2.1, hopen _ (by omega) ?_⟩
    rw [hbase.procsLen]
    omega

/-- `resizeDzenMainBar` when every process starts and every main-bar stream is
open: the streams installed afterwards are open and no write was refused. -/
theorem resize_open (env : Env) (f : Nat) (s : State) (hwf : WF s) (hall : AllStarted env)
    (hopen : MainOpen s) :
    ∃ s', resizeDzenMainBar env (f + 2) s = .ok s' ∧ MainFrame s s' ∧ MainOpen s' ∧
      NoRefusedSince s s' := by
  by_cases hs : Settled s
  · exact ⟨s, resize_settled env (f + 1) s hs, MainFrame.reflFrame s, hopen, NoRefusedSince.same s⟩
  · have hc : s.contiguousBar = false := by
      cases h : s.contiguousBar
      · rfl
      · exact absurd (Or.inl h) hs
    have hne : scaleByMagic (statusBarLen s) ≠ s.mainbarWidth := fun h => hs (Or.inr h)
    have hs1 : Settled { s with mainbarWidth := scaleByMagic (statusBarLen s) } := Or.inr rfl
    obtain ⟨s', hdraw, hframe, -, hopen', hnr⟩ :=
      drawMainBar_open env f { s with mainbarWidth := scaleByMagic (statusBarLen s) } hs1 hwf hall
        (oldIds_of_mainOpen hwf hopen)
    have hv0 : SameVars s { s with mainbarWidth := scaleByMagic (statusBarLen s) } :=
      ⟨rfl, rfl, rfl, rfl, rfl, rfl, rfl, rfl⟩
    refine ⟨s', ?_, ⟨hv0.transVars hframe.vars, hframe.left, hframe.mainLen⟩, hopen', hnr⟩
    show resizeDzenMainBar env (f + 1 + 1) s = .ok s'
    unfold resizeDzenMainBar
    rw [if_neg (by rw [hc]; decide)]
    show (if scaleByMagic (statusBarLen s) ≠ s.mainbarWidth then _ else _) = _
    rw [if_pos hne]
    exact hdraw

theorem splitOn_eq_cons (sep : Nat) :
    ∀ bs : List Nat, ∃ t ts, splitOn sep bs = t :: ts
  | [] => ⟨[], [], rfl⟩
  | c :: cs => by
    unfold splitOn
    split
    · exact ⟨_, _, rfl⟩
    · split
      · exact ⟨_, _, rfl⟩
      · exact ⟨_, _, rfl⟩

/-- `tokens[0]` always exists. -/
theorem getAt_zero_splitOn (recv : List Nat) :
    getAt (splitOn 32 (trimNul recv)) 0 = .ok (firstToken recv) := by
  obtain ⟨t, ts, h⟩ := splitOn_eq_cons 32 (trimNul recv)
  simp [getAt, firstToken, h]

theorem barWidthLoop_started (data : List (String × info)) (key : String) :
    ∀ (ks : List String) (w : Nat),
      barWidthLoop data key ks (w, true) = (w + (ks.map (storedLength data)).sum, true)
  | [], w => by simp [barWidthLoop]
  | k :: ks, w => by
    simp only [barWidthLoop, if_true, ite_self]
    rw [show (w + match List.lookup k data with
          | some i => i.length
          | none => 0) = w + storedLength data k from rfl]
    rw [barWidthLoop_started data key ks]
    simp [Nat.add_assoc]

/-- The loop of `barWidthFromKey` adds the stored lengths from `key` onward. -/
theorem barWidthLoop_fst (data : List (String × info)) (key : String) :
    ∀ (ks : List String) (w : Nat),
      (barWidthLoop data key ks (w, false)).1 = w + widthFrom data key ks
  | [], w => by simp [barWidthLoop, widthFrom]
  | k :: ks, w => by
    by_cases hk : k = key
    · simp only [barWidthLoop, hk, if_true]
      rw [show (w + match List.lookup key data with
            | some i => i.length
            | none => 0) = w + storedLength data key from rfl]
      rw [barWidthLoop_started]
      simp [widthFrom, List.dropWhile, Nat.add_assoc]
    · simp only [barWidthLoop, hk, if_false]
      rw [show (if false = true then w + match List.lookup k data with
            | some i => i.length
            | none => 0 else w) = w from rfl]
      rw [barWidthLoop_fst data key ks w]
      simp [widthFrom, List.dropWhile, hk]

/-- On a settled state the resize inside `statusBar` does nothing, whatever
fuel it is given. -/
theorem statusBarWith_settled (env : Env) (f : Nat) (screen : Int) (s : State) (hs : Settled s) :
    statusBarWith (resizeDzenMainBar env (f + 1)) screen s = statusBarWith Except.ok screen s := by
  unfold statusBarWith
  simp only [resize_settled env f s hs]

theorem drawWith_settled (env : Env) (f : Nat) (monitor : Int) (s : State) (hs : Settled s) :
    drawDzenMainBarByMonitorWith (resizeDzenMainBar env (f + 1)) env monitor s
      = drawDzenMainBarByMonitorWith Except.ok env monitor s := by
  unfold drawDzenMainBarByMonitorWith
  split
  · rfl
  · cases hm : getAt s.monitors monitor with
    | error e => rfl
    | ok m =>
      simp only [bind, Except.bind]
      rw [statusBarWith_settled env f monitor _
        (by simpa [execDzen, Settled, targetWidth, statusBarLen] using hs)]

/-- A main-bar draw of an in-range monitor that triggers no resize either
panics (never for lack of fuel) or appends one main-bar process of that monitor
and keeps the fixed variables and the width. -/
theorem drawIdle_cases (env : Env) (i : Nat) (s : State) (hi : i < s.monitors.length) :
    (∃ e, drawDzenMainBarByMonitorWith Except.ok env i s = .error e ∧ e ≠ .outOfFuel) ∨
    (∃ h s2, drawDzenMainBarByMonitorWith Except.ok env i s = .ok (.ok h, s2) ∧
      SameVars s s2 ∧ s2.mainbarWidth = s.mainbarWidth ∧
      tagsOf s2.procs = tagsOf s.procs ++ [(Role.main, (i : Int))]) := by
  have hm' : ¬ ((i : Int) < 0 ∨ (i : Int) ≥ (s.monitors.length : Int)) := by
    simp; omega
  unfold drawDzenMainBarByMonitorWith
  rw [if_neg hm']
  simp only [getAt_nat _ _ hi, bind, Except.bind]
  generalize (["-xs", fmtInt ((i : Int) + 1), "-ta", "r", "-fn", s.config.Font, "-x",
      fmtInt (if s.contiguousBar = true then s.leftBarWidth
        else s.monitors[i].width - s.mainbarWidth - 1), "-y",
      fmtInt (if s.isTopBar = true then 0 else s.monitors[i].height - s.barHeight), "-w",
      fmtInt (if s.contiguousBar = true then s.monitors[i].width - s.leftBarWidth
        else s.mainbarWidth), "-h", fmtInt s.barHeight,
      "-bg", s.config.Colors.Bg, "-fg", s.config.Colors.Key, "-e", "button2=;"] : List String) = args
  obtain ⟨line, hline⟩ := statusBarText_ok (execDzen env .main i args s).2 i
    (by simpa [execDzen] using hi)
  simp only [statusBarWith, bind, Except.bind, hline, pure, Except.pure]
  cases hstd : (execDzen env .main i args s).1.2.1 with
  | none =>
    left
    exact ⟨.nilDereference, by simp [writeString], by decide⟩
  | some k =>
    simp only [writeString]
    by_cases hlen : i < s.dzenMainbar.length
    · right
      rw [setAt_nat _ _ _ (by simpa [execDzen] using hlen)]
      refine ⟨_, _, rfl, ⟨rfl, rfl, rfl, rfl, rfl, rfl, rfl, rfl⟩, rfl, ?_⟩
      simp [execDzen, tagsOf]
    · left
      refine ⟨.indexOutOfRange, ?_, by decide⟩
      have : ¬ i < (execDzen env .main i args s).2.dzenMainbar.length := by
        simpa [execDzen] using hlen
      simp [setAt, this]

theorem Kept.nothing (s : State) : Kept s s [] :=
  ⟨SameVars.reflVars s, rfl, by simp⟩

theorem Kept.andThen {a b c : State} {n1 n2 : List (Role × Int)} (h1 : Kept a b n1)
    (h2 : Kept b c n2) : Kept a c (n1 ++ n2) :=
  ⟨h1.vars.transVars h2.vars, h2.width.trans h1.width, by
    rw [h2.tags, h1.tags, List.append_assoc]⟩

theorem Kept.staysSettled {s s' : State} {new : List (Role × Int)} (h : Kept s s' new)
    (hs : Settled s) : Settled s' :=
  settled_of_same h.vars h.width hs

theorem runPending_kept (p : Bool) (d : dzenInfo) (s : State) : Kept s (runPending p d s).2 [] := by
  rw [runPending_eq]
  cases p
  · exact Kept.nothing s
  · exact ⟨⟨rfl, rfl, rfl, rfl, rfl, rfl, rfl, rfl⟩, rfl, by simp [closeProcs_tags]⟩

theorem goClose_kept (env : Env) (d : dzenInfo) (s : State) :
    Kept s (goCloseDzenBar env d s).2.2 [] := by
  rw [goCloseDzenBar_eq]
  split
  · exact ⟨⟨rfl, rfl, rfl, rfl, rfl, rfl, rfl, rfl⟩, rfl, by simp [closeProcs_tags]⟩
  · exact ⟨⟨rfl, rfl, rfl, rfl, rfl, rfl, rfl, rfl⟩, rfl, by simp⟩

theorem getAt_error {α : Type} (xs : List α) (i : Int) (e : Fault) (h : getAt xs i = .error e) :
    e = .indexOutOfRange := by
  unfold getAt at h
  split at h
  · cases h; rfl
  · split at h
    · cases h
    · cases h; rfl

/-- The loop of `drawDzenMainBar` on a settled state does not depend on the
fuel given to the nested resize, never runs out of fuel, and when it returns
it has created one main-bar process per monitor it went through. -/
theorem idleLoop (env : Env) (f : Nat) :
    ∀ (is : List Nat) (ob : dzenInfo) (p : Bool) (s : State), Settled s →
      (∀ i ∈ is, i < s.monitors.length) →
      drawDzenMainBarLoop (resizeDzenMainBar env (f + 1)) env is ob p s
        = drawDzenMainBarLoop Except.ok env is ob p s ∧
      drawDzenMainBarLoop Except.ok env is ob p s ≠ .error .outOfFuel ∧
      ∀ s', drawDzenMainBarLoop Except.ok env is ob p s = .ok s' → Kept s s' (mainTags is) := by
  intro is
  induction is with
  | nil =>
    intro ob p s _ _
    refine ⟨rfl, (fun h => by cases h), ?_⟩
    intro s' h
    have : s' = (runPending p ob s).2 := by
      simp only [drawDzenMainBarLoop, pure, Except.pure] at h
      exact (Except.ok.inj h).symm
    rw [this]
    exact runPending_kept p ob s
  | cons i rest ih =>
    intro ob p s hs hin
    have hi : i < s.monitors.length := hin i (List.mem_cons_self _ _)
    cases hget : getAt s.dzenMainbar (i : Int) with
    | error e =>
      have he := getAt_error _ _ _ hget
      simp only [drawDzenMainBarLoop, hget, bind, Except.bind]
      refine ⟨trivial, fun h => ?_, fun s' h => by cases h⟩
      rw [he] at h
      cases h
    | ok old =>
      have k1 := runPending_kept p old s
      have hs1 := k1.staysSettled hs
      have hi1 : i < (runPending p old s).2.monitors.length := by
        rw [k1.vars.monitors]; exact hi
      simp only [drawDzenMainBarLoop, hget, bind, Except.bind]
      rw [drawWith_settled env f i _ hs1]
      rcases drawIdle_cases env i (runPending p old s).2 hi1 with
        ⟨e, he, hne⟩ | ⟨h, s2, hd, hv, hw, ht⟩
      · simp only [he]
        refine ⟨trivial, fun h => ?_, fun s' h => by cases h⟩
        exact hne (Except.error.inj h)
      · simp only [hd]
        have k2 : Kept (runPending p old s).2 s2 [(Role.main, (i : Int))] := ⟨hv, hw, ht⟩
        have k3 := goClose_kept env (runPending p old s).1 s2
        have k13 := (k1.andThen k2).andThen k3
        have hs3 := k13.staysSettled hs
        have hin3 : ∀ j ∈ rest, j < (goCloseDzenBar env (runPending p old s).1 s2).2.2.monitors.length := by
          intro j hj
          rw [k13.vars.monitors]
          exact hin j (List.mem_cons_of_mem _ hj)
        obtain ⟨e1, e2, e3⟩ := ih (goCloseDzenBar env (runPending p old s).1 s2).1
          (goCloseDzenBar env (runPending p old s).1 s2).2.1 _ hs3 hin3
        refine ⟨e1, e2, fun s' h => ?_⟩
        have := k13.andThen (e3 s' h)
        simpa [mainTags] using this

theorem finishes_bind {α β : Type} (x : Except Fault α) (k : α → Except Fault β)
    (hx : Finishes x) (hk : ∀ a, x = .ok a → Finishes (k a)) : Finishes (x >>= k) := by
  cases x with
  | error e =>
    intro h
    have h' : (Except.error e : Except Fault β) = .error .outOfFuel := h
    exact hx (by rw [Except.error.inj h'])
  | ok a => exact hk a rfl

theorem finishes_ok {α : Type} (a : α) : Finishes (Except.ok a : Except Fault α) :=
  fun h => by cases h

theorem finishes_getAt {α : Type} (xs : List α) (i : Int) : Finishes (getAt xs i) := by
  intro h
  have := getAt_error _ _ _ h
  cases this

theorem finishes_setAt {α : Type} (xs : List α) (i : Int) (v : α) : Finishes (setAt xs i v) := by
  unfold setAt
  split
  · exact fun h => by cases h
  · split
    · exact finishes_ok _
    · exact fun h => by cases h

theorem finishes_writeString (w : Option Nat) (line : String) (s : State) :
    Finishes (writeString w line s) := by
  unfold writeString
  split
  · exact fun h => by cases h
  · exact finishes_ok _

theorem finishes_popupEntry (s : State) (screen : Int) (popup key formatted bar : String) :
    Finishes (popupEntry s screen popup key formatted bar) := by
  unfold popupEntry
  exact finishes_bind _ _ (finishes_getAt _ _) (fun _ _ => finishes_ok _)

theorem finishes_styledBar (s : State) (screen : Int) :
    ∀ (ks : List String) (bar : String), Finishes (styledBar s screen ks bar)
  | [], _ => finishes_ok _
  | k :: ks, bar => by
    unfold styledBar
    split
    · split
      · exact finishes_bind _ _ (finishes_popupEntry _ _ _ _ _ _)
          (fun b _ => finishes_styledBar s screen ks b)
      · split
        · exact finishes_bind _ _ (finishes_popupEntry _ _ _ _ _ _)
            (fun b _ => finishes_styledBar s screen ks b)
        · exact finishes_styledBar s screen ks _
    · exact finishes_styledBar s screen ks bar

theorem finishes_statusBarText (s : State) (screen : Int) : Finishes (statusBarText s screen) := by
  unfold statusBarText
  refine finishes_bind _ _ (finishes_styledBar s screen keys "") (fun b _ => ?_)
  split
  · exact finishes_bind _ _ (finishes_getAt _ _) (fun _ _ => finishes_ok _)
  · exact finishes_ok _

theorem finishes_statusBarWith (resize : State → Except Fault State)
    (hr : ∀ t, Finishes (resize t)) (screen : Int) (s : State) :
    Finishes (statusBarWith resize screen s) := by
  unfold statusBarWith
  exact finishes_bind _ _ (finishes_statusBarText s screen)
    (fun _ _ => finishes_bind _ _ (hr s) (fun _ _ => finishes_ok _))

theorem finishes_drawWith (resize : State → Except Fault State)
    (hr : ∀ t, Finishes (resize t)) (env : Env) (monitor : Int) (s : State) :
    Finishes (drawDzenMainBarByMonitorWith resize env monitor s) := by
  unfold drawDzenMainBarByMonitorWith
  split
  · exact finishes_ok _
  · refine finishes_bind _ _ (finishes_getAt _ _) (fun m _ => ?_)
    refine finishes_bind _ _ (finishes_statusBarWith resize hr _ _) (fun x _ => ?_)
    refine finishes_bind _ _ (finishes_writeString _ _ _) (fun s1 _ => ?_)
    exact finishes_bind _ _ (finishes_setAt _ _ _) (fun _ _ => finishes_ok _)

theorem finishes_mainLoop (resize : State → Except Fault State)
    (hr : ∀ t, Finishes (resize t)) (env : Env) :
    ∀ (is : List Nat) (ob : dzenInfo) (p : Bool) (s : State),
      Finishes (drawDzenMainBarLoop resize env is ob p s)
  | [], _, _, _ => finishes_ok _
  | i :: rest, ob, p, s => by
    unfold drawDzenMainBarLoop
    refine finishes_bind _ _ (finishes_getAt _ _) (fun old _ => ?_)
    refine finishes_bind _ _ (finishes_drawWith resize hr env _ _) (fun x _ => ?_)
    obtain ⟨r, s2⟩ := x
    cases r with
    | ok h => exact finishes_mainLoop resize hr env rest _ _ _
    | error e => exact finishes_mainLoop resize hr env rest _ _ _

/-- An unsettled `resizeDzenMainBar` with fuel for one nested call is the loop
of `drawDzenMainBar` with the nested resize left out. -/
theorem resize_unsettled_eq (env : Env) (f : Nat) (s : State) (hns : ¬ Settled s) :
    resizeDzenMainBar env (f + 2) s =
      drawDzenMainBarLoop Except.ok env (List.range s.monitors.length) dzenInfo.zero false
        { s with mainbarWidth := scaleByMagic (statusBarLen s) } := by
  have hc : s.contiguousBar = false := by
    cases h : s.contiguousBar
    · rfl
    · exact absurd (Or.inl h) hns
  have hne : scaleByMagic (statusBarLen s) ≠ s.mainbarWidth := fun h => hns (Or.inr h)
  have hs1 : Settled { s with mainbarWidth := scaleByMagic (statusBarLen s) } := Or.inr rfl
  show resizeDzenMainBar env (f + 1 + 1) s = _
  unfold resizeDzenMainBar
  rw [if_neg (by rw [hc]; decide)]
  show (if scaleByMagic (statusBarLen s) ≠ s.mainbarWidth then _ else _) = _
  rw [if_pos hne]
  unfold drawDzenMainBarWith
  exact (idleLoop env f _ dzenInfo.zero false _ hs1
    (fun i hi => by simpa using hi)).1

/-- `resizeDzenMainBar` with fuel for one nested call: the result does not
depend on further fuel, is never a lack of fuel, and a returned state is
settled and is either the state itself or has the target as width and one new
main-bar process per monitor. -/
theorem resize_total (env : Env) (f : Nat) (s : State) :
    resizeDzenMainBar env (f + 2) s = resizeDzenMainBar env 2 s ∧
    Finishes (resizeDzenMainBar env (f + 2) s) ∧
    ∀ s', resizeDzenMainBar env (f + 2) s = .ok s' →
      Settled s' ∧
      (s' = s ∨ (s'.mainbarWidth = targetWidth s ∧
        tagsOf s'.procs = tagsOf s.procs ++ mainTags (List.range s.monitors.length))) := by
  by_cases hs : Settled s
  · have e1 := resize_settled env (f + 1) s hs
    have e2 : resizeDzenMainBar env 2 s = .ok s := resize_settled env 1 s hs
    refine ⟨e1.trans e2.symm, by rw [e1]; exact finishes_ok s, fun s' h => ?_⟩
    rw [e1] at h
    cases h
    exact ⟨hs, Or.inl rfl⟩
  · have hs1 : Settled { s with mainbarWidth := scaleByMagic (statusBarLen s) } := Or.inr rfl
    have e1 := resize_unsettled_eq env f s hs
    have e2 : resizeDzenMainBar env 2 s = _ := resize_unsettled_eq env 0 s hs
    obtain ⟨-, hfin, hkept⟩ := idleLoop env f (List.range s.monitors.length) dzenInfo.zero false
      { s with mainbarWidth := scaleByMagic (statusBarLen s) } hs1
      (fun i hi => by simpa using hi)
    refine ⟨e1.trans e2.symm, by rw [e1]; exact hfin, fun s' h => ?_⟩
    rw [e1] at h
    have k := hkept s' h
    exact ⟨k.staysSettled hs1, Or.inr ⟨k.width, k.tags⟩⟩

/-! ## Lemmas on the targets of content writes -/

theorem known_stdin {s : State} (h : KnownHandles s) (t : Nat) (d : dzenInfo) (w : Nat)
    (hd : s.dzenMainbar[t]? = some d) (hw : d.stdin = some w) : w < s.procs.length := by
  have := h d (List.getElem?_mem hd)
  unfold knownHandle at this
  rw [hw] at this
  simp only [Bool.and_eq_true, decide_eq_true_eq] at this
  exact this.1

theorem known_cmd {s : State} (h : KnownHandles s) (t : Nat) (d : dzenInfo) (c : Nat)
    (hd : s.dzenMainbar[t]? = some d) (hc : d.cmd = some c) : c < s.procs.length := by
  have := h d (List.getElem?_mem hd)
  unfold knownHandle at this
  rw [hc] at this
  simp only [Bool.and_eq_true, decide_eq_true_eq] at this
  exact this.2

/-- One turn of the loop of `updateStatusBar` when no redraw is triggered. -/
theorem push_exact_step (env : Env) (f : Nat) (s0 : State) (hwf0 : WF s0) (hs0 : Settled s0)
    (hstd : AllStdin s0) (j : Nat) (s : State) (hj : j < s0.monitors.length)
    (hinv : PushExactInv s0 j s) :
    ∃ bar s2 d s3, statusBar env (f + 1) j s = .ok (bar, s2) ∧
      getAt s2.dzenMainbar (j : Int) = .ok d ∧
      writeString d.stdin (bar ++ "\n") s2 = .ok s3 ∧ PushExactInv s0 (j + 1) s3 := by
  have hjs : j < s.monitors.length := by rw [hinv.frame.vars.monitors]; exact hj
  have hs : Settled s := settled_of_same hinv.frame.vars hinv.width hs0
  obtain ⟨bar, hbar⟩ := statusBarText_ok s j hjs
  obtain ⟨d, k, hd, hk⟩ := hstd j hj
  have hj0 : j < s0.dzenMainbar.length := by rw [hwf0.1]; exact hj
  have hd0 : s0.dzenMainbar[j] = d := by
    rw [List.getElem?_eq_getElem hj0] at hd
    exact Option.some.inj hd
  have hget : getAt s.dzenMainbar (j : Int) = .ok d := by
    rw [hinv.main, getAt_nat _ _ hj0, hd0]
  have hopen : streamOpen s k = streamOpen s0 k := by
    unfold streamOpen
    rw [hinv.procs]
  refine ⟨bar, s, d, _, ?_, hget, by rw [hk]; rfl, ?_⟩
  · simp [statusBar, statusBarWith, hbar, resize_settled env f s hs, bind, Except.bind, pure,
      Except.pure]
  · obtain ⟨ws, htrace, hall⟩ := hinv.writes
    refine ⟨hinv.frame.transFrame ⟨⟨rfl, rfl, rfl, rfl, rfl, rfl, rfl, rfl⟩, rfl, rfl⟩,
      hinv.width, hinv.main, hinv.procs,
      Event.write k (bar ++ "\n") (streamOpen s k) :: ws, ?_, ?_⟩
    · simp [htrace]
    · rw [List.reverse_cons, ← List.take_concat_get' _ _ hj0]
      refine List.rel_append hall (List.Forall₂.cons ?_ List.Forall₂.nil)
      rw [hd0, hopen]
      exact ⟨k, _, hk, rfl⟩

/-- The loop of `updateStatusBar` and `reloadStatusBar` over all monitors when
no redraw is triggered and every slot holds a stream. -/
theorem pushContent_exact (env : Env) (f : Nat) (s : State) (hwf : WF s) (hs : Settled s)
    (hstd : AllStdin s) :
    ∃ s', pushContentLoop env (f + 1) (List.range s.monitors.length) s = .ok s' ∧
      WroteEach s s' := by
  obtain ⟨s', hloop, hfin⟩ :=
    pushLoop_rule env (f + 1) (fun j st => PushExactInv s j st) s.monitors.length 0 s
      (fun j st _ hj hinv => push_exact_step env f s hwf hs hstd j st (by omega) hinv)
      ⟨MainFrame.reflFrame s, rfl, rfl, rfl, [], rfl, by simp⟩
  refine ⟨s', ?_, hfin.main, hfin.procs, ?_⟩
  · rw [List.range_eq_range']
    exact hloop
  · obtain ⟨ws, h1, h2⟩ := hfin.writes
    refine ⟨ws, h1, ?_⟩
    rw [Nat.zero_add, ← hwf.1, List.take_length] at h2
    exact h2

/-- `resizeDzenMainBar` when every process starts and either every main-bar
stream is open or a redraw is due on handles older than the call: the streams
installed afterwards are open and no write was refused. -/
theorem resize_open_known (env : Env) (f : Nat) (s : State) (hwf : WF s) (hall : AllStarted env)
    (hready : MainOpen s ∨ (¬ Settled s ∧ KnownHandles s)) :
    ∃ s', resizeDzenMainBar env (f + 2) s = .ok s' ∧ MainFrame s s' ∧ MainOpen s' ∧
      NoRefusedSince s s' := by
  rcases hready with hopen | ⟨hs, hknown⟩
  · exact resize_open env f s hwf hall hopen
  · have hc : s.contiguousBar = false := by
      cases h : s.contiguousBar
      · rfl
      · exact absurd (Or.inl h) hs
    have hne : scaleByMagic (statusBarLen s) ≠ s.mainbarWidth := fun h => hs (Or.inr h)
    have hs1 : Settled { s with mainbarWidth := scaleByMagic (statusBarLen s) } := Or.inr rfl
    obtain ⟨s', hdraw, hframe, -, hopen', hnr⟩ :=
      drawMainBar_open env f { s with mainbarWidth := scaleByMagic (statusBarLen s) } hs1 hwf hall
        (fun t d w hd hw => known_stdin hknown t d w hd hw)
    have hv0 : SameVars s { s with mainbarWidth := scaleByMagic (statusBarLen s) } :=
      ⟨rfl, rfl, rfl, rfl, rfl, rfl, rfl, rfl⟩
    refine ⟨s', ?_, ⟨hv0.transVars hframe.vars, hframe.left, hframe.mainLen⟩, hopen', hnr⟩
    show resizeDzenMainBar env (f + 1 + 1) s = .ok s'
    unfold resizeDzenMainBar
    rw [if_neg (by rw [hc]; decide)]
    show (if scaleByMagic (statusBarLen s) ≠ s.mainbarWidth then _ else _) = _
    rw [if_pos hne]
    exact hdraw

/-- One turn of the loop of `updateStatusBar` when every process starts. -/
theorem push_known_step (env : Env) (f : Nat) (s0 : State) (hwf0 : WF s0) (hall : AllStarted env)
    (j : Nat) (s : State) (hj : j < s0.monitors.length) (hinv : PushKnownInv s0 j s) :
    ∃ bar s2 d s3, statusBar env (f + 2) j s = .ok (bar, s2) ∧
      getAt s2.dzenMainbar (j : Int) = .ok d ∧
      writeString d.stdin (bar ++ "\n") s2 = .ok s3 ∧ PushKnownInv s0 (j + 1) s3 := by
  have hwf : WF s := wf_of_frame hinv.frame hwf0
  have hjs : j < s.monitors.length := by rw [hinv.frame.vars.monitors]; exact hj
  obtain ⟨bar, hbar⟩ := statusBarText_ok s j hjs
  obtain ⟨s2, hres, hf2, hopen2, hnr2⟩ := resize_open_known env f s hwf hall
    (hinv.ready.imp id (fun h => h.2))
  obtain ⟨d, k, hd, hk, hdo⟩ := hopen2 j (by rw [hf2.vars.monitors]; exact hjs)
  have hlen : j < s2.dzenMainbar.length := by rw [hf2.mainLen, hwf.1]; exact hjs
  have hget : getAt s2.dzenMainbar (j : Int) = .ok d := by
    rw [getAt_nat _ _ hlen]
    rw [List.getElem?_eq_getElem hlen] at hd
    rw [Option.some.inj hd]
  refine ⟨bar, s2, d, _, ?_, hget, by rw [hk]; rfl, ?_⟩
  · simp [statusBar, statusBarWith, hbar, hres, bind, Except.bind, pure, Except.pure]
  · exact {
      frame := (hinv.frame.transFrame hf2).transFrame
        ⟨⟨rfl, rfl, rfl, rfl, rfl, rfl, rfl, rfl⟩, rfl, rfl⟩
      noRefused := (hinv.noRefused.chain hnr2).extend [_] rfl (by simp [isRefused, hdo])
      ready := Or.inl hopen2 }

/-- The loop of `updateStatusBar` and `reloadStatusBar` over all monitors when
every process starts: no write is refused and every slot ends with an open
stream, also when the loop starts with closed handles that its first
`statusBar` call replaces. -/
theorem pushContent_known (env : Env) (f : Nat) (s : State) (hwf : WF s) (hall : AllStarted env)
    (hready : MainOpen s ∨ (¬ Settled s ∧ KnownHandles s)) :
    ∃ s', pushContentLoop env (f + 2) (List.range s.monitors.length) s = .ok s' ∧
      NoRefusedSince s s' ∧ MainOpen s' := by
  obtain ⟨s', hloop, hfin⟩ :=
    pushLoop_rule env (f + 2) (fun j st => PushKnownInv s j st) s.monitors.length 0 s
      (fun j st _ hj hinv => push_known_step env f s hwf hall j st (by omega) hinv)
      ⟨MainFrame.reflFrame s, NoRefusedSince.same s, hready.imp id (fun h => ⟨rfl, h⟩)⟩
  refine ⟨s', ?_, hfin.noRefused, ?_⟩
  · rw [List.range_eq_range']
    exact hloop
  · rcases hfin.ready with h | ⟨h0, -⟩
    · exact h
    · intro t ht
      rw [hfin.frame.vars.monitors] at ht
      omega
/-! ## Lemmas on the relaunch made by `resizeDzenMainBar` -/

theorem knownHandle_congr {n : Nat} {d d' : dzenInfo} (h1 : d'.stdin = d.stdin)
    (h2 : d'.cmd = d.cmd) (h : knownHandle n d = true) : knownHandle n d' = true := by
  unfold knownHandle at *
  rw [h1, h2]
  exact h

theorem knownHandle_stdin {n : Nat} {d : dzenInfo} (h : knownHandle n d = true) (w : Nat)
    (hw : d.stdin = some w) : w < n := by
  unfold knownHandle at h
  rw [hw] at h
  simp only [Bool.and_eq_true, decide_eq_true_eq] at h
  exact h.1

theorem knownHandle_cmd {n : Nat} {d : dzenInfo} (h : knownHandle n d = true) (c : Nat)
    (hc : d.cmd = some c) : c < n := by
  unfold knownHandle at h
  rw [hc] at h
  simp only [Bool.and_eq_true, decide_eq_true_eq] at h
  exact h.2

theorem closeVar_cmd (d : dzenInfo) : (closeVar d).cmd = d.cmd := by
  unfold closeVar
  split <;> rfl

theorem closeProcs_zero (procs : List Proc) : closeProcs dzenInfo.zero procs = procs := rfl

/-- The process table after a pending goroutine has run, or not. -/
theorem runPending_procs (p : Bool) (d : dzenInfo) (s : State) :
    (runPending p d s).2.procs = closeProcs (if p then d else dzenInfo.zero) s.procs ∧
    (runPending p d s).1.stdin = d.stdin ∧ (runPending p d s).1.cmd = d.cmd := by
  rw [runPending_eq]
  cases p
  · exact ⟨rfl, rfl, rfl⟩
  · exact ⟨rfl, closeVar_stdin d, closeVar_cmd d⟩

/-- The process table after `go closeDzenBar(&oldBar)`. -/
theorem goClose_procs (env : Env) (d : dzenInfo) (s : State) :
    (goCloseDzenBar env d s).2.2.procs
      = closeProcs (if env.eager s.goCount then d else dzenInfo.zero) s.procs ∧
    (goCloseDzenBar env d s).1.stdin = d.stdin ∧ (goCloseDzenBar env d s).1.cmd = d.cmd := by
  rw [goCloseDzenBar_eq]
  cases env.eager s.goCount
  · exact ⟨rfl, rfl, rfl⟩
  · exact ⟨rfl, closeVar_stdin d, closeVar_cmd d⟩

/-- What `closeDzenBar` on a handle with stream `w` and process `c` does to
process `k`. -/
theorem closeProcs_getElem (d : dzenInfo) (procs : List Proc) (k w c : Nat)
    (hw : d.stdin = some w) (hc : d.cmd = some c) :
    (closeProcs d procs)[k]? = (procs[k]?).map (fun p =>
      { p with stdinOpen := if k = w then false else p.stdinOpen,
               running := if k = c then false else p.running }) := by
  unfold closeProcs
  rw [hw, hc]
  simp only [getElem?_modifyAt]
  cases procs[k]? with
  | none => simp
  | some q =>
    by_cases h1 : k = w
    · subst h1
      by_cases h2 : k = c
      · subst h2; simp
      · simp [h2]
    · by_cases h2 : k = c
      · subst h2; simp [h1]
      · simp [h1, h2]

theorem closeProcs_undrawn (d : dzenInfo) (procs : List Proc)
    (h : d.stdin = none ∨ d.cmd = none) : closeProcs d procs = procs := by
  unfold closeProcs
  rcases h with h | h
  · rw [h]
  · rw [h]
    cases d.stdin <;> rfl

/-- Closing a handle leaves the processes it does not name as they were. -/
theorem close_keeps_new {s s' : State} {d : dzenInfo} {lim : Nat}
    (hp : s'.procs = closeProcs d s.procs) (hd : knownHandle lim d = true) (k : Nat)
    (hk : lim ≤ k) : procRunning s' k = procRunning s k ∧ streamOpen s' k = streamOpen s k := by
  unfold procRunning streamOpen
  rw [hp]
  cases hw : d.stdin with
  | none => rw [closeProcs_undrawn d _ (Or.inl hw)]; exact ⟨rfl, rfl⟩
  | some w =>
    cases hc : d.cmd with
    | none => rw [closeProcs_undrawn d _ (Or.inr hc)]; exact ⟨rfl, rfl⟩
    | some c =>
      have hkw : k ≠ w := by have := knownHandle_stdin hd w hw; omega
      have hkc : k ≠ c := by have := knownHandle_cmd hd c hc; omega
      rw [closeProcs_getElem d _ k w c hw hc]
      cases s.procs[k]? with
      | none => exact ⟨rfl, rfl⟩
      | some q => simp [hkw, hkc]

/-- Closing a handle opens no stream and starts no process. -/
theorem close_keeps_closed {s s' : State} {d : dzenInfo} (hp : s'.procs = closeProcs d s.procs)
    (k : Nat) :
    (streamOpen s k = false → streamOpen s' k = false) ∧
    (procRunning s k = false → procRunning s' k = false) := by
  unfold procRunning streamOpen
  rw [hp]
  cases hw : d.stdin with
  | none => rw [closeProcs_undrawn d _ (Or.inl hw)]; exact ⟨id, id⟩
  | some w =>
    cases hc : d.cmd with
    | none => rw [closeProcs_undrawn d _ (Or.inr hc)]; exact ⟨id, id⟩
    | some c =>
      rw [closeProcs_getElem d _ k w c hw hc]
      cases s.procs[k]? with
      | none => exact ⟨id, id⟩
      | some q =>
        by_cases h1 : k = w
        · subst h1
          by_cases h2 : k = c
          · subst h2; simp
          · simp [h2]
        · by_cases h2 : k = c
          · subst h2; simp [h1]
          · simp [h1, h2]

theorem close_keeps_retired {s s' : State} {d : dzenInfo} (hp : s'.procs = closeProcs d s.procs)
    (d0 : dzenInfo) (h : Retired s d0) : Retired s' d0 := fun w c hw hc =>
  ⟨(close_keeps_closed hp w).1 (h w c hw hc).1, (close_keeps_closed hp c).2 (h w c hw hc).2⟩

/-- Closing a handle retires the bar behind it. -/
theorem close_retires {s s' : State} {d d0 : dzenInfo} (hp : s'.procs = closeProcs d s.procs)
    (h1 : d.stdin = d0.stdin) (h2 : d.cmd = d0.cmd) : Retired s' d0 := by
  intro w c hw hc
  unfold procRunning streamOpen
  rw [hp, closeProcs_getElem d _ w w c (h1.trans hw) (h2.trans hc),
    closeProcs_getElem d _ c w c (h1.trans hw) (h2.trans hc)]
  constructor
  · cases s.procs[w]? with
    | none => rfl
    | some q => simp
  · cases s.procs[c]? with
    | none => rfl
    | some q => simp

/-- A process creation leaves the earlier processes as they were. -/
theorem append_keeps {s s' : State} {pr : Proc} (hp : s'.procs = s.procs ++ [pr]) (k : Nat)
    (hk : k < s.procs.length) :
    procRunning s' k = procRunning s k ∧ streamOpen s' k = streamOpen s k := by
  unfold procRunning streamOpen
  rw [hp, List.getElem?_append_left hk]
  exact ⟨rfl, rfl⟩

theorem append_new {s s' : State} {pr : Proc} (hp : s'.procs = s.procs ++ [pr]) :
    procRunning s' s.procs.length = pr.running ∧ streamOpen s' s.procs.length = pr.stdinOpen := by
  unfold procRunning streamOpen
  rw [hp]
  simp

theorem append_keeps_retired {s s' : State} {pr : Proc} (hp : s'.procs = s.procs ++ [pr])
    (d0 : dzenInfo) (hk : knownHandle s.procs.length d0 = true) (h : Retired s d0) :
    Retired s' d0 := fun w c hw hc => by
  rw [(append_keeps hp w (knownHandle_stdin hk w hw)).2,
    (append_keeps hp c (knownHandle_cmd hk c hc)).1]
  exact h w c hw hc

theorem knownHandle_mono {n m : Nat} {d : dzenInfo} (hnm : n ≤ m) (h : knownHandle n d = true) :
    knownHandle m d = true := by
  unfold knownHandle at *
  cases hw : d.stdin <;> cases hc : d.cmd <;> simp [hw, hc] at h ⊢ <;> omega

/-- `drawMain_settled` with the resulting state described by its fields, the
running flag of the new process included. -/
theorem drawMain_settled_live (env : Env) (f : Nat) (m : Nat) (s : State)
    (hm : m < s.monitors.length) (hwf : WF s) (hs : Settled s)
    (hp : env.spawn s.procs.length ≠ .pipeError) :
    ∃ h pr line s2,
      drawDzenMainBarByMonitorWith (resizeDzenMainBar env (f + 1)) env m s = .ok (.ok h, s2) ∧
      Fresh h s.procs.length ∧ pr.role = .main ∧ pr.monitor = (m : Int) ∧
      pr.running = decide (env.spawn s.procs.length = .started) ∧
      pr.stdinOpen = decide (env.spawn s.procs.length = .started) ∧
      DrawnMain s s2 m h pr line (env.spawn s.procs.length) := by
  obtain ⟨h, pr, line, hd, hf, hrole, hmon, hrun, hso⟩ := drawMain_settled env f m s hm hwf hs hp
  exact ⟨h, pr, line, _, hd, hf, hrole, hmon, hrun, hso,
    ⟨⟨rfl, rfl, rfl, rfl, rfl, rfl, rfl, rfl⟩, rfl, rfl, rfl, rfl, rfl, rfl⟩⟩

/-- A main-bar draw whose `StdinPipe` fails writes to a nil stream. -/
theorem drawMain_pipeError (env : Env) (f : Nat) (m : Nat) (s : State)
    (hm : m < s.monitors.length) (hs : Settled s)
    (hp : env.spawn s.procs.length = .pipeError) :
    drawDzenMainBarByMonitorWith (resizeDzenMainBar env (f + 1)) env m s
      = .error .nilDereference := by
  have hm' : ¬ ((m : Int) < 0 ∨ (m : Int) ≥ (s.monitors.length : Int)) := by
    simp; omega
  unfold drawDzenMainBarByMonitorWith
  rw [if_neg hm']
  simp only [getAt_nat _ _ hm, bind, Except.bind]
  generalize hargs : (["-xs", fmtInt ((m : Int) + 1), "-ta", "r", "-fn", s.config.Font, "-x",
      fmtInt (if s.contiguousBar = true then s.leftBarWidth
        else s.monitors[m].width - s.mainbarWidth - 1), "-y",
      fmtInt (if s.isTopBar = true then 0 else s.monitors[m].height - s.barHeight), "-w",
      fmtInt (if s.contiguousBar = true then s.monitors[m].width - s.leftBarWidth
        else s.mainbarWidth), "-h", fmtInt s.barHeight,
      "-bg", s.config.Colors.Bg, "-fg", s.config.Colors.Key, "-e", "button2=;"] : List String) = args
  obtain ⟨line, hline⟩ := statusBarText_ok (execDzen env .main m args s).2 m
    (by simpa [execDzen] using hm)
  have hs1 : Settled (execDzen env .main m args s).2 := by
    simpa [execDzen, Settled, targetWidth, statusBarLen] using hs
  simp only [statusBarWith, bind, Except.bind, hline, resize_settled env f _ hs1, pure, Except.pure]
  simp only [execDzen, hp, if_true, writeString]
/-- One turn of the loop of `drawDzenMainBar` on a settled state when the
`StdinPipe` of this turn does not fail: the relaunch invariant is kept. -/
theorem relaunch_step (env : Env) (f : Nat) (s0 : State) (hs0 : Settled s0) (hwf0 : WF s0)
    (j : Nat) (s : State) (ob : dzenInfo) (p : Bool) (hj : j < s0.monitors.length)
    (hp : env.spawn (s0.procs.length + j) ≠ .pipeError) (hinv : RelaunchInv env s0 j s ob) :
    ∃ old h s2, getAt s.dzenMainbar (j : Int) = .ok old ∧
      drawDzenMainBarByMonitorWith (resizeDzenMainBar env (f + 1)) env j (runPending p old s).2
        = .ok (.ok h, s2) ∧
      RelaunchInv env s0 (j + 1) (goCloseDzenBar env (runPending p old s).1 s2).2.2
        (goCloseDzenBar env (runPending p old s).1 s2).1 := by
  have hlen : j < s.dzenMainbar.length := by
    rw [hinv.base.frame.mainLen, hwf0.1]; exact hj
  have hslot : s0.dzenMainbar[j]? = some s.dzenMainbar[j] := by
    rw [← hinv.base.todo j (le_refl _), List.getElem?_eq_getElem hlen]
  refine ⟨s.dzenMainbar[j], ?_⟩
  have h1 := hinv.base.afterPending p s.dzenMainbar[j]
  obtain ⟨hprocs1, hstd1, hcmd1⟩ := runPending_procs p s.dzenMainbar[j] s
  generalize runPending p s.dzenMainbar[j] s = rp at h1 hprocs1 hstd1 hcmd1 ⊢
  obtain ⟨ob1, s1⟩ := rp
  simp only at h1 hprocs1 hstd1 hcmd1 ⊢
  have hj1 : j < s1.monitors.length := by rw [h1.frame.vars.monitors]; exact hj
  have hL1 : s1.procs.length = s0.procs.length + j := h1.procsLen
  obtain ⟨h, pr, line, s2, hdraw, hfresh, hrole, hmon, hrun, hso, hd⟩ :=
    drawMain_settled_live env f j s1 hj1 (h1.wf hwf0) (h1.settled hs0) (by rw [hL1]; exact hp)
  refine ⟨h, s2, getAt_nat _ _ hlen, hdraw, ?_⟩
  obtain ⟨hprocs3, hstd3, hcmd3⟩ := goClose_procs env ob1 s2
  refine ⟨LoopInv.afterGo (h1.afterDrawn hwf0 hj h pr line _ hd hfresh hrole hmon) env _, ?_⟩
  intro hknown
  have hx := hinv.extra hknown
  have hkold : knownHandle s0.procs.length s.dzenMainbar[j] = true :=
    hknown _ (List.getElem?_mem hslot)
  have hk1 : knownHandle s0.procs.length (if p then s.dzenMainbar[j] else dzenInfo.zero) = true := by
    cases p
    · rfl
    · exact hkold
  have hkob1 : knownHandle s0.procs.length ob1 = true := knownHandle_congr hstd1 hcmd1 hkold
  have hk3 : knownHandle s0.procs.length (if env.eager s2.goCount then ob1 else dzenInfo.zero)
      = true := by
    cases env.eager s2.goCount
    · rfl
    · exact hkob1
  generalize goCloseDzenBar env ob1 s2 = g at hprocs3 hstd3 hcmd3 ⊢
  obtain ⟨ob3, p3, s3⟩ := g
  simp only at hprocs3 hstd3 hcmd3 ⊢
  exact {
    live := by
      intro t ht hst
      rw [(close_keeps_new hprocs3 hk3 _ (by omega)).1, (close_keeps_new hprocs3 hk3 _ (by omega)).2]
      by_cases htj : t = j
      · subst htj
        rw [← hL1, (append_new hd.procs).1, (append_new hd.procs).2, hrun, hso, hL1, hst]
        exact ⟨rfl, rfl⟩
      · rw [(append_keeps hd.procs _ (by omega)).1, (append_keeps hd.procs _ (by omega)).2,
          (close_keeps_new hprocs1 hk1 _ (by omega)).1, (close_keeps_new hprocs1 hk1 _ (by omega)).2]
        exact hx.live t (by omega) hst
    var := knownHandle_congr hstd3 hcmd3 hkob1
    retired := by
      intro heager t d ht hdt
      by_cases htj : t = j
      · subst htj
        have hde : d = s.dzenMainbar[t] := by
          rw [hslot] at hdt
          exact (Option.some.inj hdt).symm
        rw [heager s2.goCount, if_pos rfl] at hprocs3
        exact close_retires hprocs3 (hde ▸ hstd1) (hde ▸ hcmd1)
      · have hkd : knownHandle s0.procs.length d = true := hknown _ (List.getElem?_mem hdt)
        refine close_keeps_retired hprocs3 d ?_
        refine append_keeps_retired hd.procs d (knownHandle_mono (by omega) hkd) ?_
        exact close_keeps_retired hprocs1 d (hx.retired heager t d (by omega) hdt) }

/-- `drawDzenMainBar` on a settled state when no `StdinPipe` of the loop
fails. -/
theorem drawMainBar_relaunch (env : Env) (f : Nat) (s : State) (hs : Settled s) (hwf : WF s)
    (hpipe : PipesOk env s s.monitors.length) :
    ∃ s', drawDzenMainBarWith (resizeDzenMainBar env (f + 1)) env s = .ok s' ∧
      MainFrame s s' ∧ s'.mainbarWidth = s.mainbarWidth ∧ Relaunched s s' ∧
      (KnownHandles s → ∀ t, t < s.monitors.length →
        env.spawn (s.procs.length + t) = .started →
        procRunning s' (s.procs.length + t) = true ∧ streamOpen s' (s.procs.length + t) = true) ∧
      (KnownHandles s → AllEager env →
        ∀ (t : Nat) (d : dzenInfo), s.dzenMainbar[t]? = some d → Retired s' d) := by
  have hinit : RelaunchInv env s 0 s dzenInfo.zero :=
    { base := { frame := MainFrame.reflFrame s, width := rfl,
                done := fun t ht => absurd ht (Nat.not_lt_zero t),
                todo := fun _ _ => rfl, tags := by simp }
      extra := fun _ =>
        { live := fun t ht => absurd ht (Nat.not_lt_zero t)
          var := rfl
          retired := fun _ t _ ht => absurd ht (Nat.not_lt_zero t) } }
  obtain ⟨s1, ob1, p1, hloop, hfin⟩ :=
    mainLoop_rule (resizeDzenMainBar env (f + 1)) env (fun j st ob _ => RelaunchInv env s j st ob)
      s.monitors.length 0 s dzenInfo.zero false
      (fun j st ob p _ hj hinv =>
        relaunch_step env f s hs hwf j st ob p (by omega) (hpipe j (by omega)) hinv)
      hinit
  simp only [Nat.zero_add] at hfin
  have hbase := hfin.base.afterPending p1 ob1
  obtain ⟨hprocs, -, -⟩ := runPending_procs p1 ob1 s1
  refine ⟨_, ?_, hbase.frame, hbase.width, ⟨hbase.done, hbase.tags⟩, ?_, ?_⟩
  · unfold drawDzenMainBarWith
    rw [List.range_eq_range']
    exact hloop
  · intro hknown t ht hst
    have hx := hfin.extra hknown
    have hk : knownHandle s.procs.length (if p1 then ob1 else dzenInfo.zero) = true := by
      cases p1
      · rfl
      · exact hx.var
    rw [(close_keeps_new hprocs hk _ (by omega)).1, (close_keeps_new hprocs hk _ (by omega)).2]
    exact hx.live t ht hst
  · intro hknown heager t d hdt
    have hx := hfin.extra hknown
    have ht : t < s.monitors.length := by
      rw [← hwf.1]
      by_contra hn
      rw [List.getElem?_eq_none (by omega)] at hdt
      cases hdt
    exact close_keeps_retired hprocs d (hx.retired heager t d ht hdt)

/-- Rule for a loop of `drawDzenMainBar` that meets a failing `StdinPipe`: the
turns before it keep the invariant, the failing turn ends in the panic. -/
theorem mainLoop_fail_rule (resize : State → Except Fault State) (env : Env)
    (Inv : Nat → State → dzenInfo → Bool → Prop) (bad : Nat → Prop) :
    ∀ (k i : Nat) (s : State) (ob : dzenInfo) (p : Bool),
      (∀ j s ob p, i ≤ j → j < i + k → Inv j s ob p →
        ∃ old, getAt s.dzenMainbar (j : Int) = .ok old ∧
          ((bad j ∧ drawDzenMainBarByMonitorWith resize env j (runPending p old s).2
              = .error .nilDereference) ∨
           (¬ bad j ∧ ∃ h s2,
              drawDzenMainBarByMonitorWith resize env j (runPending p old s).2 = .ok (.ok h, s2) ∧
              Inv (j + 1) (goCloseDzenBar env (runPending p old s).1 s2).2.2
                (goCloseDzenBar env (runPending p old s).1 s2).1
                (goCloseDzenBar env (runPending p old s).1 s2).2.1))) →
      Inv i s ob p → (∃ t, i ≤ t ∧ t < i + k ∧ bad t) →
      drawDzenMainBarLoop resize env (List.range' i k) ob p s = .error .nilDereference := by
  intro k
  induction k with
  | zero =>
    intro i s ob p _ _ hbad
    obtain ⟨t, h1, h2, -⟩ := hbad
    omega
  | succ k ih =>
    intro i s ob p hstep hinv hbad
    obtain ⟨old, hget, hcase⟩ := hstep i s ob p (le_refl _) (by omega) hinv
    rw [List.range'_succ]
    rcases hcase with ⟨-, hfail⟩ | ⟨hgood, h, s2, hdraw, hnext⟩
    · simp only [drawDzenMainBarLoop, hget, bind, Except.bind, hfail]
    · simp only [drawDzenMainBarLoop, hget, bind, Except.bind, hdraw]
      refine ih (i + 1) _ _ _ (fun j s ob p h1 h2 => hstep j s ob p (by omega) (by omega)) hnext ?_
      obtain ⟨t, h1, h2, h3⟩ := hbad
      refine ⟨t, ?_, by omega, h3⟩
      by_contra hlt
      have : t = i := by omega
      exact hgood (this ▸ h3)

/-- `drawDzenMainBar` on a settled state when a `StdinPipe` of the loop fails:
the draw of the first monitor it fails for writes to a nil stream. -/
theorem drawMainBar_pipe_fails (env : Env) (f : Nat) (s : State) (hs : Settled s) (hwf : WF s)
    (hbad : ∃ t, t < s.monitors.length ∧ env.spawn (s.procs.length + t) = .pipeError) :
    drawDzenMainBarWith (resizeDzenMainBar env (f + 1)) env s = .error .nilDereference := by
  have hinit : RelaunchInv env s 0 s dzenInfo.zero :=
    { base := { frame := MainFrame.reflFrame s, width := rfl,
                done := fun t ht => absurd ht (Nat.not_lt_zero t),
                todo := fun _ _ => rfl, tags := by simp }
      extra := fun _ =>
        { live := fun t ht => absurd ht (Nat.not_lt_zero t)
          var := rfl
          retired := fun _ t _ ht => absurd ht (Nat.not_lt_zero t) } }
  unfold drawDzenMainBarWith
  rw [List.range_eq_range']
  refine mainLoop_fail_rule (resizeDzenMainBar env (f + 1)) env
    (fun j st ob _ => RelaunchInv env s j st ob)
    (fun j => env.spawn (s.procs.length + j) = .pipeError)
    s.monitors.length 0 s dzenInfo.zero false ?_ hinit ?_
  · intro j st ob p _ hj hinv
    have hjN : j < s.monitors.length := by omega
    by_cases hb : env.spawn (s.procs.length + j) = .pipeError
    · have hlen : j < st.dzenMainbar.length := by
        rw [hinv.base.frame.mainLen, hwf.1]; exact hjN
      refine ⟨st.dzenMainbar[j], getAt_nat _ _ hlen, Or.inl ⟨hb, ?_⟩⟩
      have h1 := hinv.base.afterPending p st.dzenMainbar[j]
      refine drawMain_pipeError env f j _ ?_ (h1.settled hs) ?_
      · rw [h1.frame.vars.monitors]; exact hjN
      · rw [h1.procsLen]; exact hb
    · obtain ⟨old, h, s2, hget, hdraw, hnext⟩ :=
        relaunch_step env f s hs hwf j st ob p hjN hb hinv
      exact ⟨old, hget, Or.inr ⟨hb, h, s2, hdraw, hnext⟩⟩
  · obtain ⟨t, ht, hb⟩ := hbad
    exact ⟨t, Nat.zero_le _, by omega, hb⟩

/-- `resizeDzenMainBar` on a state whose width is not the target. -/
theorem resize_unsettled_draw (env : Env) (f : Nat) (s : State) (hns : ¬ Settled s) :
    resizeDzenMainBar env (f + 2) s =
      drawDzenMainBarWith (resizeDzenMainBar env (f + 1)) env
        { s with mainbarWidth := scaleByMagic (statusBarLen s) } := by
  have hc : s.contiguousBar = false := by
    cases h : s.contiguousBar
    · rfl
    · exact absurd (Or.inl h) hns
  have hne : scaleByMagic (statusBarLen s) ≠ s.mainbarWidth := fun h => hns (Or.inr h)
  show resizeDzenMainBar env (f + 1 + 1) s = _
  unfold resizeDzenMainBar
  rw [if_neg (by rw [hc]; decide)]
  show (if scaleByMagic (statusBarLen s) ≠ s.mainbarWidth then _ else _) = _
  rw [if_pos hne]
  rfl

/-- `resizeDzenMainBar` on a state whose width is not the target, when no
`StdinPipe` of the redraw fails. -/
theorem resize_relaunch (env : Env) (f : Nat) (s : State) (hwf : WF s) (hns : ¬ Settled s)
    (hpipe : PipesOk env s s.monitors.length) :
    ∃ s', resizeDzenMainBar env (f + 2) s = .ok s' ∧ Resized env s s' := by
  have hs1 : Settled { s with mainbarWidth := scaleByMagic (statusBarLen s) } := Or.inr rfl
  obtain ⟨s', hdraw, hframe, hwidth, hrel, hlive, hret⟩ :=
    drawMainBar_relaunch env f { s with mainbarWidth := scaleByMagic (statusBarLen s) } hs1 hwf
      hpipe
  exact ⟨s', (resize_unsettled_draw env f s hns).trans hdraw,
    ⟨hwidth, hrel, hframe.left, hlive, hret⟩⟩

/-- `resizeDzenMainBar` on a state whose width is not the target, when a
`StdinPipe` of the redraw fails. -/
theorem resize_pipe_fails (env : Env) (f : Nat) (s : State) (hwf : WF s) (hns : ¬ Settled s)
    (hbad : ¬ PipesOk env s s.monitors.length) :
    resizeDzenMainBar env (f + 2) s = .error .nilDereference := by
  have hs1 : Settled { s with mainbarWidth := scaleByMagic (statusBarLen s) } := Or.inr rfl
  rw [resize_unsettled_draw env f s hns]
  refine drawMainBar_pipe_fails env f _ hs1 hwf ?_
  unfold PipesOk at hbad
  push_neg at hbad
  exact hbad
theorem len_longIcon : len longIcon = 1118475 := by
  unfold len longIcon
  rw [String.utf8ByteSize_mk, utf8Len_replicate_x]

theorem statusBarLen_longIconState : statusBarLen longIconState = 1118485 := by
  have h : plainBar longIconData keys "" = "" ++ " " ++ longIcon ++ " " ++ "12:00:00" := by
    simp [plainBar, keys, longIconData, List.lookup]
  show len (plainBar longIconData keys "") = 1118485
  rw [h, len_append, len_append, len_append, len_longIcon]
  rfl

theorem targetWidth_longIconState : targetWidth longIconState = 8388638 := by
  unfold targetWidth
  rw [statusBarLen_longIconState]
  decide!

/-! ## Properties of the specification -/

/-- C1 (evaluation at the failing input). One monitor, floating bar: after the
`drawDzenBars` of start-up, two main-bar renderers of monitor 0 are running
(processes 1 and 2), whether the close goroutines run at once or late:
`dzenMainbar[0]` holds process 1, and process 2, launched by the redraw that
`statusBar` triggers inside the draw of process 1, is referenced nowhere. -/
theorem startup_leaves_two_main_bars :
    (drawDzenBars eagerEnv 3 (initState oneMonitor floatingConfig "user")).map
        (fun s => (liveCount s .main 0, s.dzenMainbar.map (fun d => d.cmd)))
      = Except.ok (2, [some 1])
    ∧ (drawDzenBars eagerEnv 3 (initState oneMonitor floatingConfig "user")).map
        (fun s => (tagsOf s.procs, s.procs.map (fun p => p.running)))
      = Except.ok ([(Role.left, 0), (Role.main, 0), (Role.main, 0)], [true, true, true])
    ∧ (drawDzenBars deferredEnv 3 (initState oneMonitor floatingConfig "user")).map
        (fun s => liveCount s .main 0) = Except.ok 2 := by
  refine ⟨?_, ?_, ?_⟩ <;> decide!

/-- C2. For both roles, drawing by monitor fails with the invalid-monitor error
exactly when the index is negative or not below the number of monitors, and
then the whole state (hence both bar tables, `mainbarWidth` and the process
table) is what it was. -/
theorem draw_invalid_monitor_iff (env : Env) (fuel : Nat) (monitor : Int) (s : State) :
    ((∃ e s', drawDzenMainBarByMonitor env fuel monitor s = .ok (.error e, s')) ↔
        (monitor < 0 ∨ monitor ≥ (s.monitors.length : Int))) ∧
    ((∃ e s', drawDzenLeftBarByMonitor env monitor s = .ok (.error e, s')) ↔
        (monitor < 0 ∨ monitor ≥ (s.monitors.length : Int))) ∧
    ((monitor < 0 ∨ monitor ≥ (s.monitors.length : Int)) →
        drawDzenMainBarByMonitor env fuel monitor s = .ok (.error .monitorIndexIncorrect, s) ∧
        drawDzenLeftBarByMonitor env monitor s = .ok (.error .monitorIndexIncorrect, s)) := by
  have hbad : (monitor < 0 ∨ monitor ≥ (s.monitors.length : Int)) →
      drawDzenMainBarByMonitor env fuel monitor s = .ok (.error .monitorIndexIncorrect, s) ∧
      drawDzenLeftBarByMonitor env monitor s = .ok (.error .monitorIndexIncorrect, s) := by
    intro h
    constructor
    · unfold drawDzenMainBarByMonitor drawDzenMainBarByMonitorWith
      rw [if_pos h]; rfl
    · unfold drawDzenLeftBarByMonitor
      rw [if_pos h]; rfl
  refine ⟨⟨?_, fun h => ⟨_, _, (hbad h).1⟩⟩, ⟨?_, fun h => ⟨_, _, (hbad h).2⟩⟩, hbad⟩
  · rintro ⟨e, s', h⟩
    by_contra hm
    exact drawMain_no_error _ env monitor s hm e s' h
  · rintro ⟨e, s', h⟩
    by_contra hm
    exact drawLeft_no_error env monitor s hm e s' h

/-- C3 (as stated, refuted). After start-up with a floating bar, a hide of
monitor 0 and one tick that resizes the bar, the left bar is hidden and the
main bar is not; two `toggleBars 0` leave both hidden. -/
theorem toggle_twice_changes_main_flag :
    (do let s ← desyncRun
        let s1 ← toggleBars eagerEnv 3 0 s
        let s2 ← toggleBars eagerEnv 3 0 s1
        pure (leftHidden s 0, mainHidden s 0, leftHidden s2 0, mainHidden s2 0))
      = Except.ok (some true, some false, some true, some true) := by
  decide!

/-- C3 (amended). On a well-formed state, for an in-range monitor, with enough
fuel and no `StdinPipe` failure, two consecutive `toggleBars m` both return and
restore the hidden flag of the left bar; they restore the hidden flag of the
main bar too whenever the two bars of `m` were in the same condition. -/
theorem toggle_twice_restores (env : Env) (fuel : Nat) (m : Nat) (s : State)
    (hfuel : 2 ≤ fuel) (hm : m < s.monitors.length) (hwf : WF s) (hpipe : NoPipeError env) :
    ∃ s1 s2, toggleBars env fuel m s = .ok s1 ∧ toggleBars env fuel m s1 = .ok s2 ∧
      leftHidden s2 m = leftHidden s m ∧ (InSync s m → mainHidden s2 m = mainHidden s m) := by
  obtain ⟨f, rfl⟩ : ∃ f, fuel = f + 2 := ⟨fuel - 2, by omega⟩
  have h1 : m < s.dzenLeftbar.length := by rw [hwf.2]; exact hm
  have h2 : m < s.dzenMainbar.length := by rw [hwf.1]; exact hm
  have hl : s.dzenLeftbar[m]? = some s.dzenLeftbar[m] := List.getElem?_eq_getElem h1
  have hr : s.dzenMainbar[m]? = some s.dzenMainbar[m] := List.getElem?_eq_getElem h2
  generalize s.dzenLeftbar[m] = l at hl
  generalize s.dzenMainbar[m] = r at hr
  have sync : InSync s m → l.hidden = r.hidden ∧ isDrawn l = isDrawn r := by
    rintro ⟨l0, r0, e1, e2, e3, e4⟩
    rw [hl] at e1; rw [hr] at e2
    cases e1; cases e2
    exact ⟨e3, e4⟩
  cases hvis : l.hidden
  · -- visible: the first call hides
    obtain ⟨s1, ht1, hwf1, hmon1, hl1, hr1⟩ := toggle_hide env (f + 2) m s hm hwf l r hl hr hvis
    have hm1 : m < s1.monitors.length := by rw [hmon1]; exact hm
    cases hd : isDrawn l
    · -- nothing was drawn: both calls find nothing to close
      rw [closeVar_undrawn hd] at hl1
      obtain ⟨s2, ht2, -, -, hl2, hr2⟩ :=
        toggle_hide env (f + 2) m s1 hm1 hwf1 l (closeVar r) hl1 hr1 hvis
      refine ⟨s1, s2, ht1, ht2, ?_, ?_⟩
      · simp [leftHidden, hl2, hl, closeVar_undrawn hd]
      · intro hs
        have hdr : isDrawn r = false := by rw [← (sync hs).2]; exact hd
        simp [mainHidden, hr2, hr, closeVar_undrawn hdr]
    · -- drawn: hidden, then drawn again
      obtain ⟨s2, l', r', a, b, ht2, -, -, hl2, hr2, hfl, hfr⟩ :=
        toggle_show env f m s1 hm1 hwf1 hpipe (closeVar l) hl1 (closeVar_drawn hd)
      refine ⟨s1, s2, ht1, ht2, ?_, ?_⟩
      · simp [leftHidden, hl2, hl, hfl.2.2, hvis]
      · intro hs
        have : r.hidden = false := by rw [← (sync hs).1]; exact hvis
        simp [mainHidden, hr2, hr, hfr.2.2, this]
  · -- hidden: the first call draws, the second hides
    obtain ⟨s1, l', r', a, b, ht1, hwf1, hmon1, hl1, hr1, hfl, hfr⟩ :=
      toggle_show env f m s hm hwf hpipe l hl hvis
    have hm1 : m < s1.monitors.length := by rw [hmon1]; exact hm
    obtain ⟨s2, ht2, -, -, hl2, hr2⟩ :=
      toggle_hide env (f + 2) m s1 hm1 hwf1 l' r' hl1 hr1 hfl.2.2
    refine ⟨s1, s2, ht1, ht2, ?_, ?_⟩
    · simp [leftHidden, hl2, hl, closeVar_drawn (fresh_isDrawn hfl), hvis]
    · intro hs
      have : r.hidden = true := by rw [← (sync hs).1]; exact hvis
      simp [mainHidden, hr2, hr, closeVar_drawn (fresh_isDrawn hfr), this]

/-- Witness of C3 (amended): two toggles of monitor 0 right after start-up. -/
theorem toggle_twice_restores_witness :
    WF startedState ∧ InSync startedState 0 ∧
    ∃ s1 s2, toggleBars eagerEnv 3 (0 : Nat) startedState = .ok s1 ∧
      toggleBars eagerEnv 3 (0 : Nat) s1 = .ok s2 ∧
      leftHidden s2 0 = leftHidden startedState 0 ∧
      (InSync startedState 0 → mainHidden s2 0 = mainHidden startedState 0) :=
  have hw : WF startedState := ⟨by decide!, by decide!⟩
  have hs : InSync startedState 0 :=
    ⟨startedState.dzenLeftbar.getD 0 dzenInfo.zero, startedState.dzenMainbar.getD 0 dzenInfo.zero,
      by decide!, by decide!, by decide!, by decide!⟩
  ⟨hw, hs, toggle_twice_restores eagerEnv 3 0 startedState (by decide) (by decide!) hw
    (fun _ h => SpawnResult.noConfusion h)⟩

/-- C4 (as stated, refuted). With one monitor and a contiguous bar, after
start-up the main bar of monitor 0 is running; a draw of that slot followed by
a close of that slot leaves that earlier process running. -/
theorem draw_close_leaves_old_process :
    (do let s ← drawDzenBars eagerEnv 3 (initState oneMonitor contiguousConfig "user")
        let (_, s1) ← drawDzenMainBarByMonitor eagerEnv 3 0 s
        let s2 ← closeMainSlot 0 s1
        pure (liveCount s2 .main 0, mainHidden s2 0))
      = Except.ok (1, some true) := by
  decide!

/-- C4 (amended). For an in-range monitor of a well-formed state, when
`StdinPipe` does not fail and no renderer of the slot is running before the
draw, a draw followed by a close of the slot returns, leaves no renderer of the
slot running and leaves the slot hidden; for the main bar this is stated for
the draws that trigger no resize (contiguous bar, or width already at its
target). -/
theorem draw_then_close (env : Env) (fuel : Nat) (m : Nat) (s : State) (hfuel : 1 ≤ fuel)
    (hm : m < s.monitors.length) (hwf : WF s) (hp : env.spawn s.procs.length ≠ .pipeError) :
    (liveCount s .left m = 0 →
      ∃ h s1 s2, drawDzenLeftBarByMonitor env m s = .ok (.ok h, s1) ∧
        closeLeftSlot m s1 = .ok s2 ∧ liveCount s2 .left m = 0 ∧ leftHidden s2 m = some true) ∧
    (liveCount s .main m = 0 → Settled s →
      ∃ h s1 s2, drawDzenMainBarByMonitor env fuel m s = .ok (.ok h, s1) ∧
        closeMainSlot m s1 = .ok s2 ∧ liveCount s2 .main m = 0 ∧ mainHidden s2 m = some true) := by
  obtain ⟨f, rfl⟩ : ∃ f, fuel = f + 1 := ⟨fuel - 1, by omega⟩
  have h1 : m < s.dzenLeftbar.length := by rw [hwf.2]; exact hm
  have h2 : m < s.dzenMainbar.length := by rw [hwf.1]; exact hm
  constructor
  · intro hfree
    obtain ⟨h, p, line, hd, hf, -⟩ := drawLeft_spec env m s hm hwf hp
    refine ⟨h, _, _, hd, closeLeftSlot_eq m _ (by simpa using h1), ?_, ?_⟩
    · simp only [List.getElem_set_self, closeProcs_fresh_last h s.procs p hf]
      rw [liveCount_append_dead _ _ _ _ _ _ _ _ rfl]
      exact hfree
    · simp [leftHidden, h1, closeVar_drawn (fresh_isDrawn hf)]
  · intro hfree hs
    obtain ⟨h, p, line, hd, hf, -⟩ := drawMain_settled env f m s hm hwf hs hp
    refine ⟨h, _, _, hd, closeMainSlot_eq m _ (by simpa using h2), ?_, ?_⟩
    · simp only [List.getElem_set_self, closeProcs_fresh_last h s.procs p hf]
      rw [liveCount_append_dead _ _ _ _ _ _ _ _ rfl]
      exact hfree
    · simp [mainHidden, h2, closeVar_drawn (fresh_isDrawn hf)]

/-- Witness of C4 (amended): the first draw and close of slot 0 after
initialisation, for both roles. -/
theorem draw_then_close_witness :
    WF (initState oneMonitor contiguousConfig "user") ∧
    liveCount (initState oneMonitor contiguousConfig "user") .left 0 = 0 ∧
    liveCount (initState oneMonitor contiguousConfig "user") .main 0 = 0 ∧
    Settled (initState oneMonitor contiguousConfig "user") ∧
    (∃ h s1 s2, drawDzenLeftBarByMonitor eagerEnv (0 : Nat)
        (initState oneMonitor contiguousConfig "user") = .ok (.ok h, s1) ∧
      closeLeftSlot (0 : Nat) s1 = .ok s2 ∧ liveCount s2 .left (0 : Nat) = 0 ∧
      leftHidden s2 0 = some true) ∧
    (∃ h s1 s2, drawDzenMainBarByMonitor eagerEnv 3 (0 : Nat)
        (initState oneMonitor contiguousConfig "user") = .ok (.ok h, s1) ∧
      closeMainSlot (0 : Nat) s1 = .ok s2 ∧ liveCount s2 .main (0 : Nat) = 0 ∧
      mainHidden s2 0 = some true) :=
  have hw : WF (initState oneMonitor contiguousConfig "user") := ⟨rfl, rfl⟩
  have hl : liveCount (initState oneMonitor contiguousConfig "user") .left 0 = 0 := rfl
  have hr : liveCount (initState oneMonitor contiguousConfig "user") .main 0 = 0 := rfl
  have hs : Settled (initState oneMonitor contiguousConfig "user") := Or.inl (by decide!)
  have key := draw_then_close eagerEnv 3 0 (initState oneMonitor contiguousConfig "user")
    (by decide) (by decide!) hw (fun h => SpawnResult.noConfusion h)
  ⟨hw, hl, hr, hs, key.1 hl, key.2 hr hs⟩

/-- C5 (evaluation at the failing input). Two monitors, contiguous bar, bars
0..3 running after start-up (left 0, left 1, main 0, main 1). In a redraw whose
close goroutines run after `oldBar` has been reassigned, the close request of
monitor 0 goes to the old bar of monitor 1 (processes 1 and 3), before the new
bar of monitor 1 is installed, and the old bars of monitor 0 (processes 0 and
2) get no close request and keep running. -/
theorem late_close_hits_next_monitor :
    (do let s ← drawDzenBars eagerEnv 3 (initState twoMonitors contiguousConfig "user")
        let s' ← drawDzenBars deferredEnv 3 s
        pure (s.dzenLeftbar.map (fun d => d.cmd), s.dzenMainbar.map (fun d => d.cmd),
          lifecycle (eventsSince s s'), liveCount s' .left 0, liveCount s' .main 0))
      = Except.ok ([some 0, some 1], [some 2, some 3],
          [Event.install .left 0 (some 4), Event.closeReq (some 1),
           Event.install .left 1 (some 5), Event.closeReq (some 1),
           Event.install .main 0 (some 6), Event.closeReq (some 3),
           Event.install .main 1 (some 7), Event.closeReq (some 3)], 2, 2) := by
  decide!

/-- C6 (as stated, refuted). One monitor, contiguous bar: after start-up the
window manager hides monitor 0, which closes stream 1 of its main bar and
leaves the closed handle in `dzenMainbar[0]`; the next tick writes to stream 1
and the write is refused. -/
theorem update_writes_to_closed_stream :
    (do let s ← drawDzenBars eagerEnv 3 (initState oneMonitor contiguousConfig "user")
        let s ← toggleBars eagerEnv 3 0 s
        let s' ← updateStatusBar eagerEnv 3 clockData s
        pure (s.dzenMainbar.map (fun d => d.stdin), streamOpen s 1,
          s'.trace.head?.map writeInfo))
      = Except.ok ([some 1], false, some (some (1, false))) := by
  decide!

/-- C6 (amended). On a well-formed state and with enough fuel, for
`updateStatusBar` and for `reloadStatusBar`:
when the call triggers no redraw (the bar is contiguous, or the width computed
from the new snapshot is `mainbarWidth`) and every main-bar slot holds a
stream, the call returns, replaces no handle, creates and closes no process,
and makes one content write per main-bar slot, in monitor order, to the stream
that slot holds, accepted exactly when this stream is open: the write for a
monitor whose main bar has been closed targets its closed stream and is
refused, the writes for the other monitors are accepted;
when every process creation succeeds and either every main-bar slot holds an
open stream, or the call triggers a redraw and the handles refer to processes
that exist, the call returns, no write it or the redraw makes is refused, and
every main-bar slot holds an open stream afterwards. -/
theorem content_write_targets (env : Env) (fuel : Nat) (collected : List (String × info))
    (s : State) (hfuel : 2 ≤ fuel) (hwf : WF s) :
    (Settled (collectStats collected s) → AllStdin s →
      (∃ s', updateStatusBar env fuel collected s = .ok s' ∧ WroteEach s s') ∧
      (∃ s', reloadStatusBar env fuel collected s = .ok s' ∧ WroteEach s s')) ∧
    (AllStarted env →
      MainOpen s ∨ (¬ Settled (collectStats collected s) ∧ KnownHandles s) →
      (∃ s', updateStatusBar env fuel collected s = .ok s' ∧ NoRefusedSince s s' ∧ MainOpen s') ∧
      (∃ s', reloadStatusBar env fuel collected s = .ok s' ∧ NoRefusedSince s s' ∧
        MainOpen s')) := by
  obtain ⟨f, rfl⟩ : ∃ f, fuel = f + 2 := ⟨fuel - 2, by omega⟩
  have hwf0 : WF (collectStats collected s) := hwf
  constructor
  · intro hs hstd
    obtain ⟨s', hloop, hw⟩ := pushContent_exact env (f + 1) (collectStats collected s) hwf0 hs hstd
    refine ⟨⟨s', ?_, hw⟩, ⟨s', ?_, hw⟩⟩
    · unfold updateStatusBar
      simp only [hwf0.1]
      exact hloop
    · unfold reloadStatusBar
      exact hloop
  · intro hall hready
    obtain ⟨s', hloop, hnr, hfin⟩ :=
      pushContent_known env f (collectStats collected s) hwf0 hall hready
    refine ⟨⟨s', ?_, hnr, hfin⟩, ⟨s', ?_, hnr, hfin⟩⟩
    · unfold updateStatusBar
      simp only [hwf0.1]
      exact hloop
    · unfold reloadStatusBar
      exact hloop

/-- Witness of C6 (amended). After start-up and a hide of monitor 0: with a
contiguous bar the next tick makes its one write to the closed stream 1, which
refuses it; with a floating bar and a snapshot that changes the width the tick
redraws the main bar first and no write is refused. -/
theorem content_write_targets_witness :
    (WF hiddenState ∧ Settled (collectStats clockData hiddenState) ∧ AllStdin hiddenState ∧
      hiddenState.dzenMainbar.map (fun d => d.stdin) = [some 1] ∧
      streamOpen hiddenState 1 = false ∧
      (∃ s', updateStatusBar eagerEnv 2 clockData hiddenState = .ok s' ∧
        WroteEach hiddenState s') ∧
      (∃ s', reloadStatusBar eagerEnv 2 clockData hiddenState = .ok s' ∧
        WroteEach hiddenState s')) ∧
    (WF hiddenFloatingState ∧ ¬ Settled (collectStats clockData hiddenFloatingState) ∧
      KnownHandles hiddenFloatingState ∧
      hiddenFloatingState.dzenMainbar.map (fun d => d.stdin) = [some 1] ∧
      streamOpen hiddenFloatingState 1 = false ∧
      (∃ s', updateStatusBar eagerEnv 2 clockData hiddenFloatingState = .ok s' ∧
        NoRefusedSince hiddenFloatingState s' ∧ MainOpen s') ∧
      (∃ s', reloadStatusBar eagerEnv 2 clockData hiddenFloatingState = .ok s' ∧
        NoRefusedSince hiddenFloatingState s' ∧ MainOpen s')) :=
  have hw : WF hiddenState := ⟨by decide!, by decide!⟩
  have hs : Settled (collectStats clockData hiddenState) := Or.inl (by decide!)
  have hstd : AllStdin hiddenState := fun t ht =>
    have h0 : t = 0 := by
      have : hiddenState.monitors.length = 1 := by decide!
      omega
    h0 ▸ ⟨hiddenState.dzenMainbar.getD 0 dzenInfo.zero, 1, by decide!, by decide!⟩
  have hw2 : WF hiddenFloatingState := ⟨by decide!, by decide!⟩
  have hs2 : ¬ Settled (collectStats clockData hiddenFloatingState) := by
    unfold Settled
    decide!
  have hk2 : KnownHandles hiddenFloatingState := by
    unfold KnownHandles
    decide!
  ⟨⟨hw, hs, hstd, by decide!, by decide!,
      (content_write_targets eagerEnv 2 clockData hiddenState (by decide) hw).1 hs hstd⟩,
    ⟨hw2, hs2, hk2, by decide!, by decide!,
      (content_write_targets eagerEnv 2 clockData hiddenFloatingState (by decide) hw2).2
        (fun _ => rfl) (Or.inr ⟨hs2, hk2⟩)⟩⟩

/-- C7 (as stated, refuted). With a floating bar, the tick after start-up that
brings a clock into the snapshot launches a renderer process and replaces the
main-bar handle of monitor 0. -/
theorem update_relaunches_floating_bar :
    (do let s ← drawDzenBars eagerEnv 3 (initState oneMonitor floatingConfig "user")
        let s' ← updateStatusBar eagerEnv 3 clockData s
        pure (s.procs.length, s'.procs.length,
          s.dzenMainbar.map (fun d => d.cmd), s'.dzenMainbar.map (fun d => d.cmd)))
      = Except.ok (3, 4, [some 1], [some 3]) := by
  decide!

/-- C7 (amended). On a well-formed state whose main-bar handles have a stream,
with enough fuel and no `StdinPipe` failure, `updateStatusBar` returns and
leaves every left-bar handle unchanged; when the bar is contiguous or the width
computed from the collected snapshot equals `mainbarWidth`, it creates no
process, replaces no main-bar handle, keeps `mainbarWidth`, and adds to the
trace exactly one write per main-bar slot, in monitor order, to the stream of
that slot. -/
theorem updateStatusBar_effect (env : Env) (fuel : Nat) (collected : List (String × info))
    (s : State) (hfuel : 2 ≤ fuel) (hwf : WF s) (hpipe : NoPipeError env) (hstd : AllStdin s) :
    ∃ s', updateStatusBar env fuel collected s = .ok s' ∧ s'.dzenLeftbar = s.dzenLeftbar ∧
      (Settled (collectStats collected s) →
        s'.dzenMainbar = s.dzenMainbar ∧ s'.procs = s.procs ∧
        s'.mainbarWidth = s.mainbarWidth ∧
        ∃ ws, s'.trace = ws ++ s.trace ∧ List.Forall₂ WritesTo ws.reverse s.dzenMainbar) := by
  obtain ⟨f, rfl⟩ : ∃ f, fuel = f + 2 := ⟨fuel - 2, by omega⟩
  have hwf0 : WF (collectStats collected s) := hwf
  have hinit : PushInv (collectStats collected s) 0 (collectStats collected s) :=
    { frame := MainFrame.reflFrame _, stdin := hstd,
      quiet := fun _ => ⟨rfl, rfl, rfl, [], rfl, by simp⟩ }
  obtain ⟨s', hloop, hfin⟩ :=
    pushLoop_rule env (f + 2) (PushInv (collectStats collected s))
      (collectStats collected s).dzenMainbar.length 0 (collectStats collected s)
      (fun j st _ hj hinv =>
        push_step env f _ hwf0 hpipe j st (by rw [← hwf0.1]; omega) hinv)
      hinit
  refine ⟨s', ?_, hfin.frame.left, ?_⟩
  · unfold updateStatusBar
    simp only [List.range_eq_range']
    exact hloop
  · intro hs
    obtain ⟨h1, h2, h3, ws, h4, h5⟩ := hfin.quiet hs
    refine ⟨h1, h2, h3, ws, h4, ?_⟩
    have : List.take (0 + (collectStats collected s).dzenMainbar.length)
        (collectStats collected s).dzenMainbar = s.dzenMainbar := by
      simp [collectStats]
    rw [this] at h5
    exact h5

/-- Witness of C7 (amended): the first tick after start-up, contiguous bar. -/
theorem updateStatusBar_effect_witness :
    WF startedState ∧ AllStdin startedState ∧ Settled (collectStats clockData startedState) ∧
    ∃ s', updateStatusBar eagerEnv 3 clockData startedState = .ok s' ∧
      s'.dzenLeftbar = startedState.dzenLeftbar ∧
      (Settled (collectStats clockData startedState) →
        s'.dzenMainbar = startedState.dzenMainbar ∧ s'.procs = startedState.procs ∧
        s'.mainbarWidth = startedState.mainbarWidth ∧
        ∃ ws, s'.trace = ws ++ startedState.trace ∧
          List.Forall₂ WritesTo ws.reverse startedState.dzenMainbar) :=
  have hw : WF startedState := ⟨by decide!, by decide!⟩
  have hstd : AllStdin startedState := fun t ht =>
    have h0 : t = 0 := by
      have : startedState.monitors.length = 1 := by decide!
      omega
    h0 ▸ ⟨startedState.dzenMainbar.getD 0 dzenInfo.zero, 1, by decide!, by decide!⟩
  ⟨hw, hstd, Or.inl (by decide!),
    updateStatusBar_effect eagerEnv 3 clockData startedState (by decide) hw
      (fun _ h => SpawnResult.noConfusion h) hstd⟩

/-- C8 (as stated, refuted). One monitor, floating bar, `mainbarWidth` still at
its initial 500, and a snapshot whose unstyled status is 1118485 bytes long:
7.5 times the length is 8388637.5, truncated 8388637. `float32` has no value
8388637.5 and the product rounds to 8388638: `resizeDzenMainBar` stores
8388638, not the claimed target, and a second call, for which the claimed
target 8388637 differs from the stored width, changes nothing. -/
theorem resize_rounds_to_even :
    longIconState.contiguousBar = false ∧ longIconState.mainbarWidth = 500 ∧
    statusBarLen longIconState = 1118485 ∧ ((15 * 1118485 / 2 : Nat) : Int) = 8388637 ∧
    ∃ s', resizeDzenMainBar eagerEnv 2 longIconState = .ok s' ∧ s'.mainbarWidth = 8388638 ∧
      statusBarLen s' = 1118485 ∧ resizeDzenMainBar eagerEnv 2 s' = .ok s' := by
  have hw : WF longIconState := ⟨rfl, rfl⟩
  have hns : ¬ Settled longIconState := by
    rintro (h | h)
    · exact absurd h (by decide!)
    · rw [targetWidth_longIconState] at h
      exact absurd h (by decide!)
  obtain ⟨s', hres, hframe, hset, -, hnew⟩ :=
    resize_spec eagerEnv 0 longIconState hw (fun _ h => SpawnResult.noConfusion h)
  refine ⟨by decide!, by decide!, statusBarLen_longIconState, by decide, s', hres, ?_, ?_,
    resize_settled eagerEnv 1 s' hset⟩
  · rw [(hnew hns).1, targetWidth_longIconState]
  · unfold statusBarLen
    rw [hframe.vars.data]
    exact statusBarLen_longIconState

/-- C8 (amended). With enough fuel, `resizeDzenMainBar` returns the state
unchanged when the bar is contiguous or the target
`int(float32(statusBarLen()) * 7.5)` equals `mainbarWidth`. Otherwise, on a
well-formed state: when `StdinPipe` fails for none of the process creations of
the redraw (one per monitor), it returns, with the target stored in
`mainbarWidth`, one new main-bar process per monitor created in monitor order
and installed in the slot of its monitor, no other process created, and the
left bars untouched; when the handles installed before refer to processes that
exist, each new process whose `Start` succeeded runs with its stream open, and,
when moreover every close goroutine runs at its `go` statement, the main bar
that each slot held before has been closed; when `StdinPipe` fails for one of
these creations, the call ends in the panic of a write to a nil stream. The
target is 7.5 times the length, truncated, for every length below
2^24 / 15. -/
theorem resize_effect (env : Env) (fuel : Nat) (s : State) (hfuel : 2 ≤ fuel) :
    ((s.contiguousBar = true ∨ targetWidth s = s.mainbarWidth) →
      resizeDzenMainBar env fuel s = .ok s) ∧
    (¬ (s.contiguousBar = true ∨ targetWidth s = s.mainbarWidth) → WF s →
      (PipesOk env s s.monitors.length →
        ∃ s', resizeDzenMainBar env fuel s = .ok s' ∧ Resized env s s') ∧
      (¬ PipesOk env s s.monitors.length →
        resizeDzenMainBar env fuel s = .error .nilDereference)) ∧
    (15 * statusBarLen s < 2 ^ 24 →
      targetWidth s = ((15 * statusBarLen s / 2 : Nat) : Int)) := by
  obtain ⟨f, rfl⟩ : ∃ f, fuel = f + 2 := ⟨fuel - 2, by omega⟩
  exact ⟨fun h => resize_settled env (f + 1) s h,
    fun hns hwf => ⟨fun hp => resize_relaunch env f s hwf hns hp,
      fun hp => resize_pipe_fails env f s hwf hns hp⟩,
    fun h => scaleByMagic_small _ h⟩

/-- Witness of C8 (amended): the resize of the first tick after the start-up of
a floating bar on one monitor. The width 0 stored at start-up is not the target
82 of the snapshot with a clock; the call creates process 3 for the main bar of
monitor 0, which runs with its stream open, and closes the bar that the slot
held (process 1). -/
theorem resize_effect_witness :
    WF tickedFloatingState ∧
    ¬ (tickedFloatingState.contiguousBar = true ∨
        targetWidth tickedFloatingState = tickedFloatingState.mainbarWidth) ∧
    PipesOk eagerEnv tickedFloatingState tickedFloatingState.monitors.length ∧
    KnownHandles tickedFloatingState ∧ AllEager eagerEnv ∧
    tickedFloatingState.procs.length = 3 ∧
    tickedFloatingState.dzenMainbar.map (fun d => (d.stdin, d.cmd)) = [(some 1, some 1)] ∧
    streamOpen tickedFloatingState 1 = true ∧
    ∃ s', resizeDzenMainBar eagerEnv 2 tickedFloatingState = .ok s' ∧
      Resized eagerEnv tickedFloatingState s' ∧ s'.mainbarWidth = 82 ∧
      procRunning s' 3 = true ∧ streamOpen s' 3 = true ∧
      procRunning s' 1 = false ∧ streamOpen s' 1 = false := by
  have hw : WF tickedFloatingState := ⟨by decide!, by decide!⟩
  have hns : ¬ (tickedFloatingState.contiguousBar = true ∨
      targetWidth tickedFloatingState = tickedFloatingState.mainbarWidth) := by decide!
  have hp : PipesOk eagerEnv tickedFloatingState tickedFloatingState.monitors.length :=
    fun _ _ h => SpawnResult.noConfusion h
  have hk : KnownHandles tickedFloatingState := by
    unfold KnownHandles
    decide!
  have he : AllEager eagerEnv := fun _ => rfl
  obtain ⟨s', hres, hr⟩ := ((resize_effect eagerEnv 2 tickedFloatingState (by decide)).2.1 hns hw).1 hp
  have hlive := hr.live hk 0 (by decide!) rfl
  have hret := hr.retired hk he 0 (tickedFloatingState.dzenMainbar.getD 0 dzenInfo.zero)
    (by decide!) 1 1 (by decide!) (by decide!)
  have hL : tickedFloatingState.procs.length + 0 = 3 := by decide!
  rw [hL] at hlive
  refine ⟨hw, hns, hp, hk, he, by decide!, by decide!, by decide!, s', hres, hr, ?_,
    hlive.1, hlive.2, hret.2, hret.1⟩
  rw [hr.width]
  decide!

/-- C9 (evaluation at the failing input). Two monitors, contiguous bar, a
redraw after start-up in which `Start` fails for the new main bar of monitor 0
(process 6): `drawDzenMainBarByMonitor` returns a nil error for monitor 0, the
handle of the failed process is installed, the old main bar of monitor 0 is
closed, and monitor 0 has no running main bar while monitor 1 has one. When
`StdinPipe` fails instead, the write to the nil stream ends the whole redraw. -/
theorem spawn_failure_is_not_reported :
    (do let s ← drawDzenBars eagerEnv 3 (initState twoMonitors contiguousConfig "user")
        let s ← drawDzenLeftBar (startFailsAt 6) s
        let (r, s1) ← drawDzenMainBarByMonitor (startFailsAt 6) 3 0 s
        let s' ← drawDzenMainBar (startFailsAt 6) 3 s
        pure (drewWithoutError r, liveCount s1 .main 0,
          s'.dzenMainbar.map (fun d => d.cmd), liveCount s' .main 0, liveCount s' .main 1))
      = Except.ok (true, 1, [some 6, some 7], 0, 1)
    ∧ (do let s ← drawDzenBars eagerEnv 3 (initState twoMonitors contiguousConfig "user")
          drawDzenBars (pipeFailsAt 6) 3 s)
      = Except.error Fault.nilDereference := by
  constructor <;> decide!

/-- C10 (evaluation at the failing inputs). After start-up with one monitor,
`TOGGLE-BAR` without an index, with index 5 and with index -1 all end in an
index-out-of-range panic (`tokens[1]`, `dzenLeftbar[5]`, `dzenLeftbar[-1]`);
only an index that is not an integer is reported and ignored. -/
theorem toggle_bar_bad_index_panics :
    parseReceivedData eagerEnv 3 (ascii "TOGGLE-BAR") startedState
      = Except.error Fault.indexOutOfRange
    ∧ parseReceivedData eagerEnv 3 (ascii "TOGGLE-BAR 5") startedState
      = Except.error Fault.indexOutOfRange
    ∧ parseReceivedData eagerEnv 3 (ascii "TOGGLE-BAR -1") startedState
      = Except.error Fault.indexOutOfRange
    ∧ parseReceivedData eagerEnv 3 (ascii "TOGGLE-BAR x") startedState
      = Except.ok startedState := by
  refine ⟨?_, ?_, ?_, ?_⟩ <;> decide!

/-- C11. For every inbound byte sequence whose first space-delimited token,
after NUL trimming and upper-casing, is not `TOGGLE-BAR`, `parseReceivedData`
returns without failure and the state (both bar tables, `mainbarWidth`, the
processes and the trace) is what it was. -/
theorem unknown_command_ignored (env : Env) (fuel : Nat) (recv : List Nat) (s : State)
    (h : toUpper (firstToken recv) ≠ ascii "TOGGLE-BAR") :
    parseReceivedData env fuel recv s = .ok s := by
  simp only [parseReceivedData, getAt_zero_splitOn, bind, Except.bind, if_neg h]
  rfl

/-- Witness of C11: the message `FOO-BAR 1` and the empty message after
start-up. -/
theorem unknown_command_ignored_witness :
    toUpper (firstToken (ascii "FOO-BAR 1")) ≠ ascii "TOGGLE-BAR" ∧
    toUpper (firstToken []) ≠ ascii "TOGGLE-BAR" ∧
    parseReceivedData eagerEnv 3 (ascii "FOO-BAR 1") startedState = .ok startedState ∧
    parseReceivedData eagerEnv 3 [] startedState = .ok startedState :=
  ⟨by decide!, by decide!,
    unknown_command_ignored eagerEnv 3 (ascii "FOO-BAR 1") startedState (by decide!),
    unknown_command_ignored eagerEnv 3 [] startedState (by decide!)⟩

theorem toUpperByte_eq_iff (x y : Nat) (hy : ¬ (97 ≤ y ∧ y ≤ 122)) :
    toUpperByte x = y ↔ sameLetter x y = true := by
  unfold toUpperByte sameLetter
  simp only [Bool.or_eq_true, Bool.and_eq_true, decide_eq_true_eq]
  split <;> omega

/-- Comparing the upper-cased command with a name that has no lower-case letter
is comparing the command with the name up to the case of ASCII letters. -/
theorem toUpper_eq_iff : ∀ (cmd name : List Nat), (∀ y ∈ name, ¬ (97 ≤ y ∧ y ≤ 122)) →
    (toUpper cmd = name ↔ namesCommand cmd name = true)
  | [], [], _ => by simp [toUpper, namesCommand]
  | [], _ :: _, _ => by simp [toUpper, namesCommand]
  | _ :: _, [], _ => by simp [toUpper, namesCommand]
  | x :: cmd, y :: name, h => by
    have ih := toUpper_eq_iff cmd name (fun z hz => h z (List.mem_cons_of_mem _ hz))
    have hb := toUpperByte_eq_iff x y (h y (List.mem_cons_self _ _))
    unfold toUpper at ih ⊢
    simp only [List.map_cons, List.cons.injEq, namesCommand, Bool.and_eq_true]
    rw [hb, ih]

theorem themeReload_upper : ∀ y ∈ ascii "THEME-RELOAD", ¬ (97 ≤ y ∧ y ≤ 122) := by
  decide

/-- C12. For every command `cmd`, `sendCmdToWm` hands at most one byte slice to
`socket.Write`: exactly when the socket is not nil and `cmd` is `THEME-RELOAD`
up to the case of its letters (which is when the upper-cased `cmd` equals
`THEME-RELOAD`), and the slice is then the twelve bytes `THEME-RELOAD`, nothing
before or after them; for any other `cmd`, or a nil socket, nothing is written.
So `theme-reload` and `Theme-Reload` are sent as `THEME-RELOAD`, while `reload`,
`THEME-RELOAD` followed by a line feed and `THEME_RELOAD` are not sent. -/
theorem sendCmdToWm_writes (cmd : List Nat) (socket : WmSocket) :
    (sendCmdToWm cmd socket).isNil = socket.isNil ∧
    (sendCmdToWm cmd socket).written =
      (if socket.isNil = false ∧ namesCommand cmd (ascii "THEME-RELOAD") = true
        then socket.written ++ [ascii "THEME-RELOAD"] else socket.written) ∧
    (toUpper cmd = ascii "THEME-RELOAD" ↔ namesCommand cmd (ascii "THEME-RELOAD") = true) ∧
    (sendCmdToWm cmd socket).written =
      (if socket.isNil = false ∧ toUpper cmd = ascii "THEME-RELOAD"
        then socket.written ++ [ascii "THEME-RELOAD"] else socket.written) ∧
    ascii "THEME-RELOAD" = [84, 72, 69, 77, 69, 45, 82, 69, 76, 79, 65, 68] ∧
    sendCmdToWm (ascii "theme-reload") { isNil := false, written := [] }
      = { isNil := false, written := [[84, 72, 69, 77, 69, 45, 82, 69, 76, 79, 65, 68]] } ∧
    sendCmdToWm (ascii "Theme-Reload") { isNil := false, written := [] }
      = { isNil := false, written := [[84, 72, 69, 77, 69, 45, 82, 69, 76, 79, 65, 68]] } ∧
    sendCmdToWm (ascii "THEME-RELOAD") { isNil := false, written := [] }
      = { isNil := false, written := [[84, 72, 69, 77, 69, 45, 82, 69, 76, 79, 65, 68]] } ∧
    sendCmdToWm (ascii "reload") { isNil := false, written := [] }
      = { isNil := false, written := [] } ∧
    sendCmdToWm (ascii "THEME-RELOAD\n") { isNil := false, written := [] }
      = { isNil := false, written := [] } ∧
    sendCmdToWm (ascii "THEME_RELOAD") { isNil := false, written := [] }
      = { isNil := false, written := [] } ∧
    sendCmdToWm (ascii "theme-reload") { isNil := true, written := [] }
      = { isNil := true, written := [] } := by
  have hiff := toUpper_eq_iff cmd (ascii "THEME-RELOAD") themeReload_upper
  have hw : (sendCmdToWm cmd socket).written =
      (if socket.isNil = false ∧ toUpper cmd = ascii "THEME-RELOAD"
        then socket.written ++ [ascii "THEME-RELOAD"] else socket.written) := by
    simp only [sendCmdToWm]
    cases hn : socket.isNil
    · by_cases hu : toUpper cmd = ascii "THEME-RELOAD"
      · simp [hu, hn]
      · simp [hu, hn]
    · simp [hn]
  refine ⟨?_, ?_, hiff, hw, by decide!, by decide!, by decide!, by decide!, by decide!,
    by decide!, by decide!, by decide!⟩
  · simp only [sendCmdToWm]
    cases hn : socket.isNil
    · by_cases hu : toUpper cmd = ascii "THEME-RELOAD"
      · simp [hu, hn]
      · simp [hu, hn]
    · simp [hn]
  · rw [hw]
    simp only [hiff]

/-- C13 (as stated, refuted). With the long snapshot (stored clock length
1118485) and user name `bob` the counted total is 1118493; 7.5 times it is
8388697.5, and `barWidthFromKey` returns 8388698, not the truncation 8388697:
the `float32` product is rounded to even before the conversion to `int`. -/
theorem barWidth_rounds_to_even :
    widthFrom longUserState.data "clock" keys + len longUserState.username + 5 = 1118493 ∧
    barWidthFromKey longUserState "clock" = 8388698 ∧
    ((15 * 1118493 / 2 : Nat) : Int) = 8388697 := by
  refine ⟨?_, ?_, ?_⟩ <;> decide!

/-- C13 (amended). For every snapshot, key order, start key and user name, the
loop of `barWidthFromKey` adds the stored lengths of the metrics from the start
key onward (metrics before it are not counted, missing ones count zero), and
`barWidthFromKey` returns `int(float32(total) * 7.5)` for that sum plus
`len(username) + 5`; this is 7.5 times the total, truncated, whenever
15 * total is below 2^24. In the example (start key `volume`, stored lengths
5, 6, 6, 3, 4, a user name of 4 bytes) the result is 120. -/
theorem barWidthFromKey_value (s : State) (key : String) :
    (∀ (ks : List String) (w : Nat),
      (barWidthLoop s.data key ks (w, false)).1 = w + widthFrom s.data key ks) ∧
    barWidthFromKey s key = scaleByMagic (widthFrom s.data key keys + (len s.username + 5)) ∧
    (15 * (widthFrom s.data key keys + (len s.username + 5)) < 2 ^ 24 →
      barWidthFromKey s key
        = ((15 * (widthFrom s.data key keys + (len s.username + 5)) / 2 : Nat) : Int)) ∧
    barWidthFromKey exampleState "volume" = 120 := by
  have h : barWidthFromKey s key
      = scaleByMagic (widthFrom s.data key keys + (len s.username + 5)) := by
    unfold barWidthFromKey
    simp only [barWidthLoop_fst, Nat.zero_add]
  refine ⟨barWidthLoop_fst s.data key, h, fun hlt => ?_, by decide!⟩
  rw [h, scaleByMagic_small _ hlt]

/-- C14. For every instant `now` in nanoseconds, the sleep duration of the
ticker is positive and at most one second, `now` plus the duration is a
whole-second boundary, and no whole-second boundary lies strictly between
`now` and it. -/
theorem sleepDuration_next_second (now : Int) :
    0 < sleepDuration now ∧ sleepDuration now ≤ second ∧
    (now + sleepDuration now) % second = 0 ∧
    ∀ b : Int, b % second = 0 → ¬ (now < b ∧ b < now + sleepDuration now) := by
  unfold sleepDuration truncate second
  simp only [show ¬ ((1000000000 : Int) ≤ 0) by decide, if_false]
  refine ⟨by omega, by omega, by omega, ?_⟩
  intro b hb
  omega

/-- C15. With fuel for one nested call (two units) the recursion
`statusBar -> resizeDzenMainBar -> drawDzenMainBar -> drawDzenMainBarByMonitor
-> statusBar` ends for every state and environment: the results of the four
functions do not change with more fuel and are never a lack of fuel. A nested
`resizeDzenMainBar`, reached with the snapshot unchanged and `mainbarWidth`
already at the target, returns the state as it is. A returned outer
`resizeDzenMainBar` has either changed nothing or created exactly one main-bar
process per monitor, in monitor order. -/
theorem redraw_recursion_terminates (env : Env) (f : Nat) :
    (resizeDzenMainBar env (f + 2) = resizeDzenMainBar env 2 ∧
      statusBar env (f + 2) = statusBar env 2 ∧
      drawDzenMainBarByMonitor env (f + 2) = drawDzenMainBarByMonitor env 2 ∧
      drawDzenMainBar env (f + 2) = drawDzenMainBar env 2) ∧
    (∀ (s : State) (screen : Int), Finishes (resizeDzenMainBar env (f + 2) s) ∧
      Finishes (statusBar env (f + 2) screen s) ∧
      Finishes (drawDzenMainBarByMonitor env (f + 2) screen s) ∧
      Finishes (drawDzenMainBar env (f + 2) s)) ∧
    (∀ t : State, Settled t → resizeDzenMainBar env (f + 1) t = .ok t) ∧
    (∀ s s' : State, resizeDzenMainBar env (f + 2) s = .ok s' →
      Settled s' ∧
      (s' = s ∨ tagsOf s'.procs = tagsOf s.procs ++ mainTags (List.range s.monitors.length))) := by
  have hfun : resizeDzenMainBar env (f + 2) = resizeDzenMainBar env 2 :=
    funext (fun s => (resize_total env f s).1)
  have hfin : ∀ t, Finishes (resizeDzenMainBar env (f + 2) t) := fun t => (resize_total env f t).2.1
  refine ⟨⟨hfun, ?_, ?_, ?_⟩, fun s screen => ⟨hfin s, ?_, ?_, ?_⟩,
    fun t ht => resize_settled env f t ht, fun s s' h => ?_⟩
  · unfold statusBar; rw [hfun]
  · unfold drawDzenMainBarByMonitor; rw [hfun]
  · unfold drawDzenMainBar; rw [hfun]
  · exact finishes_statusBarWith _ hfin screen s
  · exact finishes_drawWith _ hfin env screen s
  · exact finishes_mainLoop _ hfin env _ _ _ _
  · obtain ⟨h1, h2⟩ := (resize_total env f s).2.2 s' h
    exact ⟨h1, h2.imp id (fun x => x.2)⟩

end Foobar
